import Mathlib

/-!
# lofs: persistent lower file, revalidation, page-cache path, directory
operations, lookup, the automount worker and the pass-through operations

A shallow embedding of parts of the lofs loopback filesystem
(`src/lofs/main.c`, `file.c`, `dentry.c`, `mmap.c`, `read_write.c`,
`super.c`, `inode.c`, `kthread.c`) together with theorems about them, and
of the suffix-array search of the markov text generator
(`src/markov/main.cpp`, namespace `Markov`).

Conventions.
* Kernel objects are records; a pointer that may be NULL is an `Option`.
* What the kernel or the lower filesystem answers to a call (the result of
  `dentry_open`, `vfs_read`, `vfs_write`, a lower `d_revalidate` or `bmap`
  hook, an allocation) is an explicit argument of the embedded function.
* Functions with side effects return the new state together with the list
  of kernel calls they made, in program order.
* C integers are `Nat`/`Int`; conversions between C integer types are the
  explicit `to_unsigned`/`to_signed` below.
-/

namespace Lofs

/-! ## C integer conversions -/

/-- Conversion of an integer value to an unsigned C type of `w` bits. -/
def to_unsigned (w : Nat) (x : Int) : Nat := (x % (2 : Int) ^ w).toNat

/-- Conversion of an integer value to a signed (two's complement) C type of `w` bits. -/
def to_signed (w : Nat) (x : Int) : Int :=
  let m := x % (2 : Int) ^ w
  if m < (2 : Int) ^ (w - 1) then m else m - (2 : Int) ^ w

/-! ## Kernel constants (`linux/fs.h`, `asm-generic/fcntl.h`, `linux/err.h`) -/

def FMODE_READ : Nat := 0x1
def FMODE_WRITE : Nat := 0x2
def FMODE_LSEEK : Nat := 0x4
def FMODE_PREAD : Nat := 0x8
def FMODE_PWRITE : Nat := 0x10
/-- File mode bit of files opened by fanotify (`linux/fs.h`, kernels 2.6.36 to 3.x). -/
def FMODE_NONOTIFY : Nat := 0x1000000

def O_RDONLY : Nat := 0
def O_WRONLY : Nat := 1
def O_RDWR : Nat := 2
def O_ACCMODE : Nat := 3
def O_LARGEFILE : Nat := 0x8000

/-- Largest errno an `ERR_PTR` can carry. -/
def MAX_ERRNO : Nat := 4095

def ENOENT : Int := 2
def EIO : Int := 5
def EBADF : Int := 9
def ENOMEM : Int := 12
def EACCES : Int := 13
def EXDEV : Int := 18
def EINVAL : Int := 22
def ESTALE : Int := 116

/-! ## Files and the persistent lower file (`main.c`, `super.c`) -/

/-- Kernel `struct file`, reduced to its identity (`addr`, the address of the
struct), its open flags, its mode bits and its position. -/
structure file where
  addr : Nat
  f_flags : Nat
  f_mode : Nat
  f_pos : Int
  deriving DecidableEq, Repr

/-- Answer of the kernel to one `dentry_open`: a new `struct file` at address
`addr`, or `ERR_PTR(-(e+1))` with an errno in `1 .. MAX_ERRNO`. -/
inductive open_outcome where
  | opened (addr : Nat)
  | failed (e : Fin 4095)
  deriving DecidableEq, Repr

/-- Kernel calls recorded in the trace of an operation.  `lock_inode d` and
`unlock_inode d` are `LOCK_INODE` and `UNLOCK_INODE` of the inode of the
dentry at address `d`; the `req` of the worker's events is the address of
the lookup request. -/
inductive event where
  | mutex_lock
  | mutex_unlock
  | dget
  | mntget
  | dentry_open_ok (f : file)
  | dentry_open_err (rc : Int)
  | fput (f : file)
  | kmem_cache_alloc (ok : Bool)
  | kmem_cache_free
  | vfs_read (pos : Int) (count : Nat)
  | vfs_write (pos : Int) (count : Nat)
  | lock_inode (dentry : Nat)
  | unlock_inode (dentry : Nat)
  | dget_parent
  | dput
  | mntput
  | d_drop
  | d_add
  | d_instantiate
  | igrab
  | iput
  | iget5_locked
  | unlock_new_inode
  | lock_rename
  | unlock_rename
  | vfs_create
  | vfs_mkdir
  | vfs_symlink
  | vfs_mknod
  | vfs_link
  | vfs_rename
  | notify_change (ia_valid : Nat)
  | vmtruncate (size : Nat)
  | d_lookup
  | lookup_one_len
  | d_invalidate
  | follow_down
  | lofs_lookup_managed
  | ctl_mutex_lock
  | ctl_mutex_unlock
  | req_mutex_lock (req : Nat)
  | req_mutex_unlock (req : Nat)
  | kern_path (req : Nat)
  | wake_up (req : Nat)
  | list_add_tail (req : Nat)
  | list_del (req : Nat)
  | wake_up_worker
  | kthread_stop
  deriving DecidableEq, Repr

/-- Kernel `dentry_open(dentry, mnt, flags)`: on success the new file has
`f_mode = ((flags + 1) & O_ACCMODE) | FMODE_LSEEK | FMODE_PREAD | FMODE_PWRITE`
(`fs/open.c`); on failure the result is an error pointer, here its `PTR_ERR`. -/
def dentry_open (flags : Nat) : open_outcome → Except Int file
  | .opened a => .ok
      { addr := a, f_flags := flags,
        f_mode := ((flags + 1) &&& O_ACCMODE) ||| FMODE_LSEEK ||| FMODE_PREAD ||| FMODE_PWRITE,
        f_pos := 0 }
  | .failed e => .error (-((e.val : Int) + 1))

/-- Source function `lofs_privileged_open` (main.c:79): returns `rc`, the file stored through
`lower_file` (none for an error pointer) and the kernel calls made. -/
def lofs_privileged_open (mode : Nat) (k : open_outcome) : Int × Option file × List event :=
  let flags := if mode &&& FMODE_WRITE ≠ 0 then O_LARGEFILE ||| O_RDWR else O_LARGEFILE ||| O_RDONLY
  match dentry_open flags k with
  | .error e => (e, none, [.dget, .mntget, .dentry_open_err e])
  | .ok f => (0, some f, [.dget, .mntget, .dentry_open_ok f])

/-- The part of `struct lofs_inode_info` that the persistent file manager
uses: the persistent lower file (NULL or a file). -/
structure lofs_inode_info where
  lower_file : Option file
  deriving DecidableEq, Repr

/-- Source function `lofs_alloc_inode` (super.c:48): a new inode has no persistent file. -/
def lofs_alloc_inode : lofs_inode_info := { lower_file := none }

/-- Result of `lofs_init_persistent_file`. -/
structure init_result where
  rc : Int
  inode_info : lofs_inode_info
  trace : List event
  deriving DecidableEq, Repr

/-- Source function `lofs_init_persistent_file` (main.c:139).  `k` is what the kernel answers
if the function calls `dentry_open`. -/
def lofs_init_persistent_file (inode_info : lofs_inode_info) (mode : Nat) (k : open_outcome) :
    init_result :=
  let reopen : Bool :=
    match inode_info.lower_file with
    | none => true
    | some f => (f.f_mode &&& mode) != mode
  if reopen then
    match lofs_privileged_open mode k with
    | (rc, tmp, evs) =>
      if rc ≠ 0 then
        { rc := rc, inode_info := inode_info,
          trace := [.mutex_lock] ++ evs ++ [.mutex_unlock] }
      else
        match inode_info.lower_file with
        | some old =>
          { rc := rc, inode_info := { inode_info with lower_file := tmp },
            trace := [.mutex_lock] ++ evs ++ [.fput old, .mutex_unlock] }
        | none =>
          { rc := rc, inode_info := { inode_info with lower_file := tmp },
            trace := [.mutex_lock] ++ evs ++ [.mutex_unlock] }
  else
    { rc := 0, inode_info := inode_info, trace := [.mutex_lock, .mutex_unlock] }

/-- The addresses of the lower files that are open once the calls of the
trace have been made, starting from the open files `acc`: a successful
`dentry_open` adds its file, `fput` of the only reference releases it. -/
def open_files (acc : List Nat) : List event → List Nat
  | [] => acc
  | .dentry_open_ok f :: rest => open_files (f.addr :: acc) rest
  | .fput f :: rest => open_files (acc.erase f.addr) rest
  | _ :: rest => open_files acc rest

/-- State reached by a sequence of `lofs_init_persistent_file` calls on one
inode: the inode, the return codes (latest first) and the trace so far. -/
structure history where
  inode_info : lofs_inode_info
  rcs : List Int
  trace : List event
  deriving DecidableEq, Repr

/-- A sequence of `lofs_init_persistent_file` calls on one inode, each with
its requested mode and the kernel's answer to the open it may attempt. -/
def run_calls (h : history) : List (Nat × open_outcome) → history
  | [] => h
  | (mode, k) :: rest =>
    let r := lofs_init_persistent_file h.inode_info mode k
    run_calls { inode_info := r.inode_info, rcs := r.rc :: h.rcs, trace := h.trace ++ r.trace } rest

/-- History of a freshly allocated inode. -/
def fresh : history := { inode_info := lofs_alloc_inode, rcs := [], trace := [] }

/-- The file permits reading. -/
def file.readable (f : file) : Bool := f.f_mode &&& FMODE_READ != 0

/-- The file permits writing. -/
def file.writable (f : file) : Bool := f.f_mode &&& FMODE_WRITE != 0

/-- The `f_mode` of a file opened `O_RDONLY` (every directory open is one). -/
def ro_mode : Nat := FMODE_READ ||| FMODE_LSEEK ||| FMODE_PREAD ||| FMODE_PWRITE

/-- The `f_mode` of a file opened `O_RDWR`. -/
def rw_mode : Nat := FMODE_READ ||| FMODE_WRITE ||| FMODE_LSEEK ||| FMODE_PREAD ||| FMODE_PWRITE

/-- Invariant of the histories of one inode: the open lower files are the
persistent file alone, there is one exactly when some call returned 0, and
it has at least the mode bits of a read-only open. -/
def persistent_inv (h : history) : Prop :=
  open_files [] h.trace = (h.inode_info.lower_file.map file.addr).toList ∧
  (h.inode_info.lower_file.isSome = true ↔ (0 : Int) ∈ h.rcs) ∧
  ∀ f, h.inode_info.lower_file = some f → f.f_mode &&& ro_mode = ro_mode

/-! ## Overlay files: open and readdir (`file.c`) -/

/-- The `struct lofs_file_info` of an overlay file: its lower file. -/
structure lofs_file_info where
  wfi_file : Option file
  deriving DecidableEq, Repr

/-- An overlay `struct file`: mode bits, position, private data. -/
structure lofs_file where
  f_mode : Nat
  f_pos : Int
  private_data : Option lofs_file_info
  deriving DecidableEq, Repr

/-- Source function `lofs_file_to_lower` (lofs_kernel.h:80). -/
def lofs_file_to_lower (f : lofs_file) : Option file :=
  match f.private_data with
  | some info => info.wfi_file
  | none => none

/-- Result of `lofs_open`. -/
structure open_result where
  rc : Int
  inode_info : lofs_inode_info
  file : lofs_file
  trace : List event
  deriving DecidableEq, Repr

/-- Source function `lofs_open` (file.c:74).  `alloc_ok` says whether `kmem_cache_alloc`
returned memory; `k` is the kernel's answer to a `dentry_open`. -/
def lofs_open (inode_info : lofs_inode_info) (file : lofs_file) (alloc_ok : Bool)
    (k : open_outcome) : open_result :=
  if !alloc_ok then
    { rc := -ENOMEM, inode_info := inode_info, file := { file with private_data := none },
      trace := [.kmem_cache_alloc false] }
  else
    let file1 : lofs_file := { file with private_data := some { wfi_file := none } }
    let r := lofs_init_persistent_file inode_info file.f_mode k
    if r.rc ≠ 0 then
      { rc := r.rc, inode_info := r.inode_info, file := file1,
        trace := [.kmem_cache_alloc true] ++ r.trace ++ [.kmem_cache_free] }
    else
      { rc := 0, inode_info := r.inode_info,
        file := { file1 with private_data := some { wfi_file := r.inode_info.lower_file } },
        trace := [.kmem_cache_alloc true] ++ r.trace }

/-- The entries of a `struct file_operations` that the claims are about. -/
structure file_operations where
  fop_open : lofs_inode_info → lofs_file → Bool → open_outcome → open_result
  has_readdir : Bool

/-- Table `lofs_main_fops` (file.c:403), the table of regular files. -/
def lofs_main_fops : file_operations := { fop_open := lofs_open, has_readdir := false }

/-- The attributes of a `struct inode` that `fsstack_copy_attr_all` and
`fsstack_copy_inode_size` copy, and its inode number. -/
structure inode where
  i_mode : Nat
  i_uid : Nat
  i_gid : Nat
  i_rdev : Nat
  i_atime : Nat
  i_mtime : Nat
  i_ctime : Nat
  i_blkbits : Nat
  i_flags : Nat
  i_nlink : Nat
  i_size : Nat
  i_blocks : Nat
  i_ino : Nat
  deriving DecidableEq, Repr

/-- Kernel `fsstack_copy_attr_all(dest, src)` (`fs/stack.c`). -/
def fsstack_copy_attr_all (dest src : inode) : inode :=
  { dest with
    i_mode := src.i_mode, i_uid := src.i_uid, i_gid := src.i_gid, i_rdev := src.i_rdev,
    i_atime := src.i_atime, i_mtime := src.i_mtime, i_ctime := src.i_ctime,
    i_blkbits := src.i_blkbits, i_flags := src.i_flags, i_nlink := src.i_nlink }

/-- Kernel `fsstack_copy_inode_size(dst, src)` (`fs/stack.c`). -/
def fsstack_copy_inode_size (dst src : inode) : inode :=
  { dst with i_size := src.i_size, i_blocks := src.i_blocks }

/-- An overlay inode as `lofs_d_revalidate` sees it: its attributes and
`wii_inode`, the address of its lower inode. -/
structure lofs_inode where
  vfs_inode : inode
  wii_inode : Nat
  deriving DecidableEq, Repr

/-- Kernel `struct nameidata`, reduced to the dentry and mount it points at (addresses). -/
structure nameidata where
  dentry : Nat
  mnt : Nat
  deriving DecidableEq, Repr

/-- Kernel `struct dentry_operations` of a lower dentry: its `d_revalidate` hook, if
any, as a function of the nameidata it is passed (NULL or not), and whether
the table is `lofs_dops` itself (the dentry is then an overlay dentry). -/
structure dentry_operations where
  d_revalidate : Option (Option nameidata → Int)
  is_lofs_dops : Bool

/-- A lower dentry: its address, the address of its inode (0 is NULL: a
negative dentry), its operations (NULL or a table), whether it is unhashed,
the address of its parent dentry, whether it is a mountpoint
(`d_mountpoint`), whether it is managed (`LOFS_MANAGED_DENTRY`), and the
device id of its superblock (`d_sb->s_dev`). -/
structure lower_dentry where
  addr : Nat
  d_inode : Nat
  d_op : Option dentry_operations
  d_unhashed : Bool
  d_parent : Nat
  d_mounted : Bool
  d_managed : Bool
  s_dev : Nat

/-- An overlay dentry: its inode (NULL for a negative dentry) and the lower
dentry and lower mount of its `lofs_dentry_info`. -/
structure lofs_dentry where
  d_inode : Option lofs_inode
  lower_dentry : lower_dentry
  lower_mnt : Nat

/-- Source function `lofs_revalidate_lower` (dentry.c:43): the return code and the nameidata
as it is left (`LOFS_ND_SAVE_ARGS` / `LOFS_ND_RESTORE_ARGS`). -/
def lofs_revalidate_lower (lower_dentry : lower_dentry) (lower_mnt : Nat)
    (lofs_nd : Option nameidata) : Int × Option nameidata :=
  let rc : Int := 1
  match lower_dentry.d_op with
  | none => (rc, lofs_nd)
  | some d_op =>
    match d_op.d_revalidate with
    | none => (rc, lofs_nd)
    | some d_revalidate =>
      match lofs_nd with
      | none => (d_revalidate lofs_nd, lofs_nd)
      | some nd =>
        let saved_dentry := nd.dentry
        let saved_vfsmount := nd.mnt
        let nd1 : nameidata := { dentry := lower_dentry.addr, mnt := lower_mnt }
        let rc := d_revalidate (some nd1)
        (rc, some { nd1 with dentry := saved_dentry, mnt := saved_vfsmount })

/-- Source function `lofs_d_revalidate` (dentry.c:84).  `lower_inodes` is the memory holding
the lower inodes, by address.  Returns the return code and the overlay
dentry, whose inode attributes may have been refreshed. -/
def lofs_d_revalidate (lower_inodes : Nat → inode) (dentry : lofs_dentry)
    (nd : Option nameidata) : Int × lofs_dentry :=
  let lower_dentry := dentry.lower_dentry
  let lower_mnt := dentry.lower_mnt
  let rc := (lofs_revalidate_lower lower_dentry lower_mnt nd).1
  if rc > 0 then
    match dentry.d_inode with
    | none =>
      if lower_dentry.d_inode ≠ 0 then (0, dentry) else (rc, dentry)
    | some d_inode =>
      let lower_inode := d_inode.wii_inode
      if lower_inode ≠ lower_dentry.d_inode ∨ lower_dentry.d_unhashed = true then
        (0, dentry)
      else
        (rc, { dentry with
                d_inode := some { d_inode with
                  vfs_inode := fsstack_copy_attr_all d_inode.vfs_inode (lower_inodes lower_inode) } })
  else
    (rc, dentry)

/-! ## Page-cache path (`read_write.c`, `mmap.c`) -/

/-- Kernel page size exponent (`asm/page.h`, 4 KiB pages). -/
def PAGE_CACHE_SHIFT : Nat := 12

def PAGE_CACHE_SIZE : Nat := 2 ^ PAGE_CACHE_SHIFT

/-- A page of the overlay's page cache: its index, its bytes by offset in
the page (what `kmap` gives access to), and its uptodate and locked flags. -/
structure page where
  index : Nat
  data : Nat → Nat
  uptodate : Bool
  locked : Bool

/-- The lower inode as the I/O path sees it: its attributes and the bytes of
the file by offset. -/
structure lower_inode where
  attrs : inode
  bytes : Nat → Nat

/-- Answer of the lower filesystem to one `vfs_read` or `vfs_write`: `n` bytes
transferred (at most the count asked for), or the errno `e + 1`. -/
inductive io_outcome where
  | done (n : Nat)
  | failed (e : Fin 4095)
  deriving DecidableEq, Repr

/-- Kernel `vfs_read(file, buf, count, &pos)`: the return value and the
buffer afterwards.  When the lower transfers `k` bytes they are the file's
bytes at `pos .. pos + k - 1`, stored at the start of the buffer. -/
def vfs_read (lower : lower_inode) (buf : Nat → Nat) (count : Nat) (pos : Int)
    (o : io_outcome) : Int × (Nat → Nat) :=
  match o with
  | .failed e => (-((e.val : Int) + 1), buf)
  | .done n =>
    let k := min n count
    ((k : Int), fun j => if j < k then lower.bytes (pos.toNat + j) else buf j)

/-- Kernel `vfs_write(file, buf, count, &pos)`: the return value, the lower
inode afterwards and the new position.  When the lower transfers `k` bytes
they are the first `k` bytes of the buffer, stored at `pos .. pos + k - 1`,
and the file grows to cover them. -/
def vfs_write (lower : lower_inode) (buf : Nat → Nat) (count : Nat) (pos : Int)
    (o : io_outcome) : Int × lower_inode × Int :=
  match o with
  | .failed e => (-((e.val : Int) + 1), lower, pos)
  | .done n =>
    let k := min n count
    let p := pos.toNat
    ((k : Int),
     { attrs := { lower.attrs with
                  i_size := if k = 0 then lower.attrs.i_size else max lower.attrs.i_size (p + k) },
       bytes := fun a => if p ≤ a ∧ a < p + k then buf (a - p) else lower.bytes a },
     pos + k)

/-- Result of `lofs_write_lower`. -/
structure write_lower_result where
  rc : Int
  inode_info : lofs_inode_info
  lower : lower_inode
  trace : List event

/-- Source function `lofs_write_lower` (read_write.c:40).  `none` is the `BUG_ON` of an inode
without persistent file.  The `ssize_t` result of `vfs_write` is returned as
an `int`. -/
def lofs_write_lower (inode_info : lofs_inode_info) (lower : lower_inode) (data : Nat → Nat)
    (offset : Int) (size : Nat) (o : io_outcome) : Option write_lower_result :=
  match inode_info.lower_file with
  | none => none
  | some lower_file =>
    let (rc, lower1, f_pos) := vfs_write lower data size offset o
    some { rc := to_signed 32 rc,
           inode_info := { inode_info with lower_file := some { lower_file with f_pos := f_pos } },
           lower := lower1,
           trace := [.mutex_lock, .vfs_write offset size, .mutex_unlock] }

/-- Source function `lofs_write_lower_page_segment` (read_write.c:77).  The data written is
the page from its first byte (`virt`), whatever `offset_in_page` is. -/
def lofs_write_lower_page_segment (inode_info : lofs_inode_info) (lower : lower_inode)
    (page_for_lower : page) (offset_in_page : Nat) (size : Nat) (o : io_outcome) :
    Option write_lower_result :=
  let offset : Int := to_signed 64 (page_for_lower.index * 2 ^ PAGE_CACHE_SHIFT + offset_in_page)
  let virt := page_for_lower.data
  match lofs_write_lower inode_info lower virt offset size o with
  | none => none
  | some r => some { r with rc := if r.rc > 0 then 0 else r.rc }

/-- Result of `lofs_read_lower_page` and of `lofs_readpage`. -/
structure read_page_result where
  rc : Int
  page : page
  trace : List event

/-- Source function `lofs_read_lower_page` (read_write.c:104).  `none` is the `BUG_ON` of an
inode without persistent file. -/
def lofs_read_lower_page (page_for_lofs : page) (page_index : Nat)
    (inode_info : lofs_inode_info) (lower : lower_inode) (o : io_outcome) :
    Option read_page_result :=
  let offset : Int := to_signed 64 (page_index * 2 ^ PAGE_CACHE_SHIFT)
  let data := page_for_lofs.data
  match inode_info.lower_file with
  | none => none
  | some _ =>
    let (rc, data1) := vfs_read lower data PAGE_CACHE_SIZE offset o
    let trace := [event.mutex_lock, .vfs_read offset PAGE_CACHE_SIZE, .mutex_unlock]
    if rc ≥ 0 then
      let data2 : Nat → Nat := fun j =>
        if rc.toNat ≤ j ∧ j < rc.toNat + (PAGE_CACHE_SIZE - rc.toNat) then 0 else data1 j
      some { rc := 0, page := { page_for_lofs with data := data2 }, trace := trace }
    else
      some { rc := to_signed 32 rc, page := { page_for_lofs with data := data1 }, trace := trace }

/-- Source function `lofs_readpage` (mmap.c:110). -/
def lofs_readpage (page : page) (inode_info : lofs_inode_info) (lower : lower_inode)
    (o : io_outcome) : Option read_page_result :=
  match lofs_read_lower_page page page.index inode_info lower o with
  | none => none
  | some r =>
    let page1 := if r.rc ≠ 0 then { r.page with uptodate := false }
                 else { r.page with uptodate := true }
    some { r with page := { page1 with locked := false } }

/-- Result of `lofs_writepage` and of `lofs_write_end`: return code, page,
overlay inode attributes, persistent file, lower inode and kernel calls. -/
structure write_page_result where
  rc : Int
  page : page
  host : inode
  inode_info : lofs_inode_info
  lower : lower_inode
  trace : List event

/-- Source function `lofs_writepage` (mmap.c:69) on a kernel whose `unsigned long` has
`BITS_PER_LONG` bits.  `host` is the overlay inode (`page->mapping->host`),
whose `i_size` is not negative. -/
def lofs_writepage (BITS_PER_LONG : Nat) (page : page) (host : inode)
    (inode_info : lofs_inode_info) (lower : lower_inode) (o : io_outcome) :
    Option write_page_result :=
  let rc : Int := 0
  let offset : Int := to_signed 64 (to_unsigned BITS_PER_LONG (page.index * 2 ^ PAGE_CACHE_SHIFT))
  let length : Nat := PAGE_CACHE_SIZE
  let maxIndex : Nat := to_unsigned BITS_PER_LONG (host.i_size / 2 ^ PAGE_CACHE_SHIFT : Nat)
  if page.index ≤ maxIndex then
    let length := if page.index = maxIndex then host.i_size % PAGE_CACHE_SIZE else length
    if length ≠ 0 then
      match lofs_write_lower inode_info lower page.data offset length o with
      | none => none
      | some w =>
        let written := w.rc
        if to_unsigned BITS_PER_LONG written ≠ length then
          some { rc := written, page := { page with uptodate := false }, host := host,
                 inode_info := w.inode_info, lower := w.lower, trace := w.trace }
        else
          some { rc := rc, page := { page with uptodate := true, locked := false }, host := host,
                 inode_info := w.inode_info, lower := w.lower, trace := w.trace }
    else
      some { rc := rc, page := { page with uptodate := true, locked := false }, host := host,
             inode_info := inode_info, lower := lower, trace := [] }
  else
    some { rc := rc, page := { page with locked := false }, host := host,
           inode_info := inode_info, lower := lower, trace := [] }

/-- Source function `lofs_write_end` (mmap.c:177).  `pos` is the file position (not
negative), `copied` the number of bytes copied into the page; `from_` and
`to_` are the locals `from` and `to` of the source. -/
def lofs_write_end (host : inode) (inode_info : lofs_inode_info) (lower : lower_inode)
    (pos : Nat) (copied : Nat) (page : page) (o : io_outcome) : Option write_page_result :=
  let from_ : Nat := to_unsigned 32 (pos % PAGE_CACHE_SIZE : Nat)
  let to_ : Nat := to_unsigned 32 (from_ + copied : Nat)
  match lofs_write_lower_page_segment inode_info lower page 0 to_ o with
  | none => none
  | some w =>
    let page1 := { page with locked := false }
    if w.rc = 0 then
      some { rc := to_signed 32 copied, page := page1,
             host := fsstack_copy_inode_size host w.lower.attrs,
             inode_info := w.inode_info, lower := w.lower, trace := w.trace }
    else
      some { rc := w.rc, page := page1, host := host,
             inode_info := w.inode_info, lower := w.lower, trace := w.trace }

/-- Source function `lofs_bmap` (mmap.c:197) for a `sector_t` of `sector_bits` bits.
`lower_bmap` is the `bmap` operation of the lower address space, if it has
one.  The result passes through the local `int rc`. -/
def lofs_bmap (sector_bits : Nat) (lower_bmap : Option (Nat → Nat)) (block : Nat) : Nat :=
  let rc : Int := 0
  let rc : Int :=
    match lower_bmap with
    | some bmap => to_signed 32 (bmap block)
    | none => rc
  to_unsigned sector_bits rc

/-! ## Directory operations (`inode.c`) -/

/-- Kernel `fsstack_copy_attr_times(dest, src)` (`linux/fs_stack.h`). -/
def fsstack_copy_attr_times (dest src : inode) : inode :=
  { dest with i_atime := src.i_atime, i_mtime := src.i_mtime, i_ctime := src.i_ctime }

/-- Kernel `fsstack_copy_attr_atime(dest, src)` (`linux/fs_stack.h`). -/
def fsstack_copy_attr_atime (dest src : inode) : inode :=
  { dest with i_atime := src.i_atime }

/-- Answer of the kernel to the `igrab` and `iget5_locked` calls of
`__lofs_get_inode`: the lower inode is being freed; no inode could be
allocated (`iget5_locked` returns NULL); the overlay inode of this lower
inode is in the inode cache; or a new inode was allocated (its content before
`lofs_inode_set`). -/
inductive iget_outcome where
  | igrab_failed
  | iget5_failed
  | cached (inode : lofs_inode)
  | allocated (blank : inode)
  deriving DecidableEq, Repr

/-- Source function `lofs_inode_set` (inode.c:73): the new overlay inode of the lower
inode at address `lower_addr` with attributes `lower_inode`. -/
def lofs_inode_set (blank : inode) (lower_addr : Nat) (lower_inode : inode) : lofs_inode :=
  { vfs_inode :=
      { fsstack_copy_inode_size (fsstack_copy_attr_all blank lower_inode) lower_inode with
        i_ino := lower_inode.i_ino },
    wii_inode := lower_addr }

/-- Source function `__lofs_get_inode` (inode.c:115): an error code, or the overlay
inode and whether it is new (`I_NEW`); and the kernel calls made. -/
def __lofs_get_inode (lower_addr : Nat) (lower_inode : inode) (o : iget_outcome) :
    Except Int (lofs_inode × Bool) × List event :=
  match o with
  | .igrab_failed => (.error (-ESTALE), [.igrab])
  | .iget5_failed => (.error (-EACCES), [.igrab, .iget5_locked, .iput])
  | .cached i => (.ok (i, false), [.igrab, .iget5_locked, .iput])
  | .allocated blank =>
    (.ok (lofs_inode_set blank lower_addr lower_inode, true), [.igrab, .iget5_locked])

/-- Source function `lofs_get_inode` (inode.c:153). -/
def lofs_get_inode (lower_addr : Nat) (lower_inode : inode) (o : iget_outcome) :
    Except Int lofs_inode × List event :=
  match __lofs_get_inode lower_addr lower_inode o with
  | (.error e, evs) => (.error e, evs)
  | (.ok (i, is_new), evs) => (.ok i, if is_new then evs ++ [.unlock_new_inode] else evs)

/-- Source function `lofs_interpose` (inode.c:172) for a lower dentry whose inode is at
`lower_addr` with attributes `lower_inode`: the return code, the inode
installed on the overlay dentry, the kernel calls.  `none` stands for the
NULL dereference of `igrab` on a negative lower dentry. -/
def lofs_interpose (lower_addr : Nat) (lower_inode : inode) (o : iget_outcome) :
    Option (Int × Option lofs_inode × List event) :=
  if lower_addr = 0 then none
  else
    match lofs_get_inode lower_addr lower_inode o with
    | (.error e, evs) => some (e, none, evs)
    | (.ok i, evs) => some (0, some i, evs ++ [.d_instantiate])

/-- Answer of the lower filesystem to a directory operation (`vfs_create`,
`vfs_mkdir`, `vfs_symlink`, `vfs_mknod`, `vfs_link`) on a lower dentry: the
return code and, as they are after the call, the address of the inode of
the lower dentry (0: still negative), the attributes of that inode and the
attributes of the inode of the lower parent directory. -/
structure lower_op_answer where
  rc : Int
  d_inode : Nat
  new_inode : inode
  dir_inode : inode
  deriving DecidableEq, Repr

/-- Result of a directory operation of the overlay: return code, the overlay
directory inode, the inode of the overlay dentry, whether the overlay dentry
was dropped, the kernel calls. -/
structure dir_op_result where
  rc : Int
  dir : inode
  d_inode : Option lofs_inode
  dropped : Bool
  trace : List event
  deriving DecidableEq, Repr

/-- Source function `lofs_create` (inode.c:196).  The nameidata is pointed at the lower
dentry and mount around `vfs_create` and restored afterwards; `lock_parent`
never returns an error pointer. -/
def lofs_create (directory_inode : inode) (dentry : lofs_dentry) (a : lower_op_answer)
    (g : iget_outcome) : Option dir_op_result :=
  let lower_dentry := dentry.lower_dentry
  let lock := [event.dget_parent, .lock_inode lower_dentry.d_parent, .vfs_create]
  let unlock := [event.unlock_inode lower_dentry.d_parent, .dput]
  if a.rc ≠ 0 then
    some { rc := a.rc, dir := directory_inode, d_inode := dentry.d_inode, dropped := false,
           trace := lock ++ unlock }
  else
    match lofs_interpose a.d_inode a.new_inode g with
    | none => none
    | some (rc, i, evs) =>
      if rc ≠ 0 then
        some { rc := rc, dir := directory_inode, d_inode := dentry.d_inode, dropped := false,
               trace := lock ++ evs ++ unlock }
      else
        some { rc := rc,
               dir := fsstack_copy_inode_size
                        (fsstack_copy_attr_times directory_inode a.dir_inode) a.dir_inode,
               d_inode := i, dropped := false, trace := lock ++ evs ++ unlock }

/-- Source function `lofs_symlink` (inode.c:533).  The lower dentry is held (`dget`, `dput`)
around the operation; a dentry left without inode is dropped. -/
def lofs_symlink (dir : inode) (dentry : lofs_dentry) (a : lower_op_answer)
    (g : iget_outcome) : Option dir_op_result :=
  let lower_dentry := dentry.lower_dentry
  let lock := [event.dget, .dget_parent, .lock_inode lower_dentry.d_parent, .vfs_symlink]
  let unlock := [event.unlock_inode lower_dentry.d_parent, .dput, .dput]
  if a.rc ≠ 0 ∨ a.d_inode = 0 then
    some { rc := a.rc, dir := dir, d_inode := dentry.d_inode, dropped := dentry.d_inode.isNone,
           trace := lock ++ unlock ++ (if dentry.d_inode.isNone then [.d_drop] else []) }
  else
    match lofs_interpose a.d_inode a.new_inode g with
    | none => none
    | some (rc, i, evs) =>
      if rc ≠ 0 then
        some { rc := rc, dir := dir, d_inode := dentry.d_inode,
               dropped := dentry.d_inode.isNone,
               trace := lock ++ evs ++ unlock ++
                        (if dentry.d_inode.isNone then [.d_drop] else []) }
      else
        some { rc := rc,
               dir := fsstack_copy_inode_size (fsstack_copy_attr_times dir a.dir_inode) a.dir_inode,
               d_inode := i, dropped := i.isNone,
               trace := lock ++ evs ++ unlock ++ (if i.isNone then [.d_drop] else []) }

/-- Source function `lofs_mkdir` (inode.c:559).  A dentry left without inode is dropped. -/
def lofs_mkdir (dir : inode) (dentry : lofs_dentry) (a : lower_op_answer)
    (g : iget_outcome) : Option dir_op_result :=
  let lower_dentry := dentry.lower_dentry
  let lock := [event.dget_parent, .lock_inode lower_dentry.d_parent, .vfs_mkdir]
  let unlock := [event.unlock_inode lower_dentry.d_parent, .dput]
  if a.rc ≠ 0 ∨ a.d_inode = 0 then
    some { rc := a.rc, dir := dir, d_inode := dentry.d_inode, dropped := dentry.d_inode.isNone,
           trace := lock ++ unlock ++ (if dentry.d_inode.isNone then [.d_drop] else []) }
  else
    match lofs_interpose a.d_inode a.new_inode g with
    | none => none
    | some (rc, i, evs) =>
      if rc ≠ 0 then
        some { rc := rc, dir := dir, d_inode := dentry.d_inode,
               dropped := dentry.d_inode.isNone,
               trace := lock ++ evs ++ unlock ++
                        (if dentry.d_inode.isNone then [.d_drop] else []) }
      else
        some { rc := rc,
               dir := { fsstack_copy_inode_size (fsstack_copy_attr_times dir a.dir_inode) a.dir_inode with
                      i_nlink := a.dir_inode.i_nlink },
               d_inode := i, dropped := i.isNone,
               trace := lock ++ evs ++ unlock ++ (if i.isNone then [.d_drop] else []) }

/-- Source function `lofs_mknod` (inode.c:605).  A dentry left without inode is dropped. -/
def lofs_mknod (dir : inode) (dentry : lofs_dentry) (a : lower_op_answer)
    (g : iget_outcome) : Option dir_op_result :=
  let lower_dentry := dentry.lower_dentry
  let lock := [event.dget_parent, .lock_inode lower_dentry.d_parent, .vfs_mknod]
  let unlock := [event.unlock_inode lower_dentry.d_parent, .dput]
  if a.rc ≠ 0 ∨ a.d_inode = 0 then
    some { rc := a.rc, dir := dir, d_inode := dentry.d_inode, dropped := dentry.d_inode.isNone,
           trace := lock ++ unlock ++ (if dentry.d_inode.isNone then [.d_drop] else []) }
  else
    match lofs_interpose a.d_inode a.new_inode g with
    | none => none
    | some (rc, i, evs) =>
      if rc ≠ 0 then
        some { rc := rc, dir := dir, d_inode := dentry.d_inode,
               dropped := dentry.d_inode.isNone,
               trace := lock ++ evs ++ unlock ++
                        (if dentry.d_inode.isNone then [.d_drop] else []) }
      else
        some { rc := rc,
               dir := fsstack_copy_inode_size (fsstack_copy_attr_times dir a.dir_inode) a.dir_inode,
               d_inode := i, dropped := i.isNone,
               trace := lock ++ evs ++ unlock ++ (if i.isNone then [.d_drop] else []) }

/-- Result of `lofs_link`: return code, the overlay directory inode, the
inode of the old overlay dentry, the inode of the new overlay dentry, the
kernel calls. -/
structure link_result where
  rc : Int
  dir : inode
  old_inode : lofs_inode
  new_inode : Option lofs_inode
  trace : List event
  deriving DecidableEq, Repr

/-- Source function `lofs_link` (inode.c:476).  `old_inode` is `old_dentry->d_inode`;
the answer `a` is that of `vfs_link` about the new lower dentry, whose inode
is then the lower inode of the old dentry as well. -/
def lofs_link (old_inode : lofs_inode) (dir : inode) (new_dentry : lofs_dentry)
    (a : lower_op_answer) (g : iget_outcome) : Option link_result :=
  let file_size_save := old_inode.vfs_inode.i_size
  let lower_new_dentry := new_dentry.lower_dentry
  let lock := [event.dget, .dget, .dget_parent, .lock_inode lower_new_dentry.d_parent, .vfs_link]
  let unlock := [event.unlock_inode lower_new_dentry.d_parent, .dput, .dput, .dput]
  if a.rc ≠ 0 ∨ a.d_inode = 0 then
    some { rc := a.rc, dir := dir, old_inode := old_inode, new_inode := new_dentry.d_inode,
           trace := lock ++ unlock }
  else
    match lofs_interpose a.d_inode a.new_inode g with
    | none => none
    | some (rc, i, evs) =>
      if rc ≠ 0 then
        some { rc := rc, dir := dir, old_inode := old_inode, new_inode := new_dentry.d_inode,
               trace := lock ++ evs ++ unlock }
      else
        some { rc := rc,
               dir := fsstack_copy_inode_size (fsstack_copy_attr_times dir a.new_inode)
                        a.new_inode,
               old_inode := { old_inode with
                 vfs_inode := { old_inode.vfs_inode with i_nlink := a.new_inode.i_nlink } },
               new_inode := i.map fun n =>
                 { n with vfs_inode := { n.vfs_inode with i_size := file_size_save } },
               trace := lock ++ evs ++ unlock }

/-- Answer of the lower filesystem to `vfs_rename`: the return code and the
attributes, after the call, of the inodes of the lower old and new parent
directories. -/
structure rename_answer where
  rc : Int
  old_dir_inode : inode
  new_dir_inode : inode
  deriving DecidableEq, Repr

/-- Result of `lofs_rename`: return code, the two overlay directory inodes,
the kernel calls. -/
structure rename_result where
  rc : Int
  old_dir : inode
  new_dir : inode
  trace : List event
  deriving DecidableEq, Repr

/-- Source function `lofs_rename` (inode.c:633).  `same_dir` says whether `new_dir` and
`old_dir` are the same inode (then `new_dir` is the inode and the result
has it in both places). -/
def lofs_rename (old_dir : inode) (old_dentry : lofs_dentry) (new_dir : inode)
    (new_dentry : lofs_dentry) (same_dir : Bool) (a : rename_answer) : rename_result :=
  let lower_old_mnt := old_dentry.lower_mnt
  let lower_new_mnt := new_dentry.lower_mnt
  if lower_old_mnt ≠ lower_new_mnt then
    { rc := -EXDEV, old_dir := old_dir, new_dir := new_dir, trace := [] }
  else
    let lock := [event.dget, .dget, .dget_parent, .dget_parent, .lock_rename, .vfs_rename]
    let unlock := [event.unlock_rename, .dput, .dput, .dput, .dput]
    if a.rc ≠ 0 then
      { rc := a.rc, old_dir := old_dir, new_dir := new_dir, trace := lock ++ unlock }
    else
      let new_dir1 := fsstack_copy_attr_all new_dir a.new_dir_inode
      if same_dir then
        { rc := a.rc, old_dir := new_dir1, new_dir := new_dir1, trace := lock ++ unlock }
      else
        { rc := a.rc, old_dir := fsstack_copy_attr_all old_dir a.old_dir_inode,
          new_dir := new_dir1, trace := lock ++ unlock }

/-- The overlay directory inode `dir` has the atime, mtime, ctime and size of
the lower directory inode `lower`. -/
def parent_attrs_match (dir lower : inode) : Prop :=
  dir.i_atime = lower.i_atime ∧ dir.i_mtime = lower.i_mtime ∧ dir.i_ctime = lower.i_ctime ∧
  dir.i_size = lower.i_size

/-! ## Attributes (`inode.c`) -/

/-- Kernel `struct kstat`. -/
structure kstat where
  dev : Nat
  ino : Nat
  mode : Nat
  nlink : Nat
  uid : Nat
  gid : Nat
  rdev : Nat
  atime : Nat
  mtime : Nat
  ctime : Nat
  size : Nat
  blocks : Nat
  blksize : Nat
  deriving DecidableEq, Repr

/-- Kernel `generic_fillattr(inode, stat)` (`fs/stat.c`) for an inode whose
superblock has device id `i_sb_s_dev`. -/
def generic_fillattr (i_sb_s_dev : Nat) (inode : inode) : kstat :=
  { dev := i_sb_s_dev, ino := inode.i_ino, mode := inode.i_mode, nlink := inode.i_nlink,
    uid := inode.i_uid, gid := inode.i_gid, rdev := inode.i_rdev, atime := inode.i_atime,
    mtime := inode.i_mtime, ctime := inode.i_ctime, size := inode.i_size,
    blocks := inode.i_blocks, blksize := 2 ^ inode.i_blkbits }

/-- Source function `lofs_getattr` (inode.c:838).  `lower_inodes` is the memory holding
the lower inodes, by address; `i_sb_s_dev` the device id of the superblock
of the lower inode.  `none` stands for the NULL dereference on a negative
lower dentry. -/
def lofs_getattr (lower_inodes : Nat → inode) (i_sb_s_dev : Nat) (_mnt : Nat)
    (lofs_dentry : lofs_dentry) : Option (Int × kstat) :=
  let lower := lofs_dentry.lower_dentry
  if lower.d_inode = 0 then none
  else
    let stat := generic_fillattr i_sb_s_dev (lower_inodes lower.d_inode)
    some (0, { stat with dev := lower.s_dev })

/-! ## Lookup (`inode.c`) -/

/-- Kernel `struct path` of the lower namespace: a mount (address) and a dentry. -/
structure lower_path where
  mnt : Nat
  dentry : lower_dentry

/-- Answer of the kernel to one `FOLLOW_DOWN(&path)`: the return value and the
path afterwards. -/
structure follow_answer where
  ret : Int
  path : lower_path

/-- The test `lower_dentry->d_op == &lofs_dops`: the dentry is an overlay dentry. -/
def lower_dentry.is_lofs (d : lower_dentry) : Bool :=
  match d.d_op with
  | some ops => ops.is_lofs_dops
  | none => false

/-- The loop `while (d_mountpoint(path.dentry)) { if (FOLLOW_DOWN(&path) != 1) break; }`
of `lofs_follow_down` (inode.c:260), given the answers of the successive
`FOLLOW_DOWN` calls (an exhausted list stands for a call that does not
return 1 and leaves the path alone). -/
def follow_down_loop (path : lower_path) : List follow_answer → lower_path × List event
  | [] => (path, [])
  | a :: rest =>
    if path.dentry.d_mounted then
      if a.ret ≠ 1 then (a.path, [.follow_down])
      else
        let (p, evs) := follow_down_loop a.path rest
        (p, .follow_down :: evs)
    else (path, [])

/-- Source function `lofs_follow_down` (inode.c:247) on a kernel that has managed
dentries or not (`HAVE_MANAGED_DENTRIES`).  `answers` are the answers of the
`FOLLOW_DOWN` calls of the loop, `managed` the return code of
`lofs_lookup_managed` and the path it leaves, `redo` the answer of the last
`FOLLOW_DOWN`.  The result is the return code, the final mount and dentry,
and the kernel calls.  (The `kmalloc` of the path buffer is not checked by
the source and is left out.) -/
def lofs_follow_down (HAVE_MANAGED_DENTRIES : Bool) (lower_mnt : Nat)
    (lower_dentry : lower_dentry) (answers : List follow_answer)
    (managed : Int × lower_path) (redo : follow_answer) : Int × lower_path × List event :=
  let rc : Int := 0
  let (path, evs) := follow_down_loop { mnt := lower_mnt, dentry := lower_dentry } answers
  if HAVE_MANAGED_DENTRIES ∧ path.dentry.d_managed then
    let rc := managed.1
    if rc = 0 then
      (rc, redo.path, evs ++ [.lofs_lookup_managed, .dput, .mntput, .follow_down])
    else
      (rc, managed.2, evs ++ [.lofs_lookup_managed])
  else
    (rc, path, evs)

/-- The `struct lofs_dentry_info` of an overlay dentry: its lower dentry and
lower mount. -/
structure lofs_dentry_info where
  lower_dentry : lower_dentry
  lower_mnt : Nat

/-- Result of a lookup: the return code, the private data installed on the
overlay dentry (NULL or the pairing), its inode, whether it was added to the
dentry cache (`d_add`), whether it was dropped (`d_drop`), the overlay
directory inode, the kernel calls. -/
structure lookup_result where
  rc : Int
  d_fsdata : Option lofs_dentry_info
  d_inode : Option lofs_inode
  added : Bool
  dropped : Bool
  dir_inode : inode
  trace : List event

/-- The oracles of `lofs_lookup_and_interpose_lower`: the kernel answers to
the mount traversal, whether the allocation of the dentry info succeeds,
the answer to the inode lookup, and the memory holding the lower dentries
and inodes by address. -/
structure interpose_env where
  HAVE_MANAGED_DENTRIES : Bool
  answers : List follow_answer
  managed : Int × lower_path
  redo : follow_answer
  alloc_ok : Bool
  iget : iget_outcome
  lower_dentries : Nat → lower_dentry
  lower_inodes : Nat → inode

/-- Source function `lofs_lookup_and_interpose_lower` (inode.c:313).  `parent_lower_mnt`
is the lower mount of the parent of the overlay dentry. -/
def lofs_lookup_and_interpose_lower (env : interpose_env) (parent_lower_mnt : Nat)
    (lower_dentry : lower_dentry) (lofs_dir_inode : inode) : lookup_result :=
  let (rc, path, evs) :=
    lofs_follow_down env.HAVE_MANAGED_DENTRIES parent_lower_mnt lower_dentry env.answers
      env.managed env.redo
  let lower_dentry := path.dentry
  let lower_mnt := path.mnt
  let out_dput := [event.dput, .mntput, .d_drop]
  if rc ≠ 0 then
    { rc := rc, d_fsdata := none, d_inode := none, added := false, dropped := true,
      dir_inode := lofs_dir_inode, trace := [.mntget] ++ evs ++ out_dput }
  else if lower_dentry.is_lofs then
    { rc := -EINVAL, d_fsdata := none, d_inode := none, added := false, dropped := true,
      dir_inode := lofs_dir_inode, trace := [.mntget] ++ evs ++ out_dput }
  else
    let lower_dir_dentry := env.lower_dentries lower_dentry.d_parent
    let lower_inode := lower_dentry.d_inode
    let dir1 := fsstack_copy_attr_atime lofs_dir_inode (env.lower_inodes lower_dir_dentry.d_inode)
    if !env.alloc_ok then
      { rc := -ENOMEM, d_fsdata := none, d_inode := none, added := false, dropped := true,
        dir_inode := dir1,
        trace := [.mntget] ++ evs ++ [.kmem_cache_alloc false] ++ out_dput }
    else
      let info : lofs_dentry_info := { lower_dentry := lower_dentry, lower_mnt := lower_mnt }
      if lower_dentry.d_inode = 0 then
        { rc := 0, d_fsdata := some info, d_inode := none, added := true, dropped := false,
          dir_inode := dir1, trace := [.mntget] ++ evs ++ [.kmem_cache_alloc true, .d_add] }
      else
        match __lofs_get_inode lower_inode (env.lower_inodes lower_inode) env.iget with
        | (.error e, ievs) =>
          { rc := e, d_fsdata := some info, d_inode := none, added := false, dropped := false,
            dir_inode := dir1, trace := [.mntget] ++ evs ++ [.kmem_cache_alloc true] ++ ievs }
        | (.ok (inode, is_new), ievs) =>
          { rc := rc, d_fsdata := some info, d_inode := some inode, added := true,
            dropped := false, dir_inode := dir1,
            trace := [.mntget] ++ evs ++ [.kmem_cache_alloc true] ++ ievs ++
                     (if is_new then [.unlock_new_inode] else []) ++ [.d_add] }

/-- Answer of the kernel to `lookup_one_len`: a dentry, or `ERR_PTR(-(e+1))`. -/
inductive lookup_answer where
  | found (d : lower_dentry)
  | failed (e : Fin 4095)

/-- The oracles of the part of `lofs_lookup` before interposition: the answer
of `d_lookup` (NULL or a cached dentry), the return value of `d_invalidate`
and the answer of `lookup_one_len`. -/
structure lookup_env where
  d_lookup : Option lower_dentry
  d_invalidate : Int
  lookup_one_len : lookup_answer

/-- The cached-dentry handling of `lofs_lookup` (inode.c:407-449), up to the
comment "At this point we hold the directory inode lock if and only if
lower_dentry is NULL": either the error with which the lookup bails out, or
the value of `lower_dentry` at that point; and the kernel calls made. -/
def lofs_lookup_cached (env : lookup_env) (parent : lofs_dentry) (lofs_nd : Option nameidata) :
    Except Int (Option lower_dentry) × List event :=
  let lower_dir_dentry := parent.lower_dentry
  let lock := [event.lock_inode lower_dir_dentry.addr, .d_lookup]
  match env.d_lookup with
  | none => (.ok none, lock)
  | some lower_dentry =>
    let lower_mnt := parent.lower_mnt
    let lower_valid := (lofs_revalidate_lower lower_dentry lower_mnt lofs_nd).1
    let evs := lock ++ [.unlock_inode lower_dir_dentry.addr]
    if lower_valid ≤ 0 then
      if lower_valid < 0 then
        (.error lower_valid, evs ++ [.dput])
      else if env.d_invalidate = 0 then
        (.ok none, evs ++ [.d_invalidate, .dput, .lock_inode lower_dir_dentry.addr])
      else
        (.ok (some lower_dentry), evs ++ [.d_invalidate])
    else
      (.ok (some lower_dentry), evs)

/-- The part of `lofs_lookup` (inode.c:400-465) that finds the lower dentry:
the error with which the lookup bails out (0 for the names "." and ".."),
or the lower dentry handed to `lofs_lookup_and_interpose_lower`. -/
def lofs_lookup_lower (env : lookup_env) (parent : lofs_dentry) (d_name : List Char)
    (lofs_nd : Option nameidata) : Except Int lower_dentry × List event :=
  if d_name = ['.'] ∨ d_name = ['.', '.'] then (.error 0, [])
  else
    let lower_dir_dentry := parent.lower_dentry
    match lofs_lookup_cached env parent lofs_nd with
    | (.error rc, evs) => (.error rc, evs)
    | (.ok (some lower_dentry), evs) => (.ok lower_dentry, evs)
    | (.ok none, evs) =>
      let evs1 := evs ++ [.lookup_one_len, .unlock_inode lower_dir_dentry.addr]
      match env.lookup_one_len with
      | .failed e => (.error (-((e.val : Int) + 1)), evs1)
      | .found lower_dentry => (.ok lower_dentry, evs1)

/-- Source function `lofs_lookup` (inode.c:389).  `parent` is the parent of the overlay
dentry looked up, `d_name` its name.  The `rc` of the result is the error
that the returned pointer `ERR_PTR(rc)` carries. -/
def lofs_lookup (lenv : lookup_env) (ienv : interpose_env) (lofs_dir_inode : inode)
    (parent : lofs_dentry) (d_name : List Char) (lofs_nd : Option nameidata) : lookup_result :=
  match lofs_lookup_lower lenv parent d_name lofs_nd with
  | (.error rc, evs) =>
    { rc := rc, d_fsdata := none, d_inode := none, added := false, dropped := true,
      dir_inode := lofs_dir_inode, trace := evs ++ [.d_drop] }
  | (.ok lower_dentry, evs) =>
    let r := lofs_lookup_and_interpose_lower ienv parent.lower_mnt lower_dentry lofs_dir_inode
    { r with trace := evs ++ r.trace }

/-! ## Automount worker (`kthread.c`, `HAVE_MANAGED_DENTRIES`) -/

def LOFS_REQ_PROCESSED : Nat := 0x1
def LOFS_REQ_ZOMBIE : Nat := 0x2
def LOFS_REQ_ERROR : Nat := 0x4
def LOFS_KTHREAD_ZOMBIE : Nat := 0x1

/-- The `struct lofs_lookup_req` (lofs_kernel.h:211): its address, its flags,
the name to look up and the result slot `*p` (mount and dentry, by address). -/
structure lofs_lookup_req where
  addr : Nat
  flags : Nat
  name : List Char
  p : Nat × Nat
  deriving DecidableEq, Repr

/-- The `lofs_kthread_ctl` (kthread.c:47): flags and the list of pending requests. -/
structure lofs_kthread_ctl where
  flags : Nat
  req_list : List lofs_lookup_req
  deriving DecidableEq, Repr

/-- State of the worker and its callers: the control block, the requests
that the worker took off the list (as it left them, for their callers), and
the kernel calls made so far.  Every step below is one critical section of
`lofs_kthread_ctl.mux`. -/
structure kthread_state where
  ctl : lofs_kthread_ctl
  finished : List lofs_lookup_req
  trace : List event
  deriving DecidableEq, Repr

/-- Source function `lofs_init_kthread` (kthread.c:114), when the thread starts. -/
def lofs_init_kthread : kthread_state :=
  { ctl := { flags := 0, req_list := [] }, finished := [], trace := [] }

/-- The first half of `lofs_lookup_managed` (kthread.c:154-183), up to
`wait_event`.  `alloc` is the answer of `kmem_cache_alloc` (NULL or the
address of the request).  The result is the value returned at once, or
`none` when the request was queued and the caller waits. -/
def lofs_lookup_managed_enqueue (st : kthread_state) (alloc : Option Nat) (name : List Char)
    (path : Nat × Nat) : Option Int × kthread_state :=
  match alloc with
  | none => (some (-ENOMEM), { st with trace := st.trace ++ [.kmem_cache_alloc false] })
  | some a =>
    let req : lofs_lookup_req := { addr := a, flags := 0, name := name, p := path }
    if st.ctl.flags &&& LOFS_KTHREAD_ZOMBIE ≠ 0 then
      (some (- EIO),
       { st with trace := st.trace ++
           [.kmem_cache_alloc true, .ctl_mutex_lock, .ctl_mutex_unlock, .kmem_cache_free] })
    else
      (none,
       { st with
         ctl := { st.ctl with req_list := st.ctl.req_list ++ [req] },
         trace := st.trace ++
           [.kmem_cache_alloc true, .ctl_mutex_lock, .list_add_tail a, .ctl_mutex_unlock,
            .wake_up_worker] })

/-- The second half of `lofs_lookup_managed` (kthread.c:183-197) for a request
as the caller finds it when it wakes up: `none` while `req->flags` is 0 (the
caller still waits), else the value returned. -/
def lofs_lookup_managed_finish (req : lofs_lookup_req) : Option Int :=
  if req.flags = 0 then none
  else if req.flags &&& LOFS_REQ_ZOMBIE ≠ 0 then some (- EIO)
  else if req.flags &&& LOFS_REQ_ERROR ≠ 0 then some (-ENOENT)
  else some 0

/-- The inner loop of `lofs_threadfn` (kthread.c:83-107) over the pending
requests, first entry first.  `kern_path` is the answer of the full-path
lookup for a request: return code and resulting path.  The result is the
requests as they are left and the kernel calls. -/
def lofs_threadfn_requests (kern_path : lofs_lookup_req → Int × (Nat × Nat)) :
    List lofs_lookup_req → List lofs_lookup_req × List event
  | [] => ([], [])
  | req :: rest =>
    let (reqs, evs) := lofs_threadfn_requests kern_path rest
    if req.flags &&& LOFS_REQ_ZOMBIE = 0 then
      let (rc, p) := kern_path req
      let flags := req.flags ||| LOFS_REQ_PROCESSED
      let flags := if rc ≠ 0 then flags ||| LOFS_REQ_ERROR else flags
      ({ req with flags := flags, p := p } :: reqs,
       [.req_mutex_lock req.addr, .list_del req.addr, .kern_path req.addr, .wake_up req.addr,
        .req_mutex_unlock req.addr] ++ evs)
    else
      (req :: reqs,
       [.req_mutex_lock req.addr, .list_del req.addr, .wake_up req.addr,
        .req_mutex_unlock req.addr] ++ evs)

/-- One round of the outer loop of `lofs_threadfn` (kthread.c:71-109) once the
worker is woken: whether the thread leaves the loop, and the new state. -/
def lofs_threadfn (kern_path : lofs_lookup_req → Int × (Nat × Nat)) (st : kthread_state) :
    Bool × kthread_state :=
  if st.ctl.flags &&& LOFS_KTHREAD_ZOMBIE ≠ 0 then
    (true, { st with trace := st.trace ++ [.ctl_mutex_lock, .ctl_mutex_unlock] })
  else
    let (reqs, evs) := lofs_threadfn_requests kern_path st.ctl.req_list
    (false,
     { ctl := { st.ctl with req_list := [] },
       finished := st.finished ++ reqs,
       trace := st.trace ++ [.ctl_mutex_lock] ++ evs ++ [.ctl_mutex_unlock] })

/-- The loop `list_for_each_entry` of `lofs_destroy_kthread` (kthread.c:135):
the requests as they are left, and the kernel calls. -/
def lofs_destroy_requests : List lofs_lookup_req → List lofs_lookup_req × List event
  | [] => ([], [])
  | req :: rest =>
    let (reqs, evs) := lofs_destroy_requests rest
    ({ req with flags := req.flags ||| LOFS_REQ_ZOMBIE } :: reqs,
     [.req_mutex_lock req.addr, .wake_up req.addr, .req_mutex_unlock req.addr] ++ evs)

/-- Source function `lofs_destroy_kthread` (kthread.c:129). -/
def lofs_destroy_kthread (st : kthread_state) : kthread_state :=
  let (reqs, evs) := lofs_destroy_requests st.ctl.req_list
  { st with
    ctl := { flags := st.ctl.flags ||| LOFS_KTHREAD_ZOMBIE, req_list := reqs },
    trace := st.trace ++ [.ctl_mutex_lock] ++ evs ++
      [.ctl_mutex_unlock, .kthread_stop, .wake_up_worker] }

/-- A step of the system around the worker: a caller starts
`lofs_lookup_managed`, the worker runs one round, or the module is unloaded. -/
inductive kthread_step where
  | lookup_managed (alloc : Option Nat) (name : List Char) (path : Nat × Nat)
  | worker
  | destroy
  deriving DecidableEq, Repr

/-- The state after a sequence of steps. -/
def kthread_run (kern_path : lofs_lookup_req → Int × (Nat × Nat)) (st : kthread_state) :
    List kthread_step → kthread_state
  | [] => st
  | .lookup_managed alloc name path :: rest =>
    kthread_run kern_path (lofs_lookup_managed_enqueue st alloc name path).2 rest
  | .worker :: rest => kthread_run kern_path (lofs_threadfn kern_path st).2 rest
  | .destroy :: rest => kthread_run kern_path (lofs_destroy_kthread st) rest

/-- The requests queued by the calls of a trace, in order. -/
def enqueued : List event → List Nat
  | [] => []
  | .list_add_tail a :: rest => a :: enqueued rest
  | _ :: rest => enqueued rest

/-- The requests for which the calls of a trace made a full-path lookup, in order. -/
def looked_up : List event → List Nat
  | [] => []
  | .kern_path a :: rest => a :: looked_up rest
  | _ :: rest => looked_up rest

/-! ## Calls of the pass-through operations -/

/-- Calls into the kernel and the lower filesystem recorded in the trace of
the ioctl, statfs, extended-attribute and symbolic-link operations.
`lock_inode d` and `unlock_inode d` are `LOCK_INODE` and `UNLOCK_INODE` of the
inode of the dentry at address `d`. -/
inductive lower_call where
  | lock_inode (dentry : Nat)
  | unlock_inode (dentry : Nat)
  | setxattr
  | getxattr
  | listxattr
  | removexattr
  | readlink (bufsiz : Int)
  | kmalloc (size : Int)
  | kfree
  | nd_set_link
  | shrink_dcache_parent
  | lock_kernel
  | unlock_kernel
  | unlocked_ioctl (cmd arg : Nat)
  | ioctl (cmd arg : Nat)
  | compat_ioctl (cmd arg : Nat)
  | vfs_statfs
  deriving DecidableEq, Repr

/-! ## Locks held along a trace -/

/-- Whether the worker's queue mutex (`lofs_kthread_ctl.mux`) is held after
the calls of a trace; `held` says whether it was held before. -/
def ctl_mutex_held (held : Bool) : List event → Bool
  | [] => held
  | .ctl_mutex_lock :: rest => ctl_mutex_held true rest
  | .ctl_mutex_unlock :: rest => ctl_mutex_held false rest
  | _ :: rest => ctl_mutex_held held rest

/-- For each full-path lookup of a trace, in order: whether the worker's queue
mutex is held at the moment of the lookup. -/
def ctl_mutex_at_lookups (held : Bool) : List event → List Bool
  | [] => []
  | .ctl_mutex_lock :: rest => ctl_mutex_at_lookups true rest
  | .ctl_mutex_unlock :: rest => ctl_mutex_at_lookups false rest
  | .kern_path _ :: rest => held :: ctl_mutex_at_lookups held rest
  | _ :: rest => ctl_mutex_at_lookups held rest

/-- Whether the lock of the inode of the dentry at address `d` is held after
the calls of a trace; `held` says whether it was held before. -/
def inode_lock_held (d : Nat) (held : Bool) : List event → Bool
  | [] => held
  | .lock_inode x :: rest => inode_lock_held d (if x = d then true else held) rest
  | .unlock_inode x :: rest => inode_lock_held d (if x = d then false else held) rest
  | _ :: rest => inode_lock_held d held rest

/-- Whether the lock of the inode of the dentry at address `d` is held after
the calls of the trace of a pass-through operation. -/
def inode_lock_after (d : Nat) (held : Bool) : List lower_call → Bool
  | [] => held
  | .lock_inode x :: rest => inode_lock_after d (if x = d then true else held) rest
  | .unlock_inode x :: rest => inode_lock_after d (if x = d then false else held) rest
  | _ :: rest => inode_lock_after d held rest

/-- For each call of a lower extended-attribute operation or lower `readlink`
of a trace, in order: whether the lock of the inode of the dentry at address
`d` is held at the moment of the call. -/
def inode_lock_at_lower_ops (d : Nat) (held : Bool) : List lower_call → List Bool
  | [] => []
  | .lock_inode x :: rest => inode_lock_at_lower_ops d (if x = d then true else held) rest
  | .unlock_inode x :: rest => inode_lock_at_lower_ops d (if x = d then false else held) rest
  | .setxattr :: rest => held :: inode_lock_at_lower_ops d held rest
  | .getxattr :: rest => held :: inode_lock_at_lower_ops d held rest
  | .listxattr :: rest => held :: inode_lock_at_lower_ops d held rest
  | .removexattr :: rest => held :: inode_lock_at_lower_ops d held rest
  | .readlink _ :: rest => held :: inode_lock_at_lower_ops d held rest
  | _ :: rest => inode_lock_at_lower_ops d held rest

/-! ## ioctl (`file.c`) -/

def ENOTTY : Int := 25
def ENOSYS : Int := 38
def ENOIOCTLCMD : Int := 515

/-- Kernel macro `_IOR(type, nr, size)` (`asm-generic/ioctl.h`), with the size of
the payload type in bytes: direction `_IOC_READ` (2) in bits 30 and 31, the
size in bits 16 to 29, the type in bits 8 to 15, the number in bits 0 to 7. -/
def _IOR (type nr size : Nat) : Nat := 2 * 2 ^ 30 + size * 2 ^ 16 + type * 2 ^ 8 + nr

/-- The constant `LOFS_IOCTL_PRUNE` of `lofs_common_ioctl` (file.c:245), a
`static const int` initialised with `_IOR(0x15, 7, int)`. -/
def LOFS_IOCTL_PRUNE : Int := to_signed 32 (_IOR 0x15 7 4)

/-- The ioctl handlers of the `file_operations` of a lower file (each NULL or
a function of the command and the argument).  The handler `ioctl` exists on
kernels with `HAVE_LOCKED_IOCTL` only. -/
structure lower_file_operations where
  unlocked_ioctl : Option (Nat → Nat → Int)
  ioctl : Option (Nat → Nat → Int)
  compat_ioctl : Option (Nat → Nat → Int)

/-- Source function `lofs_common_ioctl` (file.c:240).  `root_connected` tells
whether the superblock of the file has a root dentry that is not
disconnected.  `cmd` is an `unsigned int`, with which the `int` constant is
compared after conversion. -/
def lofs_common_ioctl (root_connected : Bool) (cmd : Nat) (_arg : Nat) : Int × List lower_call :=
  if cmd = to_unsigned 32 LOFS_IOCTL_PRUNE then
    (1, if root_connected then [.shrink_dcache_parent] else [])
  else
    (0, [])

/-- Source function `lofs_unlocked_ioctl` (file.c:272).  `lower_f_op` is the `f_op`
of the lower file of `file`, when it has one. -/
def lofs_unlocked_ioctl (HAVE_LOCKED_IOCTL : Bool) (root_connected : Bool) (file : lofs_file)
    (lower_f_op : Option lower_file_operations) (cmd arg : Nat) : Int × List lower_call :=
  let rc : Int := -ENOTTY
  let (handled, evs) := lofs_common_ioctl root_connected cmd arg
  if handled ≠ 0 then (0, evs)
  else
    let lower_file := match file.private_data with
      | some _ => lofs_file_to_lower file
      | none => none
    match lower_file, lower_f_op with
    | some _, some fop =>
      match fop.unlocked_ioctl with
      | some handler => (handler cmd arg, evs ++ [.unlocked_ioctl cmd arg])
      | none =>
        if HAVE_LOCKED_IOCTL then
          match fop.ioctl with
          | some handler =>
            (handler cmd arg, evs ++ [.lock_kernel, .ioctl cmd arg, .unlock_kernel])
          | none => (rc, evs)
        else (rc, evs)
    | _, _ => (rc, evs)

/-- Source function `lofs_ioctl` (file.c:326), the entry point of kernels without
`unlocked_ioctl`. -/
def lofs_ioctl (root_connected : Bool) (file : lofs_file)
    (lower_f_op : Option lower_file_operations) (cmd arg : Nat) : Int × List lower_call :=
  let rc : Int := -ENOTTY
  let (handled, evs) := lofs_common_ioctl root_connected cmd arg
  if handled ≠ 0 then (0, evs)
  else
    let lower_file := match file.private_data with
      | some _ => lofs_file_to_lower file
      | none => none
    match lower_file, lower_f_op with
    | some _, some fop =>
      match fop.ioctl with
      | some handler => (handler cmd arg, evs ++ [.ioctl cmd arg])
      | none => (rc, evs)
    | _, _ => (rc, evs)

/-- Source function `lofs_compat_ioctl` (file.c:358). -/
def lofs_compat_ioctl (root_connected : Bool) (file : lofs_file)
    (lower_f_op : Option lower_file_operations) (cmd arg : Nat) : Int × List lower_call :=
  let rc : Int := -ENOIOCTLCMD
  let (handled, evs) := lofs_common_ioctl root_connected cmd arg
  if handled ≠ 0 then (0, evs)
  else
    let lower_file := match file.private_data with
      | some _ => lofs_file_to_lower file
      | none => none
    match lower_file, lower_f_op with
    | some _, some fop =>
      match fop.compat_ioctl with
      | some handler => (handler cmd arg, evs ++ [.compat_ioctl cmd arg])
      | none => (rc, evs)
    | _, _ => (rc, evs)

/-- The lower ioctl calls of a trace: the command and the argument of each. -/
def lower_ioctls : List lower_call → List (Nat × Nat)
  | [] => []
  | .unlocked_ioctl cmd arg :: rest => (cmd, arg) :: lower_ioctls rest
  | .ioctl cmd arg :: rest => (cmd, arg) :: lower_ioctls rest
  | .compat_ioctl cmd arg :: rest => (cmd, arg) :: lower_ioctls rest
  | _ :: rest => lower_ioctls rest

/-! ## Superblock (`main.c`, `super.c`) -/

def MS_ACTIVE : Nat := 2 ^ 30

/-- Kernel `struct kstatfs`. -/
structure kstatfs where
  f_type : Nat
  f_bsize : Nat
  f_blocks : Nat
  f_bfree : Nat
  f_bavail : Nat
  f_files : Nat
  f_ffree : Nat
  f_namelen : Nat
  deriving DecidableEq, Repr

/-- The overlay `struct super_block`: flags, limits, magic number, the root
dentry. -/
structure super_block where
  s_flags : Nat
  s_maxbytes : Nat
  s_blocksize : Nat
  s_magic : Nat
  s_root : lofs_dentry

/-- Answers of the kernel to the calls of `lofs_mount`: whether the
allocations succeed, the error of `sget` if it fails, the return codes of
`bdi_setup_and_register` and `kern_path`, the path found for "/" with the
limits of its superblock and the attributes of its inode, and the answer to
the inode lookup. -/
structure mount_answers where
  sbi : Bool
  sget : Option Int
  bdi_setup_and_register : Int
  kern_path : Int
  root : lower_path
  s_maxbytes : Nat
  s_blocksize : Nat
  lower_inode : inode
  iget : iget_outcome
  d_make_root : Bool
  root_info : Bool

/-- Source function `lofs_mount` (main.c:177): the error that the returned
`ERR_PTR` carries, or the superblock whose root dentry is returned. -/
def lofs_mount (HAVE_BACKING_DEV : Bool) (flags : Nat) (a : mount_answers) :
    Except Int super_block :=
  if a.sbi = false then .error (-ENOMEM)
  else
    match a.sget with
    | some e => .error e
    | none =>
      let s_flags := flags
      if HAVE_BACKING_DEV = true ∧ a.bdi_setup_and_register ≠ 0 then
        .error a.bdi_setup_and_register
      else if a.kern_path ≠ 0 then .error a.kern_path
      else
        let s_maxbytes := a.s_maxbytes
        let s_blocksize := a.s_blocksize
        let s_magic := 0x10f5
        match (lofs_get_inode a.root.dentry.d_inode a.lower_inode a.iget).1 with
        | .error e => .error e
        | .ok inode =>
          if a.d_make_root = false then .error (-ENOMEM)
          else if a.root_info = false then .error (-ENOMEM)
          else
            .ok { s_flags := s_flags ||| MS_ACTIVE, s_maxbytes := s_maxbytes,
                  s_blocksize := s_blocksize, s_magic := s_magic,
                  s_root := { d_inode := some inode, lower_dentry := a.root.dentry,
                              lower_mnt := a.root.mnt } }

/-- Source function `lofs_statfs` (super.c:141, the variant of kernels whose
`vfs_statfs` takes a path; the other two variants hand the lower superblock
or the lower dentry to `vfs_statfs` in the same way).  `vfs_statfs` is the
kernel function on the lower filesystem: for a lower path and the buffer,
the return code and the buffer as it is filled. -/
def lofs_statfs (vfs_statfs : lower_path → kstatfs → Int × kstatfs) (arg : lofs_dentry)
    (buf : kstatfs) : Int × kstatfs × List lower_call :=
  let lower : lower_path := { mnt := arg.lower_mnt, dentry := arg.lower_dentry }
  ((vfs_statfs lower buf).1, (vfs_statfs lower buf).2, [.vfs_statfs])

/-! ## Extended attributes and symbolic links (`inode.c`) -/

def PAGE_SIZE : Nat := 4096

/-- The operations of the lower inode that the overlay passes through to:
each is NULL or gives the value that the operation returns (for `readlink`,
as a function of the buffer size). -/
structure lower_inode_operations where
  setxattr : Option Int
  getxattr : Option Int
  listxattr : Option Int
  removexattr : Option Int
  readlink : Option (Int → Int)

/-- Source function `lofs_setxattr` (inode.c:848). -/
def lofs_setxattr (dentry : lofs_dentry) (i_op : lower_inode_operations) : Int × List lower_call :=
  let rc : Int := -ENOSYS
  let lower_dentry := dentry.lower_dentry
  match i_op.setxattr with
  | some ret =>
    (ret, [.lock_inode lower_dentry.addr, .setxattr, .unlock_inode lower_dentry.addr])
  | none => (rc, [])

/-- Source function `lofs_getxattr` (inode.c:862).  The `ssize_t` of the lower
operation passes through the local `int rc`. -/
def lofs_getxattr (dentry : lofs_dentry) (i_op : lower_inode_operations) : Int × List lower_call :=
  let rc : Int := -ENOSYS
  let lower_dentry := dentry.lower_dentry
  match i_op.getxattr with
  | some ret =>
    (to_signed 32 ret,
     [.lock_inode lower_dentry.addr, .getxattr, .unlock_inode lower_dentry.addr])
  | none => (rc, [])

/-- Source function `lofs_listxattr` (inode.c:875).  The `ssize_t` of the lower
operation passes through the local `int rc`. -/
def lofs_listxattr (dentry : lofs_dentry) (i_op : lower_inode_operations) : Int × List lower_call :=
  let rc : Int := -ENOSYS
  let lower_dentry := dentry.lower_dentry
  match i_op.listxattr with
  | some ret =>
    (to_signed 32 ret,
     [.lock_inode lower_dentry.addr, .listxattr, .unlock_inode lower_dentry.addr])
  | none => (rc, [])

/-- Source function `lofs_removexattr` (inode.c:887). -/
def lofs_removexattr (dentry : lofs_dentry) (i_op : lower_inode_operations) :
    Int × List lower_call :=
  let rc : Int := -ENOSYS
  let lower_dentry := dentry.lower_dentry
  match i_op.removexattr with
  | some ret =>
    (ret, [.lock_inode lower_dentry.addr, .removexattr, .unlock_inode lower_dentry.addr])
  | none => (rc, [])

/-- Source function `lofs_readlink` (inode.c:676).  `d_inode` is the overlay inode
of the dentry, `lower_inode` the attributes of the lower inode after the
lower call.  Returns the return code, the overlay inode and the kernel
calls. -/
def lofs_readlink (_dentry : lofs_dentry) (d_inode : inode) (lower_inode : inode)
    (i_op : lower_inode_operations) (bufsiz : Int) : Int × inode × List lower_call :=
  match i_op.readlink with
  | none => (-EINVAL, d_inode, [])
  | some readlink =>
    let rc := readlink bufsiz
    if rc ≥ 0 then (rc, fsstack_copy_attr_atime d_inode lower_inode, [.readlink bufsiz])
    else (rc, d_inode, [.readlink bufsiz])

/-- Result of `lofs_follow_link`: the return code, the size of the buffer it
allocated (if it could), the index at which it stored the terminating NUL
(if it did), whether the buffer is handed to `nd_set_link` (else it is
freed), the overlay inode and the kernel calls. -/
structure follow_link_result where
  rc : Int
  buf_size : Option Int
  terminator : Option Int
  link_set : Bool
  d_inode : inode
  trace : List lower_call

/-- Source function `lofs_follow_link` (inode.c:705).  The `readlink` operation of
the overlay inode of a symbolic link is `lofs_readlink` (`lofs_symlink_iops`). -/
def lofs_follow_link (dentry : lofs_dentry) (d_inode : inode) (lower_inode : inode)
    (i_op : lower_inode_operations) (kmalloc_ok : Bool) : follow_link_result :=
  let len : Int := PAGE_SIZE
  if kmalloc_ok = false then
    { rc := -ENOMEM, buf_size := none, terminator := none, link_set := false,
      d_inode := d_inode, trace := [.kmalloc len] }
  else
    let (rc, d_inode1, evs) := lofs_readlink dentry d_inode lower_inode i_op len
    if rc < 0 then
      { rc := rc, buf_size := some len, terminator := none, link_set := false,
        d_inode := d_inode1, trace := [.kmalloc len] ++ evs ++ [.kfree] }
    else
      { rc := 0, buf_size := some len, terminator := some rc, link_set := true,
        d_inode := d_inode1, trace := [.kmalloc len] ++ evs ++ [.nd_set_link] }

/-! ## Concrete inputs of the evaluations below -/

/-- An inode whose persistent file was opened read-write. -/
def sample_inode_info : lofs_inode_info :=
  { lower_file := some { addr := 1, f_flags := 0x8002, f_mode := 0x1f, f_pos := 0 } }

/-- Attributes of an empty regular file. -/
def sample_inode : inode :=
  { i_mode := 0x81a4, i_uid := 0, i_gid := 0, i_rdev := 0, i_atime := 0, i_mtime := 0,
    i_ctime := 0, i_blkbits := 12, i_flags := 0, i_nlink := 1, i_size := 0, i_blocks := 0,
    i_ino := 2 }

/-- An empty lower file (all bytes read as 0). -/
def sample_lower : lower_inode := { attrs := sample_inode, bytes := fun _ => 0 }

/-- A lower file of 3 bytes: 100, 101, 102. -/
def sample_lower3 : lower_inode :=
  { attrs := { sample_inode with i_size := 3 }, bytes := fun a => if a < 3 then a + 100 else 0 }

/-- Page 0 of a file, locked, holding the bytes 1, 2, 3, ... -/
def sample_page : page :=
  { index := 0, data := fun j => j % 251 + 1, uptodate := true, locked := true }

/-- A positive lower dentry at address `addr` with inode at `ino`, parent
dentry at `parent`, without dentry operations, on device 8. -/
def sample_lower_dentry (addr ino parent : Nat) : lower_dentry :=
  { addr := addr, d_inode := ino, d_op := none, d_unhashed := false, d_parent := parent,
    d_mounted := false, d_managed := false, s_dev := 8 }

/-- A negative overlay dentry paired with the lower dentry at `addr` (whose
inode is at `ino`; 0 for a negative one) in the lower mount `mnt`. -/
def sample_dentry (addr ino parent mnt : Nat) : lofs_dentry :=
  { d_inode := none, lower_dentry := sample_lower_dentry addr ino parent, lower_mnt := mnt }

/-- Attributes of a directory, with all three times equal to `t` and size `sz`. -/
def sample_dir (t sz : Nat) : inode :=
  { sample_inode with i_mode := 0x41ed, i_nlink := 2, i_atime := t, i_mtime := t, i_ctime := t,
                      i_size := sz }

/-- The lower dentry at address 2, named in the directory at address 1, on
which a filesystem is mounted. -/
def sample_mountpoint : lower_dentry :=
  { sample_lower_dentry 2 3 1 with d_mounted := true }

/-- The root dentry (address 5, its own parent) of the filesystem mounted
there, in the mount at address 9. -/
def sample_mounted_root : lower_path :=
  { mnt := 9, dentry := sample_lower_dentry 5 6 5 }

/-- Oracles of an interposition: the kernel follows the mount on
`sample_mountpoint` to `sample_mounted_root`, allocations succeed or not as
`alloc_ok` says, the inode lookup answers `iget`. -/
def sample_interpose_env (alloc_ok : Bool) (iget : iget_outcome) : interpose_env :=
  { HAVE_MANAGED_DENTRIES := false,
    answers := [{ ret := 1, path := sample_mounted_root }],
    managed := (0, sample_mounted_root),
    redo := { ret := 0, path := sample_mounted_root },
    alloc_ok := alloc_ok,
    iget := iget,
    lower_dentries := fun a => sample_lower_dentry a (a + 1) a,
    lower_inodes := fun _ => sample_dir 7 4096 }

/-- Oracles of a lookup that finds nothing in the dentry cache and gets
`d` from `lookup_one_len`. -/
def sample_lookup_env (d : lower_dentry) : lookup_env :=
  { d_lookup := none, d_invalidate := 0, lookup_one_len := .found d }

/-- Invariant of the worker: requests on the list of a worker that is not
zombie are not zombie, and the requests looked up so far followed by the
pending ones are the requests queued so far, in order. -/
def kthread_inv (st : kthread_state) : Prop :=
  (st.ctl.flags &&& LOFS_KTHREAD_ZOMBIE = 0 →
    ∀ r ∈ st.ctl.req_list, r.flags &&& LOFS_REQ_ZOMBIE = 0) ∧
  looked_up st.trace ++ st.ctl.req_list.map (fun r => r.addr) = enqueued st.trace

/-- A full-path lookup that answers `rc` for every request and leaves the path as it is. -/
def sample_kern_path (rc : Int) : lofs_lookup_req → Int × (Nat × Nat) := fun r => (rc, r.p)

/-- The state in which one caller has queued the request at address 1 for
the name "/net". -/
def sample_queued : kthread_state :=
  (lofs_lookup_managed_enqueue lofs_init_kthread (some 1) ['/', 'n', 'e', 't'] (0, 0)).2

/-- Answers with which `lofs_mount` succeeds: the root of the lower
filesystem is the dentry at address 1 in the mount at address 100. -/
def sample_mount_answers : mount_answers :=
  { sbi := true, sget := none, bdi_setup_and_register := 0, kern_path := 0,
    root := { mnt := 100, dentry := sample_lower_dentry 1 2 1 },
    s_maxbytes := 2 ^ 63 - 1, s_blocksize := 4096, lower_inode := sample_dir 7 4096,
    iget := .allocated sample_inode, d_make_root := true, root_info := true }

/-- An empty `struct kstatfs`. -/
def sample_kstatfs : kstatfs :=
  { f_type := 0, f_bsize := 0, f_blocks := 0, f_bfree := 0, f_bavail := 0, f_files := 0,
    f_ffree := 0, f_namelen := 0 }

/-- The `vfs_statfs` of a lower filesystem of type ext3 (magic 0xEF53). -/
def sample_vfs_statfs : lower_path → kstatfs → Int × kstatfs :=
  fun _ buf => (0, { buf with f_type := 0xEF53, f_bsize := 4096, f_namelen := 255 })

/-- A lower inode with all four extended-attribute operations and a
`readlink` for a link of `n` bytes. -/
def sample_i_op (n : Int) : lower_inode_operations :=
  { setxattr := some 0, getxattr := some 5, listxattr := some 10, removexattr := some 0,
    readlink := some (fun bufsiz => min n bufsiz) }

/-- A positive lower dentry whose revalidate hook returns `v`. -/
def sample_hooked_dentry (v : Int) : lower_dentry :=
  { sample_lower_dentry 2 3 1 with
    d_op := some { d_revalidate := some (fun _ => v), is_lofs_dops := false } }

end Lofs

namespace Markov

/-! ## markov: search of the suffix array (`src/markov/main.cpp`) -/

/-- C library `strncmp(s1, s2, n)`.  A string is given by its bytes from the
pointer on (`s 0` is the byte the pointer points at), as values of
`unsigned char`. -/
def strncmp (s1 s2 : Nat → Nat) : Nat → Int
  | 0 => 0
  | n + 1 =>
    if s1 0 ≠ s2 0 then (s1 0 : Int) - (s2 0 : Int)
    else if s1 0 = 0 then 0
    else strncmp (fun i => s1 (i + 1)) (fun i => s2 (i + 1)) n

/-- C library `strcmp(s1, s2)` for two strings of which one ends within `bound` bytes. -/
def strcmp (bound : Nat) (s1 s2 : Nat → Nat) : Int := strncmp s1 s2 bound

/-- The string that entry `m` of the suffix array points at: `suffixes m` is
the offset in `input` of the pointer `suffixes[m]`. -/
def suffix (input : Nat → Nat) (suffixes : Nat → Nat) (m : Nat) : Nat → Nat :=
  fun i => input (suffixes m + i)

/-- The state that main.cpp:196-211 sets up, as far as the search uses it:
the input ends with a NUL at `input[bytesRead]`, the `bytesRead` entries of
the suffix array point into the input, and `qsort` has left them sorted by
`strcmp`. -/
def suffix_array_sorted (input : Nat → Nat) (suffixes : Nat → Nat) (bytesRead : Nat) : Prop :=
  input bytesRead = 0 ∧
  (∀ m, m < bytesRead → suffixes m < bytesRead) ∧
  (∀ i j, i ≤ j → j < bytesRead →
    strcmp (bytesRead + 1) (suffix input suffixes i) (suffix input suffixes j) ≤ 0)

/-- How the search loop ends: with the value of `u`; with an index `m` outside
the entries of the suffix array; or not within the iterations allowed. -/
inductive search_result where
  | found (u : Int)
  | out_of_bounds (m : Int)
  | out_of_fuel
  deriving DecidableEq, Repr

/-- The loop `while ((l + 1) != u)` of `main` (main.cpp:250-257), from the
values `l` and `u`, with at most `fuel` evaluations of its condition.  `pre`
is the pointer `prefix`, `K` the order (not negative).  The `int` variables
are 32 bits wide. -/
def search_loop (input : Nat → Nat) (suffixes : Nat → Nat) (bytesRead : Nat) (pre : Nat → Nat)
    (K : Nat) : Nat → Int → Int → search_result
  | 0, _, _ => .out_of_fuel
  | fuel + 1, l, u =>
    if Lofs.to_signed 32 (l + 1) ≠ u then
      let m := Int.tdiv (Lofs.to_signed 32 (l + u)) 2
      if m < 0 ∨ (bytesRead : Int) ≤ m then .out_of_bounds m
      else if strncmp (suffix input suffixes m.toNat) pre K < 0 then
        search_loop input suffixes bytesRead pre K fuel m u
      else
        search_loop input suffixes bytesRead pre K fuel l m
    else .found u

/-- The search of `main` (main.cpp:246-257): `l = -1`, `u = bytesRead`, then the loop. -/
def main_search (input : Nat → Nat) (suffixes : Nat → Nat) (bytesRead : Nat) (pre : Nat → Nat)
    (K : Nat) (fuel : Nat) : search_result :=
  search_loop input suffixes bytesRead pre K fuel (-1) (Lofs.to_signed 32 bytesRead)

/-- An input of `2 * h` bytes: the letter b and a NUL byte, alternating. -/
def sample_input (h : Nat) : Nat → Nat := fun i => if i < 2 * h ∧ i % 2 = 0 then 98 else 0

/-- A sorted suffix array of `sample_input h`: first the `h` pointers to the NUL
bytes (empty strings), then the `h` pointers to the letters (strings "b"). -/
def sample_suffixes (h : Nat) : Nat → Nat :=
  fun m => if m < h then 2 * m + 1 else 2 * (m - h)

/-- The string made of the letter b. -/
def sample_b : Nat → Nat := fun i => if i = 0 then 98 else 0

end Markov

namespace Lofs

/-! ## Theorems -/

/-! ### Persistent lower file: auxiliary facts -/

/-- The open files of a concatenated trace. -/
theorem open_files_append (acc : List Nat) (t1 t2 : List event) :
    open_files acc (t1 ++ t2) = open_files (open_files acc t1) t2 := by
  induction t1 generalizing acc with
  | nil => rfl
  | cons e t ih => cases e <;> simp [open_files, ih]

/-- The three ways a call of `lofs_init_persistent_file` can go. -/
theorem init_cases (ii : lofs_inode_info) (mode : Nat) (k : open_outcome) :
    ((∃ f, ii.lower_file = some f ∧ f.f_mode &&& mode = mode) ∧
      lofs_init_persistent_file ii mode k =
        { rc := 0, inode_info := ii, trace := [.mutex_lock, .mutex_unlock] }) ∨
    ((∀ f, ii.lower_file = some f → f.f_mode &&& mode ≠ mode) ∧
      ((∃ e, k = .failed e ∧
        lofs_init_persistent_file ii mode k =
          { rc := -((e.val : Int) + 1), inode_info := ii,
            trace := [.mutex_lock, .dget, .mntget, .dentry_open_err (-((e.val : Int) + 1)),
                      .mutex_unlock] }) ∨
       (∃ a f, k = .opened a ∧
        dentry_open (if mode &&& FMODE_WRITE ≠ 0 then O_LARGEFILE ||| O_RDWR
                     else O_LARGEFILE ||| O_RDONLY) k = .ok f ∧
        lofs_init_persistent_file ii mode k =
          { rc := 0, inode_info := { ii with lower_file := some f },
            trace := [.mutex_lock, .dget, .mntget, .dentry_open_ok f] ++
                     (match ii.lower_file with | some old => [.fput old] | none => []) ++
                     [.mutex_unlock] }))) := by
  obtain ⟨lf⟩ := ii
  cases lf with
  | none =>
    right
    refine ⟨by simp, ?_⟩
    cases k with
    | opened a =>
      right
      refine ⟨a, _, rfl, rfl, ?_⟩
      simp [lofs_init_persistent_file, lofs_privileged_open, dentry_open]
    | failed e =>
      left
      refine ⟨e, rfl, ?_⟩
      simp [lofs_init_persistent_file, lofs_privileged_open, dentry_open]
  | some old =>
    by_cases hm : old.f_mode &&& mode = mode
    · left
      exact ⟨⟨old, rfl, hm⟩, by simp [lofs_init_persistent_file, hm]⟩
    · right
      refine ⟨by simpa using hm, ?_⟩
      cases k with
      | opened a =>
        right
        refine ⟨a, _, rfl, rfl, ?_⟩
        simp [lofs_init_persistent_file, lofs_privileged_open, dentry_open, hm]
      | failed e =>
        left
        refine ⟨e, rfl, ?_⟩
        simp [lofs_init_persistent_file, lofs_privileged_open, dentry_open, hm]
        omega

/-- Mode bits of a file opened by `lofs_privileged_open`. -/
theorem dentry_open_ok_mode (mode : Nat) (k : open_outcome) (f : file)
    (h : dentry_open (if mode &&& FMODE_WRITE ≠ 0 then O_LARGEFILE ||| O_RDWR
                     else O_LARGEFILE ||| O_RDONLY) k = .ok f) :
    f.f_mode &&& ro_mode = ro_mode ∧ f.readable = true ∧
    (mode &&& FMODE_WRITE ≠ 0 → f.writable = true) ∧
    (mode &&& FMODE_WRITE = 0 → f.writable = false) := by
  cases k with
  | failed e => simp [dentry_open] at h
  | opened a =>
    simp only [dentry_open, Except.ok.injEq] at h
    subst h
    by_cases hw : mode &&& FMODE_WRITE = 0
    · simp [hw, file.readable, file.writable]
      decide
    · simp [hw, file.readable, file.writable]
      decide

/-- A file with the mode bits of a read-only open permits reading. -/
theorem readable_of_ro_mode (f : file) (h : f.f_mode &&& ro_mode = ro_mode) :
    f.readable = true := by
  have h1 : f.f_mode &&& FMODE_READ = FMODE_READ := by
    have : ro_mode &&& FMODE_READ = FMODE_READ := by decide
    rw [← this, ← Nat.land_assoc, h]
  simp only [file.readable, h1]
  decide

/-- A file that has the bits `big` has every mask made of bits of `big`. -/
theorem and_eq_of_subset (m mode big : Nat) (hm : m &&& big = big)
    (hs : mode &&& big = mode) : m &&& mode = mode := by
  rw [← hs, ← Nat.land_assoc, Nat.land_comm m mode, Nat.land_assoc, hm]

/-- The file of a successful `dentry_open` is at the address the kernel chose. -/
theorem dentry_open_ok_addr (flags : Nat) (a : Nat) (f : file)
    (h : dentry_open flags (.opened a) = .ok f) : f.addr = a := by
  simp only [dentry_open, Except.ok.injEq] at h
  subst h
  rfl

/-- One call of `lofs_init_persistent_file` keeps the invariant. -/
theorem persistent_inv_step (h : history) (mode : Nat) (k : open_outcome)
    (hinv : persistent_inv h) :
    persistent_inv
      { inode_info := (lofs_init_persistent_file h.inode_info mode k).inode_info,
        rcs := (lofs_init_persistent_file h.inode_info mode k).rc :: h.rcs,
        trace := h.trace ++ (lofs_init_persistent_file h.inode_info mode k).trace } := by
  obtain ⟨hopen, hrc, hrd⟩ := hinv
  rcases init_cases h.inode_info mode k with ⟨⟨f, hf, _⟩, heq⟩ | ⟨_, ⟨e, _, heq⟩ | ⟨a, f, hk, hd, heq⟩⟩
  · rw [heq]
    refine ⟨?_, ?_, hrd⟩
    · simp [open_files_append, hopen, open_files]
    · simp [hf]
  · rw [heq]
    refine ⟨?_, ?_, hrd⟩
    · simp [open_files_append, hopen, open_files]
    · have hne : (0 : Int) ≠ -((e.val : Int) + 1) := by omega
      simp only [List.mem_cons, hne, false_or]
      exact hrc
  · rw [heq]
    subst hk
    have ha := dentry_open_ok_addr _ a f hd
    refine ⟨?_, by simp, ?_⟩
    · cases hl : h.inode_info.lower_file with
      | none =>
        simp [open_files_append, hopen, hl, open_files]
      | some old =>
        by_cases hao : f.addr = old.addr
        · simp [open_files_append, hopen, hl, open_files, hao]
        · simp [open_files_append, hopen, hl, open_files, hao]
    · intro g hg
      simp only [Option.some.injEq] at hg
      subst hg
      exact (dentry_open_ok_mode mode _ f hd).1

/-- Every sequence of calls keeps the invariant. -/
theorem run_calls_inv (calls : List (Nat × open_outcome)) (h : history)
    (hinv : persistent_inv h) : persistent_inv (run_calls h calls) := by
  induction calls generalizing h with
  | nil => exact hinv
  | cons c rest ih =>
    obtain ⟨mode, k⟩ := c
    exact ih _ (persistent_inv_step h mode k hinv)

/-- A freshly allocated inode satisfies the invariant. -/
theorem fresh_inv : persistent_inv fresh := by
  simp [persistent_inv, fresh, lofs_alloc_inode, open_files]


/-- A call that finds a sufficient persistent file changes nothing. -/
theorem init_noop (ii : lofs_inode_info) (g : file) (mode : Nat) (k : open_outcome)
    (hg : ii.lower_file = some g) (h : g.f_mode &&& mode = mode) :
    lofs_init_persistent_file ii mode k =
      { rc := 0, inode_info := ii, trace := [.mutex_lock, .mutex_unlock] } := by
  simp [lofs_init_persistent_file, hg, h]

/-- A file with the bits of a read-only open and FMODE_WRITE has those of a
read-write open. -/
theorem rw_of_ro_and_write (m : Nat) (h : m &&& ro_mode = ro_mode) (hw : m &&& FMODE_WRITE ≠ 0) :
    m &&& rw_mode = rw_mode := by
  have hw2 : m &&& FMODE_WRITE = FMODE_WRITE := by
    have h2 : m &&& 2 ≠ 0 := hw
    have : m &&& 2 = 0 ∨ m &&& 2 = 2 := by
      have hle : m &&& 2 ≤ 2 := Nat.and_le_right
      have hne1 : m &&& 2 ≠ 1 := by
        intro h1
        have := congrArg (fun x => x &&& 1) h1
        simp only [Nat.land_assoc] at this
        norm_num at this
      omega
    rcases this with h0 | h2'
    · exact absurd h0 h2
    · exact h2'
  have hsplit : rw_mode = ro_mode ||| FMODE_WRITE := by decide
  rw [hsplit, Nat.and_or_distrib_left, h, hw2]

/-! ### Persistent lower file: claims C1 to C4 -/

/-- C1 (code defect).  The claim: a read-write persistent file is never
replaced by a read-only one, whatever mode mask is requested.  The code
re-opens whenever the requested mask has a bit the file lacks, and chooses
the new access from FMODE_WRITE alone: here an inode whose persistent file
was opened read-write (mode 0x1f) is asked for the mode of a read-only
fanotify open (FMODE_NONOTIFY set, FMODE_WRITE clear); the call returns 0,
releases the read-write file and installs a read-only one. -/
theorem lofs_init_persistent_file_demotes_rw_handle :
    (lofs_init_persistent_file lofs_alloc_inode rw_mode (.opened 1)).inode_info =
      { lower_file := some { addr := 1, f_flags := 0x8002, f_mode := 0x1f, f_pos := 0 } } ∧
    file.writable { addr := 1, f_flags := 0x8002, f_mode := 0x1f, f_pos := 0 } = true ∧
    lofs_init_persistent_file
        { lower_file := some { addr := 1, f_flags := 0x8002, f_mode := 0x1f, f_pos := 0 } }
        (ro_mode ||| FMODE_NONOTIFY) (.opened 2) =
      { rc := 0,
        inode_info :=
          { lower_file := some { addr := 2, f_flags := 0x8000, f_mode := 0x1d, f_pos := 0 } },
        trace := [.mutex_lock, .dget, .mntget,
                  .dentry_open_ok { addr := 2, f_flags := 0x8000, f_mode := 0x1d, f_pos := 0 },
                  .fput { addr := 1, f_flags := 0x8002, f_mode := 0x1f, f_pos := 0 },
                  .mutex_unlock] } ∧
    file.writable { addr := 2, f_flags := 0x8000, f_mode := 0x1d, f_pos := 0 } = false := by
  decide

/-- Supplement to C1: requests made of access-mode bits never demote. -/
theorem lofs_init_persistent_file_keeps_rw_for_access_modes
    (calls : List (Nat × open_outcome)) (mode : Nat) (k : open_outcome) (f : file)
    (hf : (run_calls fresh calls).inode_info.lower_file = some f)
    (hw : f.writable = true) (hmode : mode &&& rw_mode = mode) :
    lofs_init_persistent_file (run_calls fresh calls).inode_info mode k =
      { rc := 0, inode_info := (run_calls fresh calls).inode_info,
        trace := [.mutex_lock, .mutex_unlock] } := by
  obtain ⟨_, _, hrd⟩ := run_calls_inv calls fresh fresh_inv
  have hro := hrd f hf
  have hw2 : f.f_mode &&& FMODE_WRITE ≠ 0 := by simpa [file.writable] using hw
  exact init_noop _ f mode k hf (and_eq_of_subset _ _ _ (rw_of_ro_and_write _ hro hw2) hmode)


/-- A file that has every requested bit has FMODE_WRITE when it is requested. -/
theorem and_write_of_and_eq (m mode : Nat) (h : m &&& mode = mode)
    (hw : mode &&& FMODE_WRITE ≠ 0) : m &&& FMODE_WRITE ≠ 0 := by
  intro h0
  apply hw
  rw [← h, Nat.land_assoc, Nat.land_comm mode, ← Nat.land_assoc, h0, Nat.zero_and]

/-- C2.  After any history of calls on a freshly allocated inode, whenever
`lofs_init_persistent_file` returns 0 the inode has a persistent lower file
that permits reading, and that permits writing if the requested mode
contains FMODE_WRITE. -/
theorem lofs_init_persistent_file_mode_sufficient (calls : List (Nat × open_outcome))
    (mode : Nat) (k : open_outcome)
    (h : (lofs_init_persistent_file (run_calls fresh calls).inode_info mode k).rc = 0) :
    ∃ f, (lofs_init_persistent_file (run_calls fresh calls).inode_info mode k).inode_info.lower_file
          = some f ∧
      f.readable = true ∧ (mode &&& FMODE_WRITE ≠ 0 → f.writable = true) := by
  obtain ⟨_, _, hrd⟩ := run_calls_inv calls fresh fresh_inv
  rcases init_cases (run_calls fresh calls).inode_info mode k with
    ⟨⟨f, hf, hm⟩, heq⟩ | ⟨_, ⟨e, _, heq⟩ | ⟨a, f, hk, hd, heq⟩⟩
  · refine ⟨f, by rw [heq]; exact hf, readable_of_ro_mode f (hrd f hf), ?_⟩
    intro hw
    have := and_write_of_and_eq f.f_mode mode hm hw
    simpa [file.writable] using this
  · rw [heq] at h
    simp only at h
    omega
  · refine ⟨f, by rw [heq], ?_, ?_⟩
    · exact (dentry_open_ok_mode mode k f hd).2.1
    · exact (dentry_open_ok_mode mode k f hd).2.2.1

theorem lofs_init_persistent_file_mode_sufficient_witness :
    ∃ f, (lofs_init_persistent_file
            (run_calls fresh [(ro_mode, .opened 1)]).inode_info rw_mode (.opened 2)).inode_info.lower_file
          = some f ∧
      f.readable = true ∧ (rw_mode &&& FMODE_WRITE ≠ 0 → f.writable = true) :=
  lofs_init_persistent_file_mode_sufficient [(ro_mode, .opened 1)] rw_mode (.opened 2) (by decide)

/-- C3.  After any sequence of `lofs_init_persistent_file` calls on one
inode (any modes, each lower open succeeding or failing) the lower files
opened and not yet released are exactly the persistent lower file of the
inode; their number is one if some call returned 0 and zero otherwise; and a
read-only open followed by a read-write open leaves exactly one handle, the
second one, held read-write. -/
theorem persistent_file_exactly_one_handle (calls : List (Nat × open_outcome)) :
    open_files [] (run_calls fresh calls).trace =
      ((run_calls fresh calls).inode_info.lower_file.map file.addr).toList ∧
    (open_files [] (run_calls fresh calls).trace).length =
      (if (0 : Int) ∈ (run_calls fresh calls).rcs then 1 else 0) ∧
    (∀ a b : Nat, ∃ f,
      (run_calls fresh [(ro_mode, .opened a), (rw_mode, .opened b)]).inode_info.lower_file = some f ∧
      f.addr = b ∧ f.readable = true ∧ f.writable = true ∧
      open_files [] (run_calls fresh [(ro_mode, .opened a), (rw_mode, .opened b)]).trace = [b]) := by
  obtain ⟨hopen, hrc, _⟩ := run_calls_inv calls fresh fresh_inv
  refine ⟨hopen, ?_, ?_⟩
  · rw [hopen]
    cases hl : (run_calls fresh calls).inode_info.lower_file with
    | none =>
      have : (0 : Int) ∉ (run_calls fresh calls).rcs := by
        intro h0
        have := hrc.2 h0
        simp [hl] at this
      simp [this]
    | some f =>
      have : (0 : Int) ∈ (run_calls fresh calls).rcs := hrc.1 (by simp [hl])
      simp [this]
  · intro a b
    have hl : (run_calls fresh [(ro_mode, .opened a), (rw_mode, .opened b)]).inode_info.lower_file
        = some { addr := b, f_flags := 0x8002, f_mode := 0x1f, f_pos := 0 } := by
      simp +decide [run_calls, fresh, lofs_alloc_inode, lofs_init_persistent_file,
        lofs_privileged_open, dentry_open, ro_mode, rw_mode, FMODE_READ, FMODE_WRITE, FMODE_LSEEK,
        FMODE_PREAD, FMODE_PWRITE, O_LARGEFILE, O_RDWR, O_RDONLY, O_ACCMODE]
    refine ⟨_, hl, rfl, by simp +decide [file.readable, FMODE_READ],
      by simp +decide [file.writable, FMODE_WRITE], ?_⟩
    rw [(run_calls_inv _ fresh fresh_inv).1, hl]
    rfl



/-- C4.  If the lower open attempted by `lofs_init_persistent_file` fails,
the function returns the error code of the open (which is not 0), leaves the
inode as it was and releases no file; and whenever a file is released, it is
the previous persistent file, released immediately after the successful open
of its replacement, with no other release before it. -/
theorem lofs_init_persistent_file_failed_open_keeps_handle
    (inode_info : lofs_inode_info) (mode : Nat) (k : open_outcome) :
    (∀ rc, event.dentry_open_err rc ∈ (lofs_init_persistent_file inode_info mode k).trace →
      (lofs_init_persistent_file inode_info mode k).rc = rc ∧ rc ≠ 0 ∧
      (∃ e, k = .failed e ∧ rc = -((e.val : Int) + 1)) ∧
      (lofs_init_persistent_file inode_info mode k).inode_info = inode_info ∧
      ∀ f, event.fput f ∉ (lofs_init_persistent_file inode_info mode k).trace) ∧
    (∀ old, event.fput old ∈ (lofs_init_persistent_file inode_info mode k).trace →
      ∃ g pre post,
        (lofs_init_persistent_file inode_info mode k).trace =
          pre ++ event.dentry_open_ok g :: event.fput old :: post ∧
        (∀ f, event.fput f ∉ pre) ∧
        inode_info.lower_file = some old ∧
        (lofs_init_persistent_file inode_info mode k).inode_info.lower_file = some g ∧
        (lofs_init_persistent_file inode_info mode k).rc = 0) := by
  rcases init_cases inode_info mode k with
    ⟨_, heq⟩ | ⟨_, ⟨e, hk, heq⟩ | ⟨a, f, hk, hd, heq⟩⟩
  · rw [heq]
    exact ⟨fun rc h => by simp at h, fun old h => by simp at h⟩
  · rw [heq]
    refine ⟨fun rc h => ?_, fun old h => by simp at h⟩
    simp only [List.mem_cons, event.dentry_open_err.injEq, List.mem_singleton, reduceCtorEq,
      false_or, or_false, List.not_mem_nil] at h
    subst h
    refine ⟨rfl, by omega, ⟨e, hk, rfl⟩, rfl, fun f => by simp⟩
  · rw [heq]
    refine ⟨fun rc h => ?_, fun old h => ?_⟩
    · cases hl : inode_info.lower_file <;> simp [hl] at h
    · cases hl : inode_info.lower_file with
      | none => simp [hl] at h
      | some o =>
        simp [hl] at h
        subst h
        exact ⟨f, [.mutex_lock, .dget, .mntget], [.mutex_unlock], by simp, by simp, rfl, rfl, rfl⟩

theorem lofs_init_persistent_file_failed_open_keeps_handle_witness :
    (lofs_init_persistent_file
        { lower_file := some { addr := 1, f_flags := 0x8000, f_mode := 0x1d, f_pos := 0 } }
        rw_mode (.failed 12)).rc = -13 ∧
    (lofs_init_persistent_file
        { lower_file := some { addr := 1, f_flags := 0x8000, f_mode := 0x1d, f_pos := 0 } }
        rw_mode (.failed 12)).inode_info =
      { lower_file := some { addr := 1, f_flags := 0x8000, f_mode := 0x1d, f_pos := 0 } } :=
  have h := (lofs_init_persistent_file_failed_open_keeps_handle
    { lower_file := some { addr := 1, f_flags := 0x8000, f_mode := 0x1d, f_pos := 0 } }
    rw_mode (.failed 12)).1 (-13) (by decide)
  ⟨h.1, h.2.2.2.1⟩


/-! ### Directory opens: claim C5 -/

/-- C6.  The revalidation policy of `lofs_d_revalidate`.  With `r` the result
of `lofs_revalidate_lower` (1 when the lower dentry has no revalidate hook,
the result of the hook otherwise): `r` is returned unchanged when `r ≤ 0`;
when `r > 0` the result is 0 if the overlay dentry is negative and the lower
dentry positive, or if the overlay dentry is positive and its cached lower
inode differs from the inode of the lower dentry or the lower dentry is
unhashed; in the remaining cases the result is `r`. -/
theorem lofs_d_revalidate_policy (lower_inodes : Nat → inode) (dentry : lofs_dentry)
    (nd : Option nameidata) :
    ((dentry.lower_dentry.d_op = none ∨
        ∃ ops, dentry.lower_dentry.d_op = some ops ∧ ops.d_revalidate = none) →
      (lofs_revalidate_lower dentry.lower_dentry dentry.lower_mnt nd).1 = 1) ∧
    (∀ ops hook, dentry.lower_dentry.d_op = some ops → ops.d_revalidate = some hook →
      (lofs_revalidate_lower dentry.lower_dentry dentry.lower_mnt nd).1 =
        hook (nd.map fun _ => { dentry := dentry.lower_dentry.addr, mnt := dentry.lower_mnt })) ∧
    ((lofs_revalidate_lower dentry.lower_dentry dentry.lower_mnt nd).1 ≤ 0 →
      (lofs_d_revalidate lower_inodes dentry nd).1 =
        (lofs_revalidate_lower dentry.lower_dentry dentry.lower_mnt nd).1) ∧
    (0 < (lofs_revalidate_lower dentry.lower_dentry dentry.lower_mnt nd).1 →
      (dentry.d_inode = none → dentry.lower_dentry.d_inode ≠ 0 →
        (lofs_d_revalidate lower_inodes dentry nd).1 = 0) ∧
      (∀ i, dentry.d_inode = some i →
        (i.wii_inode ≠ dentry.lower_dentry.d_inode ∨ dentry.lower_dentry.d_unhashed = true) →
        (lofs_d_revalidate lower_inodes dentry nd).1 = 0) ∧
      (dentry.d_inode = none → dentry.lower_dentry.d_inode = 0 →
        (lofs_d_revalidate lower_inodes dentry nd).1 =
          (lofs_revalidate_lower dentry.lower_dentry dentry.lower_mnt nd).1) ∧
      (∀ i, dentry.d_inode = some i →
        i.wii_inode = dentry.lower_dentry.d_inode → dentry.lower_dentry.d_unhashed = false →
        (lofs_d_revalidate lower_inodes dentry nd).1 =
          (lofs_revalidate_lower dentry.lower_dentry dentry.lower_mnt nd).1)) := by
  refine ⟨?_, ?_, ?_, ?_⟩
  · rintro (h | ⟨ops, h, h2⟩)
    · simp [lofs_revalidate_lower, h]
    · simp [lofs_revalidate_lower, h, h2]
  · intro ops hook h h2
    cases nd <;> simp [lofs_revalidate_lower, h, h2]
  · intro h
    have : ¬ (lofs_revalidate_lower dentry.lower_dentry dentry.lower_mnt nd).1 > 0 := by omega
    simp [lofs_d_revalidate, this]
  · intro h
    refine ⟨?_, ?_, ?_, ?_⟩
    · intro hn hl
      simp [lofs_d_revalidate, h, hn, hl]
    · intro i hi hor
      simp [lofs_d_revalidate, h, hi, hor]
    · intro hn hl
      simp [lofs_d_revalidate, h, hn, hl]
    · intro i hi hw hu
      simp [lofs_d_revalidate, h, hi, hw, hu]

/-! ### Page-cache path: claims C7 to C10 -/

/-- Values of the `loff_t` range are unchanged by the conversion to 64 bits. -/
theorem to_signed_64_eq (x : Int) (h0 : -(2 ^ 63) ≤ x) (h : x < 2 ^ 63) : to_signed 64 x = x := by
  unfold to_signed
  norm_num
  omega

/-- Values of the `int` range are unchanged by the conversion to `int`. -/
theorem to_signed_32_eq (x : Int) (h0 : -(2 ^ 31) ≤ x) (h : x < 2 ^ 31) : to_signed 32 x = x := by
  unfold to_signed
  norm_num
  omega

/-- C7 (code defect).  The claim: when `lofs_write_end` returns `copied`, the
lower file holds the first `from + copied` bytes of the page.  Here page 0
holds the bytes 1, 2, the write is at position 0 with `copied = 2`, and the
lower transfers only 1 of the 2 bytes: `lofs_write_end` still returns 2,
while byte 1 of the lower file is 0, not 2. -/
theorem lofs_write_end_short_write_returns_copied :
    (lofs_write_end sample_inode sample_inode_info sample_lower 0 2 sample_page (.done 1)).map
        (fun r => (r.rc, r.trace, sample_page.data 0, r.lower.bytes 0,
                   sample_page.data 1, r.lower.bytes 1)) =
      some (2, [.mutex_lock, .vfs_write 0 2, .mutex_unlock], 1, 1, 2, 0) := by
  decide

/-- C8 (code defect).  The claim: when the lower write returns a count
different from the requested length, `lofs_writepage` returns a non-zero
value.  Here the inode size is 10, so 10 bytes of page 0 are written, and the
lower transfers 0 bytes: the page is marked not uptodate (and stays locked)
but the return value is 0. -/
theorem lofs_writepage_zero_byte_write_returns_zero :
    (lofs_writepage 64 sample_page { sample_inode with i_size := 10 } sample_inode_info
        sample_lower (.done 0)).map
        (fun r => (r.rc, r.trace, r.page.uptodate, r.page.locked)) =
      some (0, [.mutex_lock, .vfs_write 0 10, .mutex_unlock], false, true) := by
  decide

/-- C10 (code defect).  The claim: `lofs_bmap` returns exactly the sector
number of the lower `bmap`, for every value of `sector_t`.  With a 64-bit
`sector_t` the value passes through an `int`: 0x80000000 comes back as
0xffffffff80000000 and 0x100000000 as 0.  Values below 0x80000000 are
forwarded, and without a lower `bmap` the result is 0. -/
theorem lofs_bmap_truncates_to_int :
    lofs_bmap 64 (some fun _ => 0x80000000) 7 = 0xffffffff80000000 ∧
    lofs_bmap 64 (some fun _ => 0x100000000) 7 = 0 ∧
    lofs_bmap 64 (some fun _ => 0x7fffffff) 7 = 0x7fffffff ∧
    lofs_bmap 64 none 7 = 0 := by
  decide


/-- The byte offset of a page whose offset fits `loff_t`. -/
theorem page_offset_eq (i : Nat) (h : i * PAGE_CACHE_SIZE < 2 ^ 63) :
    to_signed 64 ((i : Int) * 2 ^ PAGE_CACHE_SHIFT) = ((i * PAGE_CACHE_SIZE : Nat) : Int) := by
  have h1 : ((i : Int) * 2 ^ PAGE_CACHE_SHIFT) = ((i * PAGE_CACHE_SIZE : Nat) : Int) := by
    simp [PAGE_CACHE_SIZE]
  rw [h1]
  apply to_signed_64_eq
  · have : (0 : Int) ≤ ((i * PAGE_CACHE_SIZE : Nat) : Int) := Int.ofNat_nonneg _
    omega
  · exact_mod_cast h

/-- The result of `lofs_read_lower_page` when the lower read returns `n` bytes. -/
theorem lofs_read_lower_page_done (page : page) (inode_info : lofs_inode_info) (f : file)
    (lower : lower_inode) (n : Nat) (hf : inode_info.lower_file = some f)
    (hidx : page.index * PAGE_CACHE_SIZE < 2 ^ 63) (hn : n ≤ PAGE_CACHE_SIZE) :
    lofs_read_lower_page page page.index inode_info lower (.done n) =
      some { rc := 0,
             page := { page with data := fun j =>
               if n ≤ j ∧ j < n + (PAGE_CACHE_SIZE - n) then 0
               else if j < n then lower.bytes (page.index * PAGE_CACHE_SIZE + j) else page.data j },
             trace := [.mutex_lock,
                       .vfs_read ((page.index * PAGE_CACHE_SIZE : Nat) : Int) PAGE_CACHE_SIZE,
                       .mutex_unlock] } := by
  have hoff := page_offset_eq page.index hidx
  have hmin : min n PAGE_CACHE_SIZE = n := Nat.min_eq_left hn
  unfold lofs_read_lower_page
  simp only [hf, vfs_read, hoff, hmin, Int.toNat_ofNat, ge_iff_le, Int.ofNat_nonneg, if_true]


/-- The result of `lofs_read_lower_page` when the lower read fails. -/
theorem lofs_read_lower_page_failed (page : page) (inode_info : lofs_inode_info) (f : file)
    (lower : lower_inode) (e : Fin 4095) (hf : inode_info.lower_file = some f)
    (hidx : page.index * PAGE_CACHE_SIZE < 2 ^ 63) :
    lofs_read_lower_page page page.index inode_info lower (.failed e) =
      some { rc := -((e.val : Int) + 1), page := page,
             trace := [.mutex_lock,
                       .vfs_read ((page.index * PAGE_CACHE_SIZE : Nat) : Int) PAGE_CACHE_SIZE,
                       .mutex_unlock] } := by
  have hoff := page_offset_eq page.index hidx
  have hneg : ¬ ((0 : Int) ≤ -((e.val : Int) + 1)) := by omega
  have h32 : to_signed 32 (-((e.val : Int) + 1)) = -((e.val : Int) + 1) := by
    apply to_signed_32_eq <;> omega
  unfold lofs_read_lower_page
  simp only [hf, vfs_read, hoff, ge_iff_le, hneg, if_false, h32]

/-- C9.  For a page whose byte offset fits `loff_t` and an inode that has its
persistent file: when the lower read returns `n ≤ PAGE_CACHE_SIZE` bytes,
`lofs_read_lower_page` has asked for `PAGE_CACHE_SIZE` bytes at offset
`index * PAGE_CACHE_SIZE`, the first `n` bytes of the page are the bytes of
the lower file there, bytes `n` to `PAGE_CACHE_SIZE - 1` are zero, it returns
0 and `lofs_readpage` marks the page uptodate; when the lower read returns
an error, `lofs_readpage` returns that error and clears uptodate. -/
theorem lofs_readpage_fills_page (page : page) (inode_info : lofs_inode_info) (f : file)
    (lower : lower_inode) (hf : inode_info.lower_file = some f)
    (hidx : page.index * PAGE_CACHE_SIZE < 2 ^ 63) :
    (∀ n, n ≤ PAGE_CACHE_SIZE →
      ∃ r, lofs_read_lower_page page page.index inode_info lower (.done n) = some r ∧
        r.trace = [.mutex_lock,
                   .vfs_read ((page.index * PAGE_CACHE_SIZE : Nat) : Int) PAGE_CACHE_SIZE,
                   .mutex_unlock] ∧
        (∀ j, j < n → r.page.data j = lower.bytes (page.index * PAGE_CACHE_SIZE + j)) ∧
        (∀ j, n ≤ j → j < PAGE_CACHE_SIZE → r.page.data j = 0) ∧
        r.rc = 0 ∧
        ∃ r2, lofs_readpage page inode_info lower (.done n) = some r2 ∧
          r2.rc = 0 ∧ r2.page.uptodate = true ∧ r2.page.data = r.page.data) ∧
    (∀ e : Fin 4095,
      ∃ r2, lofs_readpage page inode_info lower (.failed e) = some r2 ∧
        r2.rc = -((e.val : Int) + 1) ∧ r2.page.uptodate = false) := by
  constructor
  · intro n hn
    have hr := lofs_read_lower_page_done page inode_info f lower n hf hidx hn
    refine ⟨_, hr, rfl, ?_, ?_, rfl, ?_⟩
    · intro j hj
      have : ¬ (n ≤ j) := by omega
      simp [this, hj]
    · intro j h1 h2
      have : j < n + (PAGE_CACHE_SIZE - n) := by omega
      simp [h1, this]
    · unfold lofs_readpage
      rw [hr]
      exact ⟨_, rfl, rfl, rfl, rfl⟩
  · intro e
    have hr := lofs_read_lower_page_failed page inode_info f lower e hf hidx
    have hne : -((e.val : Int) + 1) ≠ 0 := by omega
    unfold lofs_readpage
    rw [hr]
    simp only [ne_eq, hne, not_false_eq_true, if_true]
    exact ⟨_, rfl, rfl, rfl⟩

theorem lofs_readpage_fills_page_witness :
    (∃ r, lofs_read_lower_page sample_page 0 sample_inode_info sample_lower3 (.done 2) = some r ∧
      r.page.data 1 = sample_lower3.bytes (0 * PAGE_CACHE_SIZE + 1) ∧ r.page.data 2 = 0 ∧
      r.rc = 0) ∧
    (∃ r2, lofs_readpage sample_page sample_inode_info sample_lower3 (.failed 4) = some r2 ∧
      r2.rc = -5 ∧ r2.page.uptodate = false) :=
  have h := lofs_readpage_fills_page sample_page sample_inode_info _ sample_lower3 rfl
    (by decide)
  ⟨(h.1 2 (by decide)).elim fun r hr =>
      ⟨r, hr.1, hr.2.2.1 1 (by decide), hr.2.2.2.1 2 (by decide) (by decide), hr.2.2.2.2.1⟩,
   h.2 4⟩


/-- Values below 2^32 are unchanged by the conversion to `unsigned`. -/
theorem to_unsigned_32_eq (n : Nat) (h : n < 2 ^ 32) : to_unsigned 32 (n : Int) = n := by
  unfold to_unsigned
  have : ((n : Int) % 2 ^ 32) = (n : Int) := by omega
  rw [this]
  simp

/-- Supplement to C7: a complete lower write does reach the lower unchanged. -/
theorem lofs_write_end_complete_write (host : inode) (inode_info : lofs_inode_info) (f : file)
    (lower : lower_inode) (pos copied n : Nat) (page : page)
    (hf : inode_info.lower_file = some f)
    (hidx : page.index * PAGE_CACHE_SIZE < 2 ^ 63)
    (hlen : pos % PAGE_CACHE_SIZE + copied ≤ PAGE_CACHE_SIZE)
    (hn : pos % PAGE_CACHE_SIZE + copied ≤ n) :
    ∃ r, lofs_write_end host inode_info lower pos copied page (.done n) = some r ∧
      r.rc = copied ∧
      r.trace = [.mutex_lock,
                 .vfs_write ((page.index * PAGE_CACHE_SIZE : Nat) : Int)
                   (pos % PAGE_CACHE_SIZE + copied),
                 .mutex_unlock] ∧
      ∀ j, j < pos % PAGE_CACHE_SIZE + copied →
        r.lower.bytes (page.index * PAGE_CACHE_SIZE + j) = page.data j := by
  have hps : PAGE_CACHE_SIZE = 4096 := by decide
  have hfrom : to_unsigned 32 ((pos % PAGE_CACHE_SIZE : Nat) : Int) = pos % PAGE_CACHE_SIZE := by
    apply to_unsigned_32_eq
    omega
  have hto : to_unsigned 32 ((pos % PAGE_CACHE_SIZE + copied : Nat) : Int)
      = pos % PAGE_CACHE_SIZE + copied := by
    apply to_unsigned_32_eq
    omega
  have hoff : to_signed 64 ((page.index : Int) * 2 ^ PAGE_CACHE_SHIFT + ((0 : Nat) : Int))
      = ((page.index * PAGE_CACHE_SIZE : Nat) : Int) := by
    simpa using page_offset_eq page.index hidx
  have hmin : min n (pos % PAGE_CACHE_SIZE + copied) = pos % PAGE_CACHE_SIZE + copied :=
    Nat.min_eq_right hn
  have hk32 : to_signed 32 ((pos % PAGE_CACHE_SIZE + copied : Nat) : Int)
      = ((pos % PAGE_CACHE_SIZE + copied : Nat) : Int) := by
    apply to_signed_32_eq <;> omega
  have hc32 : to_signed 32 (copied : Int) = (copied : Int) := by
    apply to_signed_32_eq <;> omega
  have hzero : (if ((pos % PAGE_CACHE_SIZE + copied : Nat) : Int) > 0 then (0 : Int)
      else ((pos % PAGE_CACHE_SIZE + copied : Nat) : Int)) = 0 := by
    split <;> omega
  unfold lofs_write_end lofs_write_lower_page_segment lofs_write_lower
  simp only [hfrom, hto, hoff, hf, vfs_write, hmin, hk32, hzero, hc32, if_true, Int.toNat_ofNat]
  refine ⟨_, rfl, rfl, rfl, ?_⟩
  intro j hj
  have h1 : page.index * PAGE_CACHE_SIZE ≤ page.index * PAGE_CACHE_SIZE + j := by omega
  have h2 : page.index * PAGE_CACHE_SIZE + j
      < page.index * PAGE_CACHE_SIZE + (pos % PAGE_CACHE_SIZE + copied) := by omega
  simp [h1, h2]


/-! ### Directory operations and attributes: claims C11 to C15 -/

/-- C11.  For every pair of overlay dentries whose lower mounts differ,
`lofs_rename` returns -EXDEV, makes no kernel call at all (no lower rename,
no lock, no reference taken) and leaves both overlay directory inodes as
they were. -/
theorem lofs_rename_cross_device (old_dir : inode) (old_dentry : lofs_dentry) (new_dir : inode)
    (new_dentry : lofs_dentry) (same_dir : Bool) (a : rename_answer)
    (h : old_dentry.lower_mnt ≠ new_dentry.lower_mnt) :
    (lofs_rename old_dir old_dentry new_dir new_dentry same_dir a).rc = -EXDEV ∧
    (lofs_rename old_dir old_dentry new_dir new_dentry same_dir a).trace = [] ∧
    (lofs_rename old_dir old_dentry new_dir new_dentry same_dir a).old_dir = old_dir ∧
    (lofs_rename old_dir old_dentry new_dir new_dentry same_dir a).new_dir = new_dir := by
  simp [lofs_rename, h]

theorem lofs_rename_cross_device_witness :
    (lofs_rename (sample_dir 1 10) (sample_dentry 2 3 1 100) (sample_dir 4 40)
        (sample_dentry 6 0 5 200) false
        { rc := 0, old_dir_inode := sample_dir 7 70, new_dir_inode := sample_dir 8 80 }).rc
      = -EXDEV ∧
    (lofs_rename (sample_dir 1 10) (sample_dentry 2 3 1 100) (sample_dir 4 40)
        (sample_dentry 6 0 5 200) false
        { rc := 0, old_dir_inode := sample_dir 7 70, new_dir_inode := sample_dir 8 80 }).trace
      = [] :=
  have h := lofs_rename_cross_device (sample_dir 1 10) (sample_dentry 2 3 1 100) (sample_dir 4 40)
    (sample_dentry 6 0 5 200) false
    { rc := 0, old_dir_inode := sample_dir 7 70, new_dir_inode := sample_dir 8 80 }
    (by decide)
  ⟨h.1, h.2.1⟩

/-- C12 (counterexample).  The lower `vfs_mkdir` returns 0 but leaves the lower
dentry negative: `lofs_mkdir` returns 0 and the overlay parent keeps its old
mtime (1) although the lower parent directory now has mtime 2. -/
theorem lofs_mkdir_returns_zero_without_propagation :
    ∃ r, lofs_mkdir (sample_dir 1 10) (sample_dentry 2 0 1 100)
          { rc := 0, d_inode := 0, new_inode := sample_inode, dir_inode := sample_dir 2 20 }
          (.allocated sample_inode) = some r ∧
      r.rc = 0 ∧ r.dir.i_mtime = 1 ∧ (sample_dir 2 20).i_mtime = 2 ∧
      r.dir.i_mtime ≠ (sample_dir 2 20).i_mtime := by
  exact ⟨_, rfl, by decide⟩


/-- What a successful interposition returns. -/
theorem lofs_interpose_cases (addr : Nat) (li : inode) (g : iget_outcome) :
    lofs_interpose addr li g = none ∨
    (∃ e evs, lofs_interpose addr li g = some (e, none, evs) ∧ e ≠ 0) ∨
    (∃ i evs, lofs_interpose addr li g = some (0, some i, evs)) := by
  unfold lofs_interpose
  by_cases h : addr = 0
  · left; simp [h]
  · right
    cases g with
    | igrab_failed => left; exact ⟨-ESTALE, _, by rw [if_neg h]; rfl, by decide⟩
    | iget5_failed => left; exact ⟨-EACCES, _, by rw [if_neg h]; rfl, by decide⟩
    | cached i => right; exact ⟨i, _, by rw [if_neg h]; rfl⟩
    | allocated b => right; exact ⟨_, _, by rw [if_neg h]; rfl⟩

/-- The copy of times and size makes the overlay directory match the lower one. -/
theorem copy_times_size_match (dir lower : inode) :
    parent_attrs_match (fsstack_copy_inode_size (fsstack_copy_attr_times dir lower) lower) lower := by
  simp [parent_attrs_match, fsstack_copy_inode_size, fsstack_copy_attr_times]

/-- C12 (amended).  Whenever `lofs_create` returns 0, and whenever `lofs_mkdir`,
`lofs_symlink` or `lofs_mknod` returns 0 after a lower operation that left
the lower dentry positive, the atime, mtime, ctime and size of the overlay
parent directory inode are those of the lower parent directory inode after
the lower operation.  When the lower operation returns 0 and leaves the
lower dentry negative, `lofs_mkdir`, `lofs_symlink` and `lofs_mknod` return 0
and leave the overlay parent directory inode as it was. -/
theorem lofs_create_family_propagates_parent_attrs (dir : inode) (dentry : lofs_dentry)
    (a : lower_op_answer) (g : iget_outcome) :
    (∀ r, lofs_create dir dentry a g = some r → r.rc = 0 →
      parent_attrs_match r.dir a.dir_inode) ∧
    (∀ r, lofs_mkdir dir dentry a g = some r → r.rc = 0 → a.d_inode ≠ 0 →
      parent_attrs_match r.dir a.dir_inode) ∧
    (∀ r, lofs_symlink dir dentry a g = some r → r.rc = 0 → a.d_inode ≠ 0 →
      parent_attrs_match r.dir a.dir_inode) ∧
    (∀ r, lofs_mknod dir dentry a g = some r → r.rc = 0 → a.d_inode ≠ 0 →
      parent_attrs_match r.dir a.dir_inode) ∧
    (a.rc = 0 → a.d_inode = 0 →
      (∃ r, lofs_mkdir dir dentry a g = some r ∧ r.rc = 0 ∧ r.dir = dir) ∧
      (∃ r, lofs_symlink dir dentry a g = some r ∧ r.rc = 0 ∧ r.dir = dir) ∧
      (∃ r, lofs_mknod dir dentry a g = some r ∧ r.rc = 0 ∧ r.dir = dir)) := by
  have hm := copy_times_size_match dir a.dir_inode
  refine ⟨?_, ?_, ?_, ?_, ?_⟩
  · intro r hr h0
    unfold lofs_create at hr
    by_cases ha : a.rc = 0
    · rcases lofs_interpose_cases a.d_inode a.new_inode g with hi | ⟨e, evs, hi, he⟩ | ⟨i, evs, hi⟩
      · simp [ha, hi] at hr
      · simp [ha, hi, he] at hr
        subst hr
        exact absurd h0 he
      · simp [ha, hi] at hr
        subst hr
        exact hm
    · simp [ha] at hr
      subst hr
      exact absurd h0 ha
  · intro r hr h0 hd
    unfold lofs_mkdir at hr
    by_cases ha : a.rc = 0
    · rcases lofs_interpose_cases a.d_inode a.new_inode g with hi | ⟨e, evs, hi, he⟩ | ⟨i, evs, hi⟩
      · simp [ha, hd, hi] at hr
      · simp [ha, hd, hi, he] at hr
        subst hr
        exact absurd h0 he
      · simp [ha, hd, hi] at hr
        subst hr
        exact hm
    · simp [ha] at hr
      subst hr
      exact absurd h0 ha
  · intro r hr h0 hd
    unfold lofs_symlink at hr
    by_cases ha : a.rc = 0
    · rcases lofs_interpose_cases a.d_inode a.new_inode g with hi | ⟨e, evs, hi, he⟩ | ⟨i, evs, hi⟩
      · simp [ha, hd, hi] at hr
      · simp [ha, hd, hi, he] at hr
        subst hr
        exact absurd h0 he
      · simp [ha, hd, hi] at hr
        subst hr
        exact hm
    · simp [ha] at hr
      subst hr
      exact absurd h0 ha
  · intro r hr h0 hd
    unfold lofs_mknod at hr
    by_cases ha : a.rc = 0
    · rcases lofs_interpose_cases a.d_inode a.new_inode g with hi | ⟨e, evs, hi, he⟩ | ⟨i, evs, hi⟩
      · simp [ha, hd, hi] at hr
      · simp [ha, hd, hi, he] at hr
        subst hr
        exact absurd h0 he
      · simp [ha, hd, hi] at hr
        subst hr
        exact hm
    · simp [ha] at hr
      subst hr
      exact absurd h0 ha
  · intro ha hd
    refine ⟨⟨_, by simp [lofs_mkdir, ha, hd]; rfl, ?_, ?_⟩, ⟨_, by simp [lofs_symlink, ha, hd]; rfl, ?_, ?_⟩,
      ⟨_, by simp [lofs_mknod, ha, hd]; rfl, ?_, ?_⟩⟩ <;> simp [ha]


theorem lofs_create_family_propagates_parent_attrs_witness :
    ∃ r, lofs_mkdir (sample_dir 1 10) (sample_dentry 2 0 1 100)
          { rc := 0, d_inode := 3, new_inode := sample_dir 2 0, dir_inode := sample_dir 2 20 }
          (.allocated sample_inode) = some r ∧
      r.rc = 0 ∧ parent_attrs_match r.dir (sample_dir 2 20) :=
  ⟨_, rfl, rfl,
    (lofs_create_family_propagates_parent_attrs (sample_dir 1 10) (sample_dentry 2 0 1 100)
      { rc := 0, d_inode := 3, new_inode := sample_dir 2 0, dir_inode := sample_dir 2 20 }
      (.allocated sample_inode)).2.1 _ rfl rfl (by decide)⟩

/-- C13 (code defect).  The claim: after a successful `lofs_link` the overlay
parent directory has the times and size of the lower parent directory.
Here the linked file has times 5 and size 100 and the lower parent directory
has times 9 and size 4096 after the link: `lofs_link` returns 0 and the
overlay parent directory has times 5 and size 100, those of the linked
file. -/
theorem lofs_link_copies_times_of_linked_file :
    (lofs_link { vfs_inode := { sample_inode with i_mtime := 5, i_size := 100 }, wii_inode := 3 }
        (sample_dir 1 10) (sample_dentry 2 0 1 100)
        { rc := 0, d_inode := 3,
          new_inode := { sample_inode with i_atime := 5, i_mtime := 5, i_ctime := 5, i_size := 100,
                                           i_nlink := 2 },
          dir_inode := sample_dir 9 4096 }
        (.cached
          { vfs_inode := { sample_inode with i_mtime := 5, i_size := 100 }, wii_inode := 3 })).map
        (fun r => (r.rc, r.dir.i_atime, r.dir.i_mtime, r.dir.i_ctime, r.dir.i_size)) =
      some (0, 5, 5, 5, 100) ∧
    ((sample_dir 9 4096).i_atime, (sample_dir 9 4096).i_mtime, (sample_dir 9 4096).i_ctime,
      (sample_dir 9 4096).i_size) = (9, 9, 9, 4096) := by
  decide

/-- C14.  For a positive lower dentry `lofs_getattr` returns 0 and a stat whose
fields are those of the lower inode, with `dev` the device id of the
superblock of the lower dentry; the result is the same for every overlay
dentry with this lower dentry, whatever its own inode, mount or the device
id that `generic_fillattr` had filled in. -/
theorem lofs_getattr_from_lower_inode (lower_inodes : Nat → inode) (i_sb_s_dev mnt : Nat)
    (dentry : lofs_dentry) (h : dentry.lower_dentry.d_inode ≠ 0) :
    lofs_getattr lower_inodes i_sb_s_dev mnt dentry =
      some (0,
        { dev := dentry.lower_dentry.s_dev,
          ino := (lower_inodes dentry.lower_dentry.d_inode).i_ino,
          mode := (lower_inodes dentry.lower_dentry.d_inode).i_mode,
          nlink := (lower_inodes dentry.lower_dentry.d_inode).i_nlink,
          uid := (lower_inodes dentry.lower_dentry.d_inode).i_uid,
          gid := (lower_inodes dentry.lower_dentry.d_inode).i_gid,
          rdev := (lower_inodes dentry.lower_dentry.d_inode).i_rdev,
          atime := (lower_inodes dentry.lower_dentry.d_inode).i_atime,
          mtime := (lower_inodes dentry.lower_dentry.d_inode).i_mtime,
          ctime := (lower_inodes dentry.lower_dentry.d_inode).i_ctime,
          size := (lower_inodes dentry.lower_dentry.d_inode).i_size,
          blocks := (lower_inodes dentry.lower_dentry.d_inode).i_blocks,
          blksize := 2 ^ (lower_inodes dentry.lower_dentry.d_inode).i_blkbits }) ∧
    (∀ (other : lofs_dentry) (mnt2 dev2 : Nat), other.lower_dentry = dentry.lower_dentry →
      lofs_getattr lower_inodes dev2 mnt2 other =
        lofs_getattr lower_inodes i_sb_s_dev mnt dentry) := by
  constructor
  · simp [lofs_getattr, h, generic_fillattr]
  · intro other mnt2 dev2 hl
    simp [lofs_getattr, hl, h, generic_fillattr]

theorem lofs_getattr_from_lower_inode_witness :
    lofs_getattr (fun _ => sample_dir 7 4096) 8 100
        { d_inode := some { vfs_inode := sample_dir 1 10, wii_inode := 3 },
          lower_dentry := sample_lower_dentry 2 3 1, lower_mnt := 100 } =
      some (0, { dev := 8, ino := 2, mode := 0x41ed, nlink := 2, uid := 0, gid := 0, rdev := 0,
                 atime := 7, mtime := 7, ctime := 7, size := 4096, blocks := 0,
                 blksize := 4096 }) :=
  (lofs_getattr_from_lower_inode (fun _ => sample_dir 7 4096) 8 100
    { d_inode := some { vfs_inode := sample_dir 1 10, wii_inode := 3 },
      lower_dentry := sample_lower_dentry 2 3 1, lower_mnt := 100 } (by decide)).1


/-- The loop of `lofs_follow_down` leaves a dentry that is no mountpoint alone. -/
theorem follow_down_loop_not_mounted (path : lower_path) (answers : List follow_answer)
    (h : path.dentry.d_mounted = false) : follow_down_loop path answers = (path, []) := by
  cases answers with
  | nil => rfl
  | cons a rest => simp [follow_down_loop, h]

/-- Without mountpoint and managed dentry `lofs_follow_down` changes nothing. -/
theorem lofs_follow_down_plain (hm : Bool) (mnt : Nat) (d : lower_dentry)
    (answers : List follow_answer) (managed : Int × lower_path) (redo : follow_answer)
    (h1 : d.d_mounted = false) (h2 : hm = false ∨ d.d_managed = false) :
    lofs_follow_down hm mnt d answers managed redo = (0, { mnt := mnt, dentry := d }, []) := by
  unfold lofs_follow_down
  rw [follow_down_loop_not_mounted _ _ h1]
  rcases h2 with h | h <;> simp [h]

/-- When the dentry is a mountpoint and the kernel follows the mount to a
dentry that is no mountpoint and not managed, `lofs_follow_down` ends there. -/
theorem lofs_follow_down_one_mount (hm : Bool) (mnt : Nat) (d : lower_dentry)
    (a : follow_answer) (rest : List follow_answer) (managed : Int × lower_path)
    (redo : follow_answer) (h1 : d.d_mounted = true) (h2 : a.ret = 1)
    (h3 : a.path.dentry.d_mounted = false)
    (h4 : hm = false ∨ a.path.dentry.d_managed = false) :
    lofs_follow_down hm mnt d (a :: rest) managed redo = (0, a.path, [.follow_down]) := by
  unfold lofs_follow_down
  simp only [follow_down_loop, h1, h2, if_true, ne_eq, not_true_eq_false, if_false]
  rw [follow_down_loop_not_mounted _ _ h3]
  rcases h4 with h | h <;> simp [h]

/-- The pairing that `lofs_lookup_and_interpose_lower` installs is the end of
the mount traversal, which was successful and is not an overlay dentry. -/
theorem interpose_pairing (env : interpose_env) (mnt : Nat) (d : lower_dentry) (dir : inode)
    (info : lofs_dentry_info)
    (h : (lofs_lookup_and_interpose_lower env mnt d dir).d_fsdata = some info) :
    (lofs_follow_down env.HAVE_MANAGED_DENTRIES mnt d env.answers env.managed env.redo).1 = 0 ∧
    info.lower_dentry =
      (lofs_follow_down env.HAVE_MANAGED_DENTRIES mnt d env.answers env.managed
        env.redo).2.1.dentry ∧
    info.lower_mnt =
      (lofs_follow_down env.HAVE_MANAGED_DENTRIES mnt d env.answers env.managed
        env.redo).2.1.mnt ∧
    info.lower_dentry.is_lofs = false := by
  unfold lofs_lookup_and_interpose_lower at h
  rcases hf : lofs_follow_down env.HAVE_MANAGED_DENTRIES mnt d env.answers env.managed env.redo
    with ⟨rc, path, evs⟩
  rw [hf] at h
  simp only at h
  by_cases hrc : rc = 0
  · by_cases hl : path.dentry.is_lofs = true
    · simp [hrc, hl] at h
    · by_cases ha : env.alloc_ok = true
      · by_cases hd : path.dentry.d_inode = 0
        · simp [hrc, hl, ha, hd] at h
          subst h
          simp [hrc]
          simpa using hl
        · simp only [hrc, hl, ha, hd] at h
          rcases hg : __lofs_get_inode path.dentry.d_inode (env.lower_inodes path.dentry.d_inode)
            env.iget with ⟨res, ievs⟩
          rw [hg] at h
          cases res with
          | error e =>
            simp at h
            subst h
            simp [hrc]
            simpa using hl
          | ok v =>
            simp at h
            subst h
            simp [hrc]
            simpa using hl
      · simp [hrc, hl, ha] at h
  · simp [hrc] at h


/-- C16.  For every lookup that reaches the interposition and whose lower
dentry, after a mount traversal that returned 0, is an overlay dentry (its
operations are `lofs_dops`), `lofs_lookup` returns -EINVAL, installs no
pairing on the overlay dentry, does not add it and drops it.  Hence the
lower dentry of every pairing that `lofs_lookup` installs is not an overlay
dentry. -/
theorem lofs_lookup_rejects_overlay_lower_dentry (lenv : lookup_env) (ienv : interpose_env)
    (lofs_dir_inode : inode) (parent : lofs_dentry) (d_name : List Char)
    (lofs_nd : Option nameidata) :
    (∀ lower_dentry evs path fevs,
      lofs_lookup_lower lenv parent d_name lofs_nd = (.ok lower_dentry, evs) →
      lofs_follow_down ienv.HAVE_MANAGED_DENTRIES parent.lower_mnt lower_dentry ienv.answers
        ienv.managed ienv.redo = (0, path, fevs) →
      path.dentry.is_lofs = true →
      (lofs_lookup lenv ienv lofs_dir_inode parent d_name lofs_nd).rc = -EINVAL ∧
      (lofs_lookup lenv ienv lofs_dir_inode parent d_name lofs_nd).d_fsdata.isNone = true ∧
      (lofs_lookup lenv ienv lofs_dir_inode parent d_name lofs_nd).added = false ∧
      (lofs_lookup lenv ienv lofs_dir_inode parent d_name lofs_nd).dropped = true) ∧
    (∀ info, (lofs_lookup lenv ienv lofs_dir_inode parent d_name lofs_nd).d_fsdata = some info →
      info.lower_dentry.is_lofs = false) := by
  constructor
  · intro lower_dentry evs path fevs hl hf hlofs
    unfold lofs_lookup
    rw [hl]
    simp only [lofs_lookup_and_interpose_lower, hf]
    simp [hlofs]
  · intro info h
    unfold lofs_lookup at h
    rcases hl : lofs_lookup_lower lenv parent d_name lofs_nd with ⟨res, evs⟩
    rw [hl] at h
    cases res with
    | error e => simp at h
    | ok d =>
      simp only at h
      exact (interpose_pairing ienv parent.lower_mnt d lofs_dir_inode info h).2.2.2

/-- C17 (counterexample).  The lower child found for the name is a mountpoint:
the traversal follows the mount, and `lofs_lookup` pairs the overlay dentry
with the root of the mounted filesystem (address 5, its own parent, mount
9), whose parent is not the lower dentry of the overlay parent (address 1),
although the child found was a child of that lower dentry. -/
theorem lofs_lookup_pairs_mounted_root :
    (lofs_lookup (sample_lookup_env sample_mountpoint)
        (sample_interpose_env true (.allocated sample_inode)) (sample_dir 1 10)
        (sample_dentry 1 4 1 100) ['m', 'n', 't'] none).rc = 0 ∧
    (lofs_lookup (sample_lookup_env sample_mountpoint)
        (sample_interpose_env true (.allocated sample_inode)) (sample_dir 1 10)
        (sample_dentry 1 4 1 100) ['m', 'n', 't'] none).d_fsdata.map
        (fun info => (info.lower_dentry.addr, info.lower_dentry.d_parent, info.lower_mnt)) =
      some (5, 5, 9) ∧
    sample_mountpoint.d_parent = (sample_dentry 1 4 1 100).lower_dentry.addr ∧
    ¬ ((5 : Nat) = (sample_dentry 1 4 1 100).lower_dentry.addr) := by
  decide

/-- C17 (amended).  Let the kernel lookups return children of the directory
they search.  For every overlay dentry that `lofs_lookup` pairs with a lower
dentry L in a mount M: L and M are where `lofs_follow_down` ends when it
starts from a child C of the lower dentry paired with the parent of the
overlay dentry, in the lower mount of that parent.  When C is no mountpoint
and not a managed dentry (or the kernel has no managed dentries), L is C, M is
the lower mount of the parent, and the parent of L is the lower dentry
paired with the parent of the overlay dentry.  When C is a mountpoint and
`FOLLOW_DOWN` follows the mount (returns 1) to a dentry R in a mount N, R being
no mountpoint and not a managed dentry (or the kernel has no managed
dentries), L is R and M is N. -/
theorem lofs_lookup_pairs_end_of_mount_traversal (lenv : lookup_env) (ienv : interpose_env)
    (lofs_dir_inode : inode) (parent : lofs_dentry) (d_name : List Char)
    (lofs_nd : Option nameidata)
    (hcached : ∀ d, lenv.d_lookup = some d → d.d_parent = parent.lower_dentry.addr)
    (hlooked : ∀ d, lenv.lookup_one_len = .found d → d.d_parent = parent.lower_dentry.addr)
    (info : lofs_dentry_info)
    (hpair : (lofs_lookup lenv ienv lofs_dir_inode parent d_name lofs_nd).d_fsdata = some info) :
    ∃ child evs,
      lofs_lookup_lower lenv parent d_name lofs_nd = (.ok child, evs) ∧
      child.d_parent = parent.lower_dentry.addr ∧
      info.lower_dentry =
        (lofs_follow_down ienv.HAVE_MANAGED_DENTRIES parent.lower_mnt child ienv.answers
          ienv.managed ienv.redo).2.1.dentry ∧
      info.lower_mnt =
        (lofs_follow_down ienv.HAVE_MANAGED_DENTRIES parent.lower_mnt child ienv.answers
          ienv.managed ienv.redo).2.1.mnt ∧
      (child.d_mounted = false →
        (ienv.HAVE_MANAGED_DENTRIES = false ∨ child.d_managed = false) →
        info.lower_dentry = child ∧ info.lower_mnt = parent.lower_mnt ∧
        info.lower_dentry.d_parent = parent.lower_dentry.addr) ∧
      (∀ a rest, ienv.answers = a :: rest → child.d_mounted = true → a.ret = 1 →
        a.path.dentry.d_mounted = false →
        (ienv.HAVE_MANAGED_DENTRIES = false ∨ a.path.dentry.d_managed = false) →
        info.lower_dentry = a.path.dentry ∧ info.lower_mnt = a.path.mnt) := by
  unfold lofs_lookup at hpair
  rcases hl : lofs_lookup_lower lenv parent d_name lofs_nd with ⟨res, evs⟩
  rw [hl] at hpair
  cases res with
  | error e => simp at hpair
  | ok child =>
    simp only at hpair
    have hp := interpose_pairing ienv parent.lower_mnt child lofs_dir_inode info hpair
    have hchild : child.d_parent = parent.lower_dentry.addr := by
      unfold lofs_lookup_lower at hl
      by_cases hn : d_name = ['.'] ∨ d_name = ['.', '.']
      · simp [hn] at hl
      · simp only [hn, if_false] at hl
        unfold lofs_lookup_cached at hl
        cases hc : lenv.d_lookup with
        | none =>
          simp only [hc] at hl
          cases ho : lenv.lookup_one_len with
          | failed e => simp [ho] at hl
          | found d =>
            simp [ho] at hl
            rw [← hl.1]
            exact hlooked d ho
        | some d =>
          simp only [hc] at hl
          have hd := hcached d hc
          by_cases hv : (lofs_revalidate_lower d parent.lower_mnt lofs_nd).1 ≤ 0
          · by_cases hv2 : (lofs_revalidate_lower d parent.lower_mnt lofs_nd).1 < 0
            · simp [hv, hv2] at hl
            · by_cases hi : lenv.d_invalidate = 0
              · simp only [hv, hv2, hi, if_true, if_false] at hl
                cases ho : lenv.lookup_one_len with
                | failed e => simp [ho] at hl
                | found d2 =>
                  simp [ho] at hl
                  rw [← hl.1]
                  exact hlooked d2 ho
              · simp [hv, hv2, hi] at hl
                rw [← hl.1]
                exact hd
          · simp [hv] at hl
            rw [← hl.1]
            exact hd
    refine ⟨child, evs, rfl, hchild, hp.2.1, hp.2.2.1, ?_, ?_⟩
    · intro hm hmg
      have hplain := lofs_follow_down_plain ienv.HAVE_MANAGED_DENTRIES parent.lower_mnt child
        ienv.answers ienv.managed ienv.redo hm hmg
      rw [hplain] at hp
      refine ⟨hp.2.1, hp.2.2.1, ?_⟩
      rw [hp.2.1]
      exact hchild
    · intro a rest ha hm hret hr hmg
      have hone := lofs_follow_down_one_mount ienv.HAVE_MANAGED_DENTRIES parent.lower_mnt child
        a rest ienv.managed ienv.redo hm hret hr hmg
      rw [ha, hone] at hp
      exact ⟨hp.2.1, hp.2.2.1⟩


theorem lofs_lookup_pairs_end_of_mount_traversal_witness :
    ∃ child evs,
      lofs_lookup_lower (sample_lookup_env (sample_lower_dentry 2 3 1))
        (sample_dentry 1 4 1 100) ['f'] none = (.ok child, evs) ∧
      child.d_parent = (sample_dentry 1 4 1 100).lower_dentry.addr :=
  (lofs_lookup_pairs_end_of_mount_traversal (sample_lookup_env (sample_lower_dentry 2 3 1))
    (sample_interpose_env true (.allocated sample_inode)) (sample_dir 1 10)
    (sample_dentry 1 4 1 100) ['f'] none
    (by intro d h; simp [sample_lookup_env] at h)
    (by intro d h; simp [sample_lookup_env] at h; rw [← h]; rfl)
    { lower_dentry := sample_lower_dentry 2 3 1, lower_mnt := 100 } rfl).elim
    fun child h => h.elim fun evs h2 => ⟨child, evs, h2.1, h2.2.1⟩

/-- C18 (code defect).  The claim: every allocation failure during lookup makes
the lookup return -ENOMEM.  Here the lower dentry is found and the dentry
info is allocated, but no overlay inode can be allocated (`iget5_locked`
returns NULL): `lofs_lookup` returns -EACCES (-13), not -ENOMEM (-12). -/
theorem lofs_lookup_inode_allocation_failure_returns_eacces :
    (lofs_lookup (sample_lookup_env (sample_lower_dentry 2 3 1))
        (sample_interpose_env true .iget5_failed) (sample_dir 1 10)
        (sample_dentry 1 4 1 100) ['f'] none).rc = -EACCES ∧
    (lofs_lookup (sample_lookup_env (sample_lower_dentry 2 3 1))
        (sample_interpose_env true .iget5_failed) (sample_dir 1 10)
        (sample_dentry 1 4 1 100) ['f'] none).trace =
      [.lock_inode 1, .d_lookup, .lookup_one_len, .unlock_inode 1, .mntget,
       .kmem_cache_alloc true, .igrab, .iget5_locked, .iput] ∧
    -EACCES = (-13 : Int) ∧ -ENOMEM = (-12 : Int) := by
  decide

/-- Supplement to C18: the other three allocation failures do return -ENOMEM
(the dentry info of a lookup, the file info of an open, the request of
`lofs_lookup_managed`). -/
theorem allocation_failures_returning_enomem :
    (∀ (ienv : interpose_env) (mnt : Nat) (d : lower_dentry) (dir : inode) (path : lower_path)
        (evs : List event),
      lofs_follow_down ienv.HAVE_MANAGED_DENTRIES mnt d ienv.answers ienv.managed ienv.redo
        = (0, path, evs) →
      path.dentry.is_lofs = false → ienv.alloc_ok = false →
      (lofs_lookup_and_interpose_lower ienv mnt d dir).rc = -ENOMEM) ∧
    (∀ (inode_info : lofs_inode_info) (filp : lofs_file) (k : open_outcome),
      (lofs_open inode_info filp false k).rc = -ENOMEM) ∧
    (∀ (st : kthread_state) (name : List Char) (path : Nat × Nat),
      (lofs_lookup_managed_enqueue st none name path).1 = some (-ENOMEM)) := by
  refine ⟨?_, ?_, ?_⟩
  · intro ienv mnt d dir path evs hf hl ha
    simp [lofs_lookup_and_interpose_lower, hf, hl, ha]
  · intro ii filp k
    simp [lofs_open]
  · intro st name path
    rfl

/-! ### Automount worker: claims C19 and C20 -/

/-- The requests queued by a concatenated trace. -/
theorem enqueued_append (t1 t2 : List event) :
    enqueued (t1 ++ t2) = enqueued t1 ++ enqueued t2 := by
  induction t1 with
  | nil => rfl
  | cons e t ih => cases e <;> simp [enqueued, ih]

/-- The requests looked up by a concatenated trace. -/
theorem looked_up_append (t1 t2 : List event) :
    looked_up (t1 ++ t2) = looked_up t1 ++ looked_up t2 := by
  induction t1 with
  | nil => rfl
  | cons e t ih => cases e <;> simp [looked_up, ih]

/-- A flag that was set is set. -/
theorem or_and_self (x m : Nat) : (x ||| m) &&& m = m := by
  apply Nat.eq_of_testBit_eq
  intro i
  simp only [Nat.testBit_and, Nat.testBit_or]
  cases x.testBit i <;> cases m.testBit i <;> rfl

/-- The worker looks up the requests that are not zombie in list order. -/
theorem lofs_threadfn_requests_trace (kern_path : lofs_lookup_req → Int × (Nat × Nat))
    (reqs : List lofs_lookup_req) (h : ∀ r ∈ reqs, r.flags &&& LOFS_REQ_ZOMBIE = 0) :
    looked_up (lofs_threadfn_requests kern_path reqs).2 = reqs.map (fun r => r.addr) ∧
    enqueued (lofs_threadfn_requests kern_path reqs).2 = [] := by
  induction reqs with
  | nil => exact ⟨rfl, rfl⟩
  | cons r rest ih =>
    have hr := h r (List.mem_cons_self _ _)
    have ih2 := ih (fun x hx => h x (List.mem_cons_of_mem _ hx))
    simp [lofs_threadfn_requests, hr, looked_up, enqueued, ih2.1, ih2.2]

/-- The shutdown marks every pending request and looks nothing up. -/
theorem lofs_destroy_requests_spec (reqs : List lofs_lookup_req) :
    (lofs_destroy_requests reqs).1 =
      reqs.map (fun r => { r with flags := r.flags ||| LOFS_REQ_ZOMBIE }) ∧
    looked_up (lofs_destroy_requests reqs).2 = [] ∧
    enqueued (lofs_destroy_requests reqs).2 = [] := by
  induction reqs with
  | nil => exact ⟨rfl, rfl, rfl⟩
  | cons r rest ih =>
    simp [lofs_destroy_requests, looked_up, enqueued, ih.1, ih.2.1, ih.2.2]

/-- The invariant holds when the worker starts. -/
theorem kthread_inv_init : kthread_inv lofs_init_kthread := by
  simp [kthread_inv, lofs_init_kthread, looked_up, enqueued]

/-- A call of `lofs_lookup_managed` keeps the invariant. -/
theorem kthread_inv_enqueue (st : kthread_state) (alloc : Option Nat) (name : List Char)
    (path : Nat × Nat) (h : kthread_inv st) :
    kthread_inv (lofs_lookup_managed_enqueue st alloc name path).2 := by
  obtain ⟨h1, h2⟩ := h
  cases alloc with
  | none =>
    simp only [lofs_lookup_managed_enqueue, kthread_inv]
    refine ⟨h1, ?_⟩
    simp [looked_up_append, enqueued_append, looked_up, enqueued, h2]
  | some a =>
    by_cases hz : st.ctl.flags &&& LOFS_KTHREAD_ZOMBIE = 0
    · simp only [lofs_lookup_managed_enqueue, kthread_inv, hz, ne_eq, not_true_eq_false,
        if_false]
      refine ⟨?_, ?_⟩
      · intro _ r hr
        rcases List.mem_append.1 hr with hr | hr
        · exact h1 hz r hr
        · simp only [List.mem_singleton] at hr
          subst hr
          exact Nat.zero_and _
      · simp [looked_up_append, enqueued_append, looked_up, enqueued, ← h2]
    · simp only [lofs_lookup_managed_enqueue, kthread_inv, hz, ne_eq, not_false_eq_true,
        if_true]
      refine ⟨fun hf => absurd hf (by simp), ?_⟩
      simp [looked_up_append, enqueued_append, looked_up, enqueued, h2]

/-- A round of the worker keeps the invariant. -/
theorem kthread_inv_worker (kern_path : lofs_lookup_req → Int × (Nat × Nat))
    (st : kthread_state) (h : kthread_inv st) :
    kthread_inv (lofs_threadfn kern_path st).2 := by
  obtain ⟨h1, h2⟩ := h
  by_cases hz : st.ctl.flags &&& LOFS_KTHREAD_ZOMBIE = 0
  · have ht := lofs_threadfn_requests_trace kern_path st.ctl.req_list (h1 hz)
    simp only [lofs_threadfn, kthread_inv, hz, ne_eq, not_true_eq_false, if_false]
    refine ⟨fun _ r hr => by simp at hr, ?_⟩
    simp [looked_up_append, enqueued_append, looked_up, enqueued, ht.1, ht.2, h2]
  · simp only [lofs_threadfn, kthread_inv, hz, ne_eq, not_false_eq_true, if_true]
    refine ⟨fun hf => absurd hf (by simp), ?_⟩
    simp [looked_up_append, enqueued_append, looked_up, enqueued, h2]

/-- The shutdown keeps the invariant. -/
theorem kthread_inv_destroy (st : kthread_state) (h : kthread_inv st) :
    kthread_inv (lofs_destroy_kthread st) := by
  obtain ⟨_, h2⟩ := h
  have hd := lofs_destroy_requests_spec st.ctl.req_list
  simp only [lofs_destroy_kthread, kthread_inv]
  refine ⟨?_, ?_⟩
  · intro hz
    rw [or_and_self] at hz
    exact absurd hz (by decide)
  · rw [hd.1]
    simp [looked_up_append, enqueued_append, looked_up, enqueued, hd.2.1, hd.2.2,
      Function.comp_def, h2]

/-- Every run keeps the invariant. -/
theorem kthread_run_inv (kern_path : lofs_lookup_req → Int × (Nat × Nat))
    (steps : List kthread_step) (st : kthread_state) (h : kthread_inv st) :
    kthread_inv (kthread_run kern_path st steps) := by
  induction steps generalizing st with
  | nil => exact h
  | cons s rest ih =>
    cases s with
    | lookup_managed alloc name path => exact ih _ (kthread_inv_enqueue st alloc name path h)
    | worker => exact ih _ (kthread_inv_worker kern_path st h)
    | destroy => exact ih _ (kthread_inv_destroy st h)

/-- C19.  In every run of callers, worker rounds and shutdown, the requests
for which the worker made a full-path lookup, in the order of the lookups,
followed by the requests still pending on the list, are the requests queued
by `lofs_lookup_managed`, in the order in which they were queued: lookups
happen in queue order.  A round of a worker that is not zombie looks up
every pending request and empties the list. -/
theorem lofs_threadfn_is_fifo (kern_path : lofs_lookup_req → Int × (Nat × Nat))
    (steps : List kthread_step) :
    looked_up (kthread_run kern_path lofs_init_kthread steps).trace ++
        (kthread_run kern_path lofs_init_kthread steps).ctl.req_list.map (fun r => r.addr) =
      enqueued (kthread_run kern_path lofs_init_kthread steps).trace ∧
    looked_up (kthread_run kern_path lofs_init_kthread steps).trace <+:
      enqueued (kthread_run kern_path lofs_init_kthread steps).trace ∧
    ((kthread_run kern_path lofs_init_kthread steps).ctl.flags &&& LOFS_KTHREAD_ZOMBIE = 0 →
      looked_up
          (lofs_threadfn kern_path (kthread_run kern_path lofs_init_kthread steps)).2.trace =
        enqueued (kthread_run kern_path lofs_init_kthread steps).trace ∧
      (lofs_threadfn kern_path
          (kthread_run kern_path lofs_init_kthread steps)).2.ctl.req_list = []) := by
  have hinv := kthread_run_inv kern_path steps lofs_init_kthread kthread_inv_init
  refine ⟨hinv.2, ⟨_, hinv.2⟩, ?_⟩
  intro hz
  have ht := lofs_threadfn_requests_trace kern_path _ (hinv.1 hz)
  simp only [lofs_threadfn, hz, ne_eq, not_true_eq_false, if_false]
  refine ⟨?_, trivial⟩
  simp [looked_up_append, looked_up, ht.1, hinv.2]


/-- A request that carries the zombie flag makes its caller return -EIO. -/
theorem lofs_lookup_managed_finish_zombie (r : lofs_lookup_req)
    (h : r.flags &&& LOFS_REQ_ZOMBIE ≠ 0) : lofs_lookup_managed_finish r = some (- EIO) := by
  have h0 : r.flags ≠ 0 := by
    intro h0
    rw [h0] at h
    exact h (Nat.zero_and _)
  simp [lofs_lookup_managed_finish, h0, h]

/-- Once the worker is zombie, no step changes the pending requests, unmarks
them or looks anything up. -/
theorem kthread_run_zombie (kern_path : lofs_lookup_req → Int × (Nat × Nat))
    (steps : List kthread_step) (st : kthread_state)
    (hz : st.ctl.flags &&& LOFS_KTHREAD_ZOMBIE ≠ 0)
    (hr : ∀ r ∈ st.ctl.req_list, r.flags &&& LOFS_REQ_ZOMBIE ≠ 0) :
    (kthread_run kern_path st steps).ctl.flags &&& LOFS_KTHREAD_ZOMBIE ≠ 0 ∧
    (∀ r ∈ (kthread_run kern_path st steps).ctl.req_list, r.flags &&& LOFS_REQ_ZOMBIE ≠ 0) ∧
    (kthread_run kern_path st steps).ctl.req_list.map (fun r => r.addr) =
      st.ctl.req_list.map (fun r => r.addr) ∧
    looked_up (kthread_run kern_path st steps).trace = looked_up st.trace := by
  induction steps generalizing st with
  | nil => exact ⟨hz, hr, rfl, rfl⟩
  | cons s rest ih =>
    cases s with
    | lookup_managed alloc name path =>
      cases alloc with
      | none =>
        have := ih { st with trace := st.trace ++ [.kmem_cache_alloc false] } hz hr
        simpa [kthread_run, lofs_lookup_managed_enqueue, looked_up_append, looked_up] using this
      | some a =>
        have := ih { st with trace := st.trace ++
          [.kmem_cache_alloc true, .ctl_mutex_lock, .ctl_mutex_unlock, .kmem_cache_free] } hz hr
        simpa [kthread_run, lofs_lookup_managed_enqueue, hz, looked_up_append, looked_up]
          using this
    | worker =>
      have := ih { st with trace := st.trace ++ [.ctl_mutex_lock, .ctl_mutex_unlock] } hz hr
      simpa [kthread_run, lofs_threadfn, hz, looked_up_append, looked_up] using this
    | destroy =>
      have hd := lofs_destroy_requests_spec st.ctl.req_list
      have hz2 : (lofs_destroy_kthread st).ctl.flags &&& LOFS_KTHREAD_ZOMBIE ≠ 0 := by
        simp only [lofs_destroy_kthread]
        rw [or_and_self]
        decide
      have hr2 : ∀ r ∈ (lofs_destroy_kthread st).ctl.req_list,
          r.flags &&& LOFS_REQ_ZOMBIE ≠ 0 := by
        intro r hmem
        simp only [lofs_destroy_kthread, hd.1, List.mem_map] at hmem
        obtain ⟨r0, _, rfl⟩ := hmem
        simp only
        rw [or_and_self]
        decide
      have := ih (lofs_destroy_kthread st) hz2 hr2
      refine ⟨this.1, this.2.1, ?_, ?_⟩
      · rw [kthread_run, this.2.2.1]
        simp [lofs_destroy_kthread, hd.1, Function.comp_def]
      · rw [kthread_run, this.2.2.2]
        simp [lofs_destroy_kthread, looked_up_append, looked_up, hd.2.1]

/-- C20 (counterexample).  After `lofs_destroy_kthread` the worker is flagged
zombie; a `lofs_lookup_managed` whose request cannot be allocated returns
-ENOMEM, not -EIO. -/
theorem lofs_lookup_managed_after_shutdown_without_memory :
    (lofs_destroy_kthread lofs_init_kthread).ctl.flags &&& LOFS_KTHREAD_ZOMBIE ≠ 0 ∧
    (lofs_lookup_managed_enqueue (lofs_destroy_kthread lofs_init_kthread) none
        ['/', 'n', 'e', 't'] (0, 0)).1 = some (-ENOMEM) ∧
    ¬ ((lofs_lookup_managed_enqueue (lofs_destroy_kthread lofs_init_kthread) none
        ['/', 'n', 'e', 't'] (0, 0)).1 = some (- EIO)) := by
  decide

/-- C20 (amended).  After `lofs_destroy_kthread` has run (in any state reached
before, whatever happens later): the worker is flagged zombie; the requests
that were pending are still the pending ones, each carries the zombie flag,
and the caller of each returns -EIO; no full-path lookup is made any more;
and every `lofs_lookup_managed` issued from then on returns without queuing
a request, with -EIO when its request was allocated and with -ENOMEM when
the allocation failed. -/
theorem lofs_destroy_kthread_poisons_requests
    (kern_path : lofs_lookup_req → Int × (Nat × Nat)) (before later : List kthread_step) :
    (kthread_run kern_path
        (lofs_destroy_kthread (kthread_run kern_path lofs_init_kthread before))
        later).ctl.flags &&& LOFS_KTHREAD_ZOMBIE ≠ 0 ∧
    (kthread_run kern_path
        (lofs_destroy_kthread (kthread_run kern_path lofs_init_kthread before))
        later).ctl.req_list.map (fun r => r.addr) =
      (kthread_run kern_path lofs_init_kthread before).ctl.req_list.map (fun r => r.addr) ∧
    (∀ r ∈ (kthread_run kern_path
        (lofs_destroy_kthread (kthread_run kern_path lofs_init_kthread before))
        later).ctl.req_list,
      r.flags &&& LOFS_REQ_ZOMBIE ≠ 0 ∧ lofs_lookup_managed_finish r = some (- EIO)) ∧
    looked_up (kthread_run kern_path
        (lofs_destroy_kthread (kthread_run kern_path lofs_init_kthread before))
        later).trace =
      looked_up (kthread_run kern_path lofs_init_kthread before).trace ∧
    (∀ (alloc : Option Nat) (name : List Char) (path : Nat × Nat),
      (lofs_lookup_managed_enqueue
          (kthread_run kern_path
            (lofs_destroy_kthread (kthread_run kern_path lofs_init_kthread before)) later)
          alloc name path).1 = some (if alloc.isSome then - EIO else -ENOMEM) ∧
      (lofs_lookup_managed_enqueue
          (kthread_run kern_path
            (lofs_destroy_kthread (kthread_run kern_path lofs_init_kthread before)) later)
          alloc name path).2.ctl.req_list =
        (kthread_run kern_path
          (lofs_destroy_kthread (kthread_run kern_path lofs_init_kthread before))
          later).ctl.req_list) := by
  have hd := lofs_destroy_requests_spec (kthread_run kern_path lofs_init_kthread before).ctl.req_list
  have hz : (lofs_destroy_kthread (kthread_run kern_path lofs_init_kthread before)).ctl.flags
      &&& LOFS_KTHREAD_ZOMBIE ≠ 0 := by
    simp only [lofs_destroy_kthread]
    rw [or_and_self]
    decide
  have hr : ∀ r ∈ (lofs_destroy_kthread
      (kthread_run kern_path lofs_init_kthread before)).ctl.req_list,
      r.flags &&& LOFS_REQ_ZOMBIE ≠ 0 := by
    intro r hmem
    simp only [lofs_destroy_kthread, hd.1, List.mem_map] at hmem
    obtain ⟨r0, _, rfl⟩ := hmem
    simp only
    rw [or_and_self]
    decide
  have h := kthread_run_zombie kern_path later _ hz hr
  refine ⟨h.1, ?_, ?_, ?_, ?_⟩
  · rw [h.2.2.1]
    simp [lofs_destroy_kthread, hd.1, Function.comp_def]
  · intro r hmem
    exact ⟨h.2.1 r hmem, lofs_lookup_managed_finish_zombie r (h.2.1 r hmem)⟩
  · rw [h.2.2.2]
    simp [lofs_destroy_kthread, looked_up_append, looked_up, hd.2.1]
  · intro alloc name path
    cases alloc with
    | none => exact ⟨rfl, rfl⟩
    | some a => simp [lofs_lookup_managed_enqueue, h.1]


/-! ### Automount worker: claims C21 and C22 -/

/-- C21 (counterexample).  The full-path lookup of the worker fails with
-EACCES (-13): the caller of `lofs_lookup_managed` receives -ENOENT (-2). -/
theorem lofs_lookup_managed_hides_lookup_error :
    (lofs_threadfn (sample_kern_path (-EACCES)) sample_queued).2.finished.map
        (fun r => (r.addr, lofs_lookup_managed_finish r)) = [(1, some (-ENOENT))] ∧
    looked_up (lofs_threadfn (sample_kern_path (-EACCES)) sample_queued).2.trace = [1] ∧
    -EACCES = (-13 : Int) ∧ -ENOENT = (-2 : Int) := by
  decide

/-- What the caller of a fresh request finds after the worker has processed it. -/
theorem lofs_threadfn_requests_finish (kern_path : lofs_lookup_req → Int × (Nat × Nat))
    (reqs : List lofs_lookup_req) (h : ∀ r ∈ reqs, r.flags = 0) :
    ∀ r ∈ (lofs_threadfn_requests kern_path reqs).1,
      ∃ req, req.flags = 0 ∧ req.addr = r.addr ∧ req.name = r.name ∧
        r.p = (kern_path req).2 ∧
        lofs_lookup_managed_finish r = some (if (kern_path req).1 = 0 then 0 else -ENOENT) := by
  induction reqs with
  | nil => intro r hr; simp [lofs_threadfn_requests] at hr
  | cons q rest ih =>
    have hq := h q (List.mem_cons_self _ _)
    have ih2 := ih (fun x hx => h x (List.mem_cons_of_mem _ hx))
    intro r hr
    have hz : q.flags &&& LOFS_REQ_ZOMBIE = 0 := by rw [hq]; exact Nat.zero_and _
    simp only [lofs_threadfn_requests, hz, if_true, List.mem_cons] at hr
    rcases hr with hr | hr
    · refine ⟨q, hq, ?_, ?_, ?_, ?_⟩
      · rw [hr]
      · rw [hr]
      · rw [hr]
      · rw [hr]
        by_cases hrc : (kern_path q).1 = 0
        · simp +decide [lofs_lookup_managed_finish, hrc, hq]
        · simp +decide [lofs_lookup_managed_finish, hrc, hq]
    · exact ih2 r hr

/-- The requests of a worker that is not zombie are fresh, and every request
the worker has finished gives its caller 0 or -ENOENT. -/
theorem kthread_run_finished (kern_path : lofs_lookup_req → Int × (Nat × Nat))
    (steps : List kthread_step) (st : kthread_state)
    (h1 : st.ctl.flags &&& LOFS_KTHREAD_ZOMBIE = 0 → ∀ r ∈ st.ctl.req_list, r.flags = 0)
    (h2 : ∀ r ∈ st.finished,
      ∃ req, req.flags = 0 ∧ req.addr = r.addr ∧ req.name = r.name ∧
        r.p = (kern_path req).2 ∧
        lofs_lookup_managed_finish r = some (if (kern_path req).1 = 0 then 0 else -ENOENT)) :
    ∀ r ∈ (kthread_run kern_path st steps).finished,
      ∃ req, req.flags = 0 ∧ req.addr = r.addr ∧ req.name = r.name ∧
        r.p = (kern_path req).2 ∧
        lofs_lookup_managed_finish r = some (if (kern_path req).1 = 0 then 0 else -ENOENT) := by
  induction steps generalizing st with
  | nil => exact h2
  | cons s rest ih =>
    cases s with
    | lookup_managed alloc name path =>
      apply ih
      · cases alloc with
        | none => simpa [lofs_lookup_managed_enqueue] using h1
        | some a =>
          by_cases hz : st.ctl.flags &&& LOFS_KTHREAD_ZOMBIE = 0
          · intro _ r hr
            simp only [lofs_lookup_managed_enqueue, hz, ne_eq, not_true_eq_false, if_false,
              List.mem_append, List.mem_singleton] at hr
            rcases hr with hr | hr
            · exact h1 hz r hr
            · rw [hr]
          · intro hf
            simp [lofs_lookup_managed_enqueue, hz] at hf
      · cases alloc with
        | none => simpa [lofs_lookup_managed_enqueue] using h2
        | some a =>
          by_cases hz : st.ctl.flags &&& LOFS_KTHREAD_ZOMBIE = 0
          · simpa [lofs_lookup_managed_enqueue, hz] using h2
          · simpa [lofs_lookup_managed_enqueue, hz] using h2
    | worker =>
      apply ih
      · by_cases hz : st.ctl.flags &&& LOFS_KTHREAD_ZOMBIE = 0
        · intro _ r hr
          simp [lofs_threadfn, hz] at hr
        · intro hf
          simp [lofs_threadfn, hz] at hf
      · by_cases hz : st.ctl.flags &&& LOFS_KTHREAD_ZOMBIE = 0
        · intro r hr
          simp only [lofs_threadfn, hz, ne_eq, not_true_eq_false, if_false,
            List.mem_append] at hr
          rcases hr with hr | hr
          · exact h2 r hr
          · exact lofs_threadfn_requests_finish kern_path _ (h1 hz) r hr
        · simpa [lofs_threadfn, hz] using h2
    | destroy =>
      apply ih
      · intro hf
        simp only [lofs_destroy_kthread] at hf
        rw [or_and_self] at hf
        exact absurd hf (by decide)
      · simpa [lofs_destroy_kthread] using h2

/-- C21 (amended).  In every run of callers, worker rounds and shutdown, for
every request the worker has processed (a request queued by
`lofs_lookup_managed` with flags 0): its caller returns 0 exactly when the
full-path lookup returned 0, and returns -ENOENT when the lookup failed,
whatever the error code of the lookup. -/
theorem lofs_lookup_managed_reports_enoent (kern_path : lofs_lookup_req → Int × (Nat × Nat))
    (steps : List kthread_step) :
    ∀ r ∈ (kthread_run kern_path lofs_init_kthread steps).finished,
      ∃ req, req.flags = 0 ∧ req.addr = r.addr ∧ req.name = r.name ∧
        r.p = (kern_path req).2 ∧
        (lofs_lookup_managed_finish r = some 0 ↔ (kern_path req).1 = 0) ∧
        ((kern_path req).1 ≠ 0 → lofs_lookup_managed_finish r = some (-ENOENT)) := by
  intro r hr
  obtain ⟨req, hf, ha, hn, hp, hfin⟩ :=
    kthread_run_finished kern_path steps lofs_init_kthread
      (fun _ r hr => by simp [lofs_init_kthread] at hr)
      (fun r hr => by simp [lofs_init_kthread] at hr) r hr
  refine ⟨req, hf, ha, hn, hp, ?_, ?_⟩
  · rw [hfin]
    by_cases hrc : (kern_path req).1 = 0
    · simp [hrc]
    · simp +decide [hrc]
  · intro hrc
    rw [hfin]
    simp [hrc]

theorem lofs_lookup_managed_reports_enoent_witness :
    ∃ req : lofs_lookup_req, req.flags = 0 ∧ req.addr = 1 ∧ req.name = ['/', 'n', 'e', 't'] ∧
      ((0, 0) : Nat × Nat) = (sample_kern_path (-EACCES) req).2 ∧
      (lofs_lookup_managed_finish
          { addr := 1, flags := 5, name := ['/', 'n', 'e', 't'], p := (0, 0) } = some 0 ↔
        (sample_kern_path (-EACCES) req).1 = 0) ∧
      ((sample_kern_path (-EACCES) req).1 ≠ 0 →
        lofs_lookup_managed_finish
          { addr := 1, flags := 5, name := ['/', 'n', 'e', 't'], p := (0, 0) } =
            some (-ENOENT)) :=
  lofs_lookup_managed_reports_enoent (sample_kern_path (-EACCES))
    [.lookup_managed (some 1) ['/', 'n', 'e', 't'] (0, 0), .worker]
    { addr := 1, flags := 5, name := ['/', 'n', 'e', 't'], p := (0, 0) } (by decide)

/-- Supplement to C21: when the mount traversal of a lookup ends at a managed
dentry and `lofs_lookup_managed` returns an error, `lofs_lookup` returns that
error. -/
theorem lofs_lookup_returns_lookup_managed_error (lenv : lookup_env) (ienv : interpose_env)
    (lofs_dir_inode : inode) (parent : lofs_dentry) (d_name : List Char)
    (lofs_nd : Option nameidata) (child : lower_dentry) (evs : List event)
    (hl : lofs_lookup_lower lenv parent d_name lofs_nd = (.ok child, evs))
    (hm : ienv.HAVE_MANAGED_DENTRIES = true)
    (hd : (follow_down_loop { mnt := parent.lower_mnt, dentry := child }
      ienv.answers).1.dentry.d_managed = true)
    (hrc : ienv.managed.1 ≠ 0) :
    (lofs_lookup lenv ienv lofs_dir_inode parent d_name lofs_nd).rc = ienv.managed.1 := by
  unfold lofs_lookup
  rw [hl]
  simp only [lofs_lookup_and_interpose_lower, lofs_follow_down]
  rcases hf : follow_down_loop { mnt := parent.lower_mnt, dentry := child } ienv.answers
    with ⟨path, fevs⟩
  rw [hf] at hd
  simp only at hd
  simp [hm, hd, hrc]

/-- The queue mutex is not touched by the calls of the worker's inner loop. -/
theorem lofs_threadfn_requests_mutex (kern_path : lofs_lookup_req → Int × (Nat × Nat))
    (reqs : List lofs_lookup_req) (held : Bool) (rest : List event) :
    ctl_mutex_held held ((lofs_threadfn_requests kern_path reqs).2 ++ rest) =
      ctl_mutex_held held rest ∧
    ctl_mutex_at_lookups held ((lofs_threadfn_requests kern_path reqs).2 ++ rest) =
      (looked_up (lofs_threadfn_requests kern_path reqs).2).map (fun _ => held) ++
        ctl_mutex_at_lookups held rest := by
  induction reqs with
  | nil => simp [lofs_threadfn_requests, looked_up]
  | cons q qs ih =>
    by_cases hz : q.flags &&& LOFS_REQ_ZOMBIE = 0
    · simp [lofs_threadfn_requests, hz, ctl_mutex_held, ctl_mutex_at_lookups, looked_up, ih.1,
        ih.2]
    · simp [lofs_threadfn_requests, hz, ctl_mutex_held, ctl_mutex_at_lookups, looked_up, ih.1,
        ih.2]

/-- The queue mutex is not touched by the calls of the loop of the shutdown,
which looks nothing up. -/
theorem lofs_destroy_requests_mutex (reqs : List lofs_lookup_req) (held : Bool)
    (rest : List event) :
    ctl_mutex_held held ((lofs_destroy_requests reqs).2 ++ rest) = ctl_mutex_held held rest ∧
    ctl_mutex_at_lookups held ((lofs_destroy_requests reqs).2 ++ rest) =
      ctl_mutex_at_lookups held rest ∧
    looked_up ((lofs_destroy_requests reqs).2 ++ rest) = looked_up rest := by
  induction reqs with
  | nil => simp [lofs_destroy_requests]
  | cons q qs ih =>
    simp [lofs_destroy_requests, ctl_mutex_held, ctl_mutex_at_lookups, looked_up, ih.1, ih.2.1,
      ih.2.2]

/-- The queue mutex after a concatenated trace. -/
theorem ctl_mutex_held_append (t1 t2 : List event) (held : Bool) :
    ctl_mutex_held held (t1 ++ t2) = ctl_mutex_held (ctl_mutex_held held t1) t2 := by
  induction t1 generalizing held with
  | nil => rfl
  | cons e t ih => cases e <;> simp [ctl_mutex_held, ih]

/-- The queue mutex at the lookups of a concatenated trace. -/
theorem ctl_mutex_at_lookups_append (t1 t2 : List event) (held : Bool) :
    ctl_mutex_at_lookups held (t1 ++ t2) =
      ctl_mutex_at_lookups held t1 ++ ctl_mutex_at_lookups (ctl_mutex_held held t1) t2 := by
  induction t1 generalizing held with
  | nil => rfl
  | cons e t ih => cases e <;> simp [ctl_mutex_held, ctl_mutex_at_lookups, ih]

/-- After every step the queue mutex is free, and it was held at every lookup made so far. -/
theorem kthread_run_mutex (kern_path : lofs_lookup_req → Int × (Nat × Nat))
    (steps : List kthread_step) (st : kthread_state)
    (h1 : ctl_mutex_held false st.trace = false)
    (h2 : ctl_mutex_at_lookups false st.trace = (looked_up st.trace).map (fun _ => true)) :
    ctl_mutex_held false (kthread_run kern_path st steps).trace = false ∧
    ctl_mutex_at_lookups false (kthread_run kern_path st steps).trace =
      (looked_up (kthread_run kern_path st steps).trace).map (fun _ => true) := by
  induction steps generalizing st with
  | nil => exact ⟨h1, h2⟩
  | cons s rest ih =>
    cases s with
    | lookup_managed alloc name path =>
      apply ih
      · cases alloc with
        | none =>
          simp [lofs_lookup_managed_enqueue, ctl_mutex_held_append, h1, ctl_mutex_held]
        | some a =>
          by_cases hz : st.ctl.flags &&& LOFS_KTHREAD_ZOMBIE = 0
          · simp [lofs_lookup_managed_enqueue, hz, ctl_mutex_held_append, h1, ctl_mutex_held]
          · simp [lofs_lookup_managed_enqueue, hz, ctl_mutex_held_append, h1, ctl_mutex_held]
      · cases alloc with
        | none =>
          simp [lofs_lookup_managed_enqueue, ctl_mutex_at_lookups_append, looked_up_append, h1,
            h2, ctl_mutex_at_lookups, looked_up]
        | some a =>
          by_cases hz : st.ctl.flags &&& LOFS_KTHREAD_ZOMBIE = 0
          · simp [lofs_lookup_managed_enqueue, hz, ctl_mutex_at_lookups_append,
              looked_up_append, h1, h2, ctl_mutex_at_lookups, looked_up]
          · simp [lofs_lookup_managed_enqueue, hz, ctl_mutex_at_lookups_append,
              looked_up_append, h1, h2, ctl_mutex_at_lookups, looked_up]
    | worker =>
      apply ih
      · by_cases hz : st.ctl.flags &&& LOFS_KTHREAD_ZOMBIE = 0
        · have hm := lofs_threadfn_requests_mutex kern_path st.ctl.req_list true
            [.ctl_mutex_unlock]
          simp only [lofs_threadfn, hz, ne_eq, not_true_eq_false, if_false, List.append_assoc]
          rw [ctl_mutex_held_append, h1]
          change ctl_mutex_held true
            ((lofs_threadfn_requests kern_path st.ctl.req_list).2 ++ [event.ctl_mutex_unlock]) =
              false
          rw [hm.1]
          rfl
        · simp [lofs_threadfn, hz, ctl_mutex_held_append, h1, ctl_mutex_held]
      · by_cases hz : st.ctl.flags &&& LOFS_KTHREAD_ZOMBIE = 0
        · have hm := lofs_threadfn_requests_mutex kern_path st.ctl.req_list true
            [.ctl_mutex_unlock]
          simp only [lofs_threadfn, hz, ne_eq, not_true_eq_false, if_false, List.append_assoc]
          rw [ctl_mutex_at_lookups_append, h1, h2, looked_up_append]
          change _ ++ ctl_mutex_at_lookups true
            ((lofs_threadfn_requests kern_path st.ctl.req_list).2 ++ [event.ctl_mutex_unlock]) =
              List.map (fun _ => true) (looked_up st.trace ++ looked_up
                ((lofs_threadfn_requests kern_path st.ctl.req_list).2 ++
                  [event.ctl_mutex_unlock]))
          rw [hm.2]
          simp [looked_up_append, looked_up, ctl_mutex_at_lookups]
        · simp [lofs_threadfn, hz, ctl_mutex_at_lookups_append, looked_up_append, h1, h2,
            ctl_mutex_at_lookups, looked_up]
    | destroy =>
      have hd := lofs_destroy_requests_mutex st.ctl.req_list true
        [.ctl_mutex_unlock, .kthread_stop, .wake_up_worker]
      apply ih
      · simp only [lofs_destroy_kthread, List.append_assoc]
        rw [ctl_mutex_held_append, h1]
        change ctl_mutex_held true ((lofs_destroy_requests st.ctl.req_list).2 ++
          [event.ctl_mutex_unlock, .kthread_stop, .wake_up_worker]) = false
        rw [hd.1]
        rfl
      · simp only [lofs_destroy_kthread, List.append_assoc]
        rw [ctl_mutex_at_lookups_append, h1, h2, looked_up_append]
        change _ ++ ctl_mutex_at_lookups true ((lofs_destroy_requests st.ctl.req_list).2 ++
          [event.ctl_mutex_unlock, .kthread_stop, .wake_up_worker]) =
            List.map (fun _ => true) (looked_up st.trace ++ looked_up
              ((lofs_destroy_requests st.ctl.req_list).2 ++
                [event.ctl_mutex_unlock, .kthread_stop, .wake_up_worker]))
        rw [hd.2.1, hd.2.2]
        simp [ctl_mutex_at_lookups, looked_up]

/-- C22 (counterexample).  One request is queued and the worker runs a round:
at the moment of the full-path lookup the queue mutex is held. -/
theorem lofs_threadfn_looks_up_under_queue_mutex :
    (lofs_threadfn (sample_kern_path 0) sample_queued).2.trace =
      [.kmem_cache_alloc true, .ctl_mutex_lock, .list_add_tail 1, .ctl_mutex_unlock,
       .wake_up_worker,
       .ctl_mutex_lock, .req_mutex_lock 1, .list_del 1, .kern_path 1, .wake_up 1,
       .req_mutex_unlock 1, .ctl_mutex_unlock] ∧
    ctl_mutex_at_lookups false (lofs_threadfn (sample_kern_path 0) sample_queued).2.trace =
      [true] := by
  decide

/-- C22 (amended).  In every run of callers, worker rounds and shutdown, the
worker's queue mutex is held at the moment of every full-path lookup (the
worker takes it before it looks at the list and releases it after the last
pending request is processed), and it is free again after every round. -/
theorem lofs_threadfn_holds_queue_mutex_at_lookups
    (kern_path : lofs_lookup_req → Int × (Nat × Nat)) (steps : List kthread_step) :
    ctl_mutex_at_lookups false (kthread_run kern_path lofs_init_kthread steps).trace =
      (looked_up (kthread_run kern_path lofs_init_kthread steps).trace).map (fun _ => true) ∧
    ctl_mutex_held false (kthread_run kern_path lofs_init_kthread steps).trace = false := by
  have h := kthread_run_mutex kern_path steps lofs_init_kthread rfl rfl
  exact ⟨h.2, h.1⟩

/-! ### ioctl, statfs, extended attributes: claims C23 to C25 -/

/-- The command `LOFS_IOCTL_PRUNE`, as the `unsigned int` it is compared with. -/
theorem prune_cmd : to_unsigned 32 LOFS_IOCTL_PRUNE = _IOR 0x15 7 4 := by decide

/-- C23.  For every file and argument, each of the three ioctl entry points
(`lofs_unlocked_ioctl`, `lofs_ioctl`, `lofs_compat_ioctl`) returns 0 for the
command `_IOR(0x15, 7, int)` and makes no lower ioctl call.  For every other
command: when the file has a lower file with operations, `lofs_unlocked_ioctl`
calls the lower `unlocked_ioctl`, if there is one, and else (on kernels with
the locked handler) the lower `ioctl` under the big kernel lock,
`lofs_ioctl` calls the lower `ioctl` and `lofs_compat_ioctl` the lower
`compat_ioctl`, each with the same command and argument, and the result of
the handler is returned; when there is no such handler, no lower file or no
operations, no call is made and the result is -ENOTTY, for
`lofs_compat_ioctl` -ENOIOCTLCMD. -/
theorem lofs_ioctl_forwards_all_but_prune (HAVE_LOCKED_IOCTL root_connected : Bool)
    (file : lofs_file) (lower_f_op : Option lower_file_operations) (cmd arg : Nat) :
    ((lofs_unlocked_ioctl HAVE_LOCKED_IOCTL root_connected file lower_f_op (_IOR 0x15 7 4)
        arg).1 = 0 ∧
      lower_ioctls (lofs_unlocked_ioctl HAVE_LOCKED_IOCTL root_connected file lower_f_op
        (_IOR 0x15 7 4) arg).2 = [] ∧
      (lofs_ioctl root_connected file lower_f_op (_IOR 0x15 7 4) arg).1 = 0 ∧
      lower_ioctls (lofs_ioctl root_connected file lower_f_op (_IOR 0x15 7 4) arg).2 = [] ∧
      (lofs_compat_ioctl root_connected file lower_f_op (_IOR 0x15 7 4) arg).1 = 0 ∧
      lower_ioctls (lofs_compat_ioctl root_connected file lower_f_op (_IOR 0x15 7 4) arg).2
        = []) ∧
    (cmd ≠ _IOR 0x15 7 4 →
      (∀ lower_file fop, lofs_file_to_lower file = some lower_file → lower_f_op = some fop →
        (∀ handler, fop.unlocked_ioctl = some handler →
          lofs_unlocked_ioctl HAVE_LOCKED_IOCTL root_connected file lower_f_op cmd arg =
            (handler cmd arg, [.unlocked_ioctl cmd arg])) ∧
        (∀ handler, fop.unlocked_ioctl = none → HAVE_LOCKED_IOCTL = true →
          fop.ioctl = some handler →
          lofs_unlocked_ioctl HAVE_LOCKED_IOCTL root_connected file lower_f_op cmd arg =
            (handler cmd arg, [.lock_kernel, .ioctl cmd arg, .unlock_kernel])) ∧
        (fop.unlocked_ioctl = none → (HAVE_LOCKED_IOCTL = false ∨ fop.ioctl = none) →
          lofs_unlocked_ioctl HAVE_LOCKED_IOCTL root_connected file lower_f_op cmd arg =
            (-ENOTTY, [])) ∧
        (∀ handler, fop.ioctl = some handler →
          lofs_ioctl root_connected file lower_f_op cmd arg =
            (handler cmd arg, [.ioctl cmd arg])) ∧
        (fop.ioctl = none →
          lofs_ioctl root_connected file lower_f_op cmd arg = (-ENOTTY, [])) ∧
        (∀ handler, fop.compat_ioctl = some handler →
          lofs_compat_ioctl root_connected file lower_f_op cmd arg =
            (handler cmd arg, [.compat_ioctl cmd arg])) ∧
        (fop.compat_ioctl = none →
          lofs_compat_ioctl root_connected file lower_f_op cmd arg = (-ENOIOCTLCMD, []))) ∧
      ((lofs_file_to_lower file = none ∨ lower_f_op = none) →
        lofs_unlocked_ioctl HAVE_LOCKED_IOCTL root_connected file lower_f_op cmd arg =
          (-ENOTTY, []) ∧
        lofs_ioctl root_connected file lower_f_op cmd arg = (-ENOTTY, []) ∧
        lofs_compat_ioctl root_connected file lower_f_op cmd arg = (-ENOIOCTLCMD, []))) := by
  have hlow : (match file.private_data with
      | some _ => lofs_file_to_lower file
      | none => none) = lofs_file_to_lower file := by
    unfold lofs_file_to_lower
    cases file.private_data <;> rfl
  constructor
  · cases root_connected <;>
      simp [lofs_unlocked_ioctl, lofs_ioctl, lofs_compat_ioctl, lofs_common_ioctl, prune_cmd,
        lower_ioctls]
  · intro hc
    have hcmd : ¬ cmd = to_unsigned 32 LOFS_IOCTL_PRUNE := by rw [prune_cmd]; exact hc
    constructor
    · intro lower_file fop hl hf
      refine ⟨?_, ?_, ?_, ?_, ?_, ?_, ?_⟩
      · intro handler hh
        simp only [lofs_unlocked_ioctl, hlow]; simp [lofs_common_ioctl, hcmd, hl, hf, hh]
      · intro handler hu hk hh
        simp only [lofs_unlocked_ioctl, hlow]; simp [lofs_common_ioctl, hcmd, hl, hf, hu, hk, hh]
      · intro hu hor
        rcases hor with hk | hh
        · simp only [lofs_unlocked_ioctl, hlow]; simp [lofs_common_ioctl, hcmd, hl, hf, hu, hk]
        · simp only [lofs_unlocked_ioctl, hlow]
          cases HAVE_LOCKED_IOCTL <;> simp [lofs_common_ioctl, hcmd, hl, hf, hu, hh]
      · intro handler hh
        simp only [lofs_ioctl, hlow]; simp [lofs_common_ioctl, hcmd, hl, hf, hh]
      · intro hh
        simp only [lofs_ioctl, hlow]; simp [lofs_common_ioctl, hcmd, hl, hf, hh]
      · intro handler hh
        simp only [lofs_compat_ioctl, hlow]; simp [lofs_common_ioctl, hcmd, hl, hf, hh]
      · intro hh
        simp only [lofs_compat_ioctl, hlow]; simp [lofs_common_ioctl, hcmd, hl, hf, hh]
    · intro hor
      rcases hor with hl | hf
      · simp only [lofs_unlocked_ioctl, lofs_ioctl, lofs_compat_ioctl, hlow]
        simp [lofs_common_ioctl, hcmd, hl]
      · simp only [lofs_unlocked_ioctl, lofs_ioctl, lofs_compat_ioctl, hlow]
        cases hl : lofs_file_to_lower file <;> simp [lofs_common_ioctl, hcmd, hf]

/-- C24 (counterexample).  An overlay mounted by `lofs_mount` over a lower
filesystem of type ext3: the magic of the overlay superblock is 0x10f5, and
`lofs_statfs` on its root reports the type 0xEF53 of the lower filesystem. -/
theorem lofs_statfs_reports_lower_type :
    ∃ sb, lofs_mount true 0 sample_mount_answers = .ok sb ∧
      sb.s_magic = 0x10f5 ∧
      (lofs_statfs sample_vfs_statfs sb.s_root sample_kstatfs).1 = 0 ∧
      (lofs_statfs sample_vfs_statfs sb.s_root sample_kstatfs).2.1.f_type = 0xEF53 ∧
      ¬ ((lofs_statfs sample_vfs_statfs sb.s_root sample_kstatfs).2.1.f_type = 0x10f5) :=
  ⟨_, rfl, rfl, rfl, rfl, by decide⟩

/-- C24 (amended).  The magic of every superblock that `lofs_mount` sets up is
the constant 0x10f5.  `lofs_statfs` passes through to the lower filesystem:
its return code and every field it reports, the filesystem type included,
are those that `vfs_statfs` gives for the lower dentry and lower mount of the
overlay dentry. -/
theorem lofs_statfs_passes_through (vfs_statfs : lower_path → kstatfs → Int × kstatfs)
    (arg : lofs_dentry) (buf : kstatfs) :
    (∀ (HAVE_BACKING_DEV : Bool) (flags : Nat) (a : mount_answers) (sb : super_block),
      lofs_mount HAVE_BACKING_DEV flags a = .ok sb → sb.s_magic = 0x10f5) ∧
    (lofs_statfs vfs_statfs arg buf).1 =
      (vfs_statfs { mnt := arg.lower_mnt, dentry := arg.lower_dentry } buf).1 ∧
    (lofs_statfs vfs_statfs arg buf).2.1 =
      (vfs_statfs { mnt := arg.lower_mnt, dentry := arg.lower_dentry } buf).2 ∧
    (lofs_statfs vfs_statfs arg buf).2.1.f_type =
      (vfs_statfs { mnt := arg.lower_mnt, dentry := arg.lower_dentry } buf).2.f_type ∧
    (lofs_statfs vfs_statfs arg buf).2.2 = [.vfs_statfs] := by
  refine ⟨?_, rfl, rfl, rfl, rfl⟩
  intro hb flags a sb h
  unfold lofs_mount at h
  by_cases h1 : a.sbi = false
  · simp [h1] at h
  · cases h2 : a.sget with
    | some e => simp [h1, h2] at h
    | none =>
      by_cases h3 : hb = true ∧ a.bdi_setup_and_register ≠ 0
      · simp [h1, h2, h3] at h
      · by_cases h4 : a.kern_path = 0
        · cases h5 : (lofs_get_inode a.root.dentry.d_inode a.lower_inode a.iget).1 with
          | error e => simp [h1, h2, h3, h4, h5] at h
          | ok i =>
            by_cases h6 : a.d_make_root = false
            · simp [h1, h2, h3, h4, h5, h6] at h
            · by_cases h7 : a.root_info = false
              · simp [h1, h2, h3, h4, h5, h6, h7] at h
              · simp only [h1, h2, h3, h4, h5, h6, h7, if_false] at h
                simp at h
                rw [← h]
        · simp [h1, h2, h3, h4] at h

/-- C25 (counterexample).  The lower inode has a `readlink`: `lofs_readlink` calls
it without taking the lock of the lower inode. -/
theorem lofs_readlink_calls_lower_without_lock :
    (lofs_readlink (sample_dentry 2 3 1 100) sample_inode sample_inode (sample_i_op 4) 100).1
      = 4 ∧
    (lofs_readlink (sample_dentry 2 3 1 100) sample_inode sample_inode (sample_i_op 4)
      100).2.2 = [.readlink 100] ∧
    inode_lock_at_lower_ops 2 false
      (lofs_readlink (sample_dentry 2 3 1 100) sample_inode sample_inode (sample_i_op 4)
        100).2.2 = [false] := by
  decide

/-- C25 (amended).  Each of `lofs_setxattr`, `lofs_getxattr`, `lofs_listxattr` and
`lofs_removexattr` calls the lower operation, when the lower inode has it,
while the lock of the lower inode is held, and the lock is free again when
the overlay operation returns; when the lower inode lacks the operation, it
makes no call, takes no lock and returns -ENOSYS.  `lofs_readlink` calls the
lower `readlink` without taking the lock of the lower inode; when the lower
inode has no `readlink`, it makes no call and returns -EINVAL. -/
theorem lofs_xattr_under_lower_inode_lock (dentry : lofs_dentry)
    (i_op : lower_inode_operations) (d_inode lower_inode : inode) (bufsiz : Int) :
    ((∀ ret, i_op.setxattr = some ret →
        (lofs_setxattr dentry i_op).1 = ret ∧
        (lofs_setxattr dentry i_op).2 =
          [.lock_inode dentry.lower_dentry.addr, .setxattr,
           .unlock_inode dentry.lower_dentry.addr] ∧
        inode_lock_at_lower_ops dentry.lower_dentry.addr false (lofs_setxattr dentry i_op).2
          = [true] ∧
        inode_lock_after dentry.lower_dentry.addr false (lofs_setxattr dentry i_op).2
          = false) ∧
      (i_op.setxattr = none → lofs_setxattr dentry i_op = (-ENOSYS, []))) ∧
    ((∀ ret, i_op.getxattr = some ret →
        (lofs_getxattr dentry i_op).1 = to_signed 32 ret ∧
        (lofs_getxattr dentry i_op).2 =
          [.lock_inode dentry.lower_dentry.addr, .getxattr,
           .unlock_inode dentry.lower_dentry.addr] ∧
        inode_lock_at_lower_ops dentry.lower_dentry.addr false (lofs_getxattr dentry i_op).2
          = [true] ∧
        inode_lock_after dentry.lower_dentry.addr false (lofs_getxattr dentry i_op).2
          = false) ∧
      (i_op.getxattr = none → lofs_getxattr dentry i_op = (-ENOSYS, []))) ∧
    ((∀ ret, i_op.listxattr = some ret →
        (lofs_listxattr dentry i_op).1 = to_signed 32 ret ∧
        (lofs_listxattr dentry i_op).2 =
          [.lock_inode dentry.lower_dentry.addr, .listxattr,
           .unlock_inode dentry.lower_dentry.addr] ∧
        inode_lock_at_lower_ops dentry.lower_dentry.addr false (lofs_listxattr dentry i_op).2
          = [true] ∧
        inode_lock_after dentry.lower_dentry.addr false (lofs_listxattr dentry i_op).2
          = false) ∧
      (i_op.listxattr = none → lofs_listxattr dentry i_op = (-ENOSYS, []))) ∧
    ((∀ ret, i_op.removexattr = some ret →
        (lofs_removexattr dentry i_op).1 = ret ∧
        (lofs_removexattr dentry i_op).2 =
          [.lock_inode dentry.lower_dentry.addr, .removexattr,
           .unlock_inode dentry.lower_dentry.addr] ∧
        inode_lock_at_lower_ops dentry.lower_dentry.addr false
          (lofs_removexattr dentry i_op).2 = [true] ∧
        inode_lock_after dentry.lower_dentry.addr false (lofs_removexattr dentry i_op).2
          = false) ∧
      (i_op.removexattr = none → lofs_removexattr dentry i_op = (-ENOSYS, []))) ∧
    ((∀ readlink, i_op.readlink = some readlink →
        (lofs_readlink dentry d_inode lower_inode i_op bufsiz).1 = readlink bufsiz ∧
        (lofs_readlink dentry d_inode lower_inode i_op bufsiz).2.2 = [.readlink bufsiz] ∧
        inode_lock_at_lower_ops dentry.lower_dentry.addr false
          (lofs_readlink dentry d_inode lower_inode i_op bufsiz).2.2 = [false]) ∧
      (i_op.readlink = none →
        lofs_readlink dentry d_inode lower_inode i_op bufsiz = (-EINVAL, d_inode, []))) := by
  refine ⟨⟨?_, ?_⟩, ⟨?_, ?_⟩, ⟨?_, ?_⟩, ⟨?_, ?_⟩, ⟨?_, ?_⟩⟩
  · intro ret h
    simp [lofs_setxattr, h, inode_lock_at_lower_ops, inode_lock_after]
  · intro h
    simp [lofs_setxattr, h]
  · intro ret h
    simp [lofs_getxattr, h, inode_lock_at_lower_ops, inode_lock_after]
  · intro h
    simp [lofs_getxattr, h]
  · intro ret h
    simp [lofs_listxattr, h, inode_lock_at_lower_ops, inode_lock_after]
  · intro h
    simp [lofs_listxattr, h]
  · intro ret h
    simp [lofs_removexattr, h, inode_lock_at_lower_ops, inode_lock_after]
  · intro h
    simp [lofs_removexattr, h]
  · intro readlink h
    by_cases hr : readlink bufsiz ≥ 0
    · simp [lofs_readlink, h, hr, inode_lock_at_lower_ops]
    · simp [lofs_readlink, h, hr, inode_lock_at_lower_ops]
  · intro h
    simp [lofs_readlink, h]

/-! ### Revalidation results and writepage: claims C26 and C27 -/

/-- C26 (counterexample).  The revalidate hook of the lower dentry returns 2:
`lofs_revalidate_lower` returns 2, and `lofs_d_revalidate` of a positive overlay
dentry that agrees with the lower dentry returns 2. -/
theorem lofs_d_revalidate_forwards_hook_value :
    (lofs_revalidate_lower (sample_hooked_dentry 2) 100 none).1 = 2 ∧
    (lofs_d_revalidate (fun _ => sample_inode)
      { d_inode := some { vfs_inode := sample_inode, wii_inode := 3 },
        lower_dentry := sample_hooked_dentry 2, lower_mnt := 100 } none).1 = 2 := by
  decide

/-- C26 (amended).  `lofs_revalidate_lower` returns the result of the revalidate
hook of the lower dentry unchanged, and 1 when there is no hook;
`lofs_d_revalidate` returns that value or 0, and that value whenever it is
not positive.  So both return a positive value for a valid dentry, 0 for an
invalid one and a negative value for an error; and when the hook returns
only 1, 0 or negative values, the value returned is 1, 0 or negative. -/
theorem lofs_revalidate_returns_hook_value (lower_inodes : Nat → inode) (dentry : lofs_dentry)
    (nd : Option nameidata) :
    ((lofs_revalidate_lower dentry.lower_dentry dentry.lower_mnt nd).1 = 1 ∨
      ∃ ops hook arg, dentry.lower_dentry.d_op = some ops ∧ ops.d_revalidate = some hook ∧
        (lofs_revalidate_lower dentry.lower_dentry dentry.lower_mnt nd).1 = hook arg) ∧
    ((lofs_d_revalidate lower_inodes dentry nd).1 =
        (lofs_revalidate_lower dentry.lower_dentry dentry.lower_mnt nd).1 ∨
      (lofs_d_revalidate lower_inodes dentry nd).1 = 0) ∧
    ((lofs_revalidate_lower dentry.lower_dentry dentry.lower_mnt nd).1 ≤ 0 →
      (lofs_d_revalidate lower_inodes dentry nd).1 =
        (lofs_revalidate_lower dentry.lower_dentry dentry.lower_mnt nd).1) ∧
    ((∀ ops hook arg, dentry.lower_dentry.d_op = some ops → ops.d_revalidate = some hook →
        hook arg = 1 ∨ hook arg ≤ 0) →
      ((lofs_revalidate_lower dentry.lower_dentry dentry.lower_mnt nd).1 = 1 ∨
        (lofs_revalidate_lower dentry.lower_dentry dentry.lower_mnt nd).1 ≤ 0) ∧
      ((lofs_d_revalidate lower_inodes dentry nd).1 = 1 ∨
        (lofs_d_revalidate lower_inodes dentry nd).1 ≤ 0)) := by
  have h1 : (lofs_revalidate_lower dentry.lower_dentry dentry.lower_mnt nd).1 = 1 ∨
      ∃ ops hook arg, dentry.lower_dentry.d_op = some ops ∧ ops.d_revalidate = some hook ∧
        (lofs_revalidate_lower dentry.lower_dentry dentry.lower_mnt nd).1 = hook arg := by
    cases hop : dentry.lower_dentry.d_op with
    | none => left; simp [lofs_revalidate_lower, hop]
    | some ops =>
      cases hh : ops.d_revalidate with
      | none => left; simp [lofs_revalidate_lower, hop, hh]
      | some hook =>
        right
        cases nd with
        | none => exact ⟨ops, hook, none, rfl, hh, by simp [lofs_revalidate_lower, hop, hh]⟩
        | some n =>
          exact ⟨ops, hook, some { dentry := dentry.lower_dentry.addr, mnt := dentry.lower_mnt },
            rfl, hh, by simp [lofs_revalidate_lower, hop, hh]⟩
  have h2 : (lofs_d_revalidate lower_inodes dentry nd).1 =
        (lofs_revalidate_lower dentry.lower_dentry dentry.lower_mnt nd).1 ∨
      (lofs_d_revalidate lower_inodes dentry nd).1 = 0 := by
    unfold lofs_d_revalidate
    by_cases hr : (lofs_revalidate_lower dentry.lower_dentry dentry.lower_mnt nd).1 > 0
    · cases hi : dentry.d_inode with
      | none =>
        by_cases hl : dentry.lower_dentry.d_inode ≠ 0
        · right; simp [hr, hi, hl]
        · left; simp only [hr, hi, hl, if_true, if_false]
      | some i =>
        by_cases hw : i.wii_inode ≠ dentry.lower_dentry.d_inode ∨
            dentry.lower_dentry.d_unhashed = true
        · right; simp only [hr, hi, hw, if_true]
        · left; simp only [hr, hi, hw, if_true, if_false]
    · left; simp only [hr, if_false]
  have h3 : (lofs_revalidate_lower dentry.lower_dentry dentry.lower_mnt nd).1 ≤ 0 →
      (lofs_d_revalidate lower_inodes dentry nd).1 =
        (lofs_revalidate_lower dentry.lower_dentry dentry.lower_mnt nd).1 := by
    intro h
    have : ¬ (lofs_revalidate_lower dentry.lower_dentry dentry.lower_mnt nd).1 > 0 := by omega
    simp [lofs_d_revalidate, this]
  refine ⟨h1, h2, h3, ?_⟩
  intro hhook
  have hr : (lofs_revalidate_lower dentry.lower_dentry dentry.lower_mnt nd).1 = 1 ∨
      (lofs_revalidate_lower dentry.lower_dentry dentry.lower_mnt nd).1 ≤ 0 := by
    rcases h1 with h | ⟨ops, hook, arg, hop, hh, hv⟩
    · left; exact h
    · rw [hv]; exact hhook ops hook arg hop hh
  refine ⟨hr, ?_⟩
  rcases h2 with h | h
  · rw [h]; exact hr
  · right; omega

/-- C27 (code defect).  The claim: the lower write of `lofs_writepage` starts at
offset `index * PAGE_SIZE`.  Here, on a kernel with a 32-bit `unsigned long`,
the page has index 2^20 (offset 4 GiB) in a file of 4 GiB + 4096 bytes: the
lower write of its 4096 bytes is issued at offset 0, and `lofs_writepage`
returns 0.  On a 64-bit kernel the same write is issued at offset 2^32. -/
theorem lofs_writepage_offset_wraps_on_32_bit :
    (lofs_writepage 32 { sample_page with index := 2 ^ 20 }
        { sample_inode with i_size := 2 ^ 32 + 4096 } sample_inode_info sample_lower
        (.done 4096)).map (fun r => (r.rc, r.trace)) =
      some (0, [.mutex_lock, .vfs_write 0 4096, .mutex_unlock]) ∧
    (lofs_writepage 64 { sample_page with index := 2 ^ 20 }
        { sample_inode with i_size := 2 ^ 32 + 4096 } sample_inode_info sample_lower
        (.done 4096)).map (fun r => (r.rc, r.trace)) =
      some (0, [.mutex_lock, .vfs_write 4294967296 4096, .mutex_unlock]) ∧
    2 ^ 20 * PAGE_CACHE_SIZE = 4294967296 := by
  decide

/-- Values of the `unsigned long` range of a 64-bit kernel are unchanged by the conversion. -/
theorem to_unsigned_64_eq (n : Nat) (h : n < 2 ^ 64) : to_unsigned 64 (n : Int) = n := by
  unfold to_unsigned
  have : ((n : Int) % 2 ^ 64) = (n : Int) := by omega
  rw [this]
  simp

/-- Supplement to C27: on a 64-bit kernel `lofs_writepage` issues a lower write
exactly when the page starts before the end of the file, and the write
covers the bytes from `index * PAGE_SIZE` up to the end of the page or the
end of the file, whichever comes first. -/
theorem lofs_writepage_clamps_on_64_bit (page : page) (host : inode)
    (inode_info : lofs_inode_info) (f : file) (lower : lower_inode) (o : io_outcome)
    (hf : inode_info.lower_file = some f) (hsize : host.i_size < 2 ^ 63)
    (hidx : page.index * PAGE_CACHE_SIZE < 2 ^ 63) :
    (lofs_writepage 64 page host inode_info lower o).map (fun r => r.trace) =
      some
        (if page.index * PAGE_CACHE_SIZE < host.i_size then
          [.mutex_lock,
           .vfs_write ((page.index * PAGE_CACHE_SIZE : Nat) : Int)
             (min ((page.index + 1) * PAGE_CACHE_SIZE) host.i_size
               - page.index * PAGE_CACHE_SIZE),
           .mutex_unlock]
        else []) := by
  have hP : PAGE_CACHE_SIZE = 4096 := by decide
  have hS : (2 : Nat) ^ PAGE_CACHE_SHIFT = 4096 := by decide
  rw [hP] at hidx
  have hmax : to_unsigned 64 ((host.i_size / 2 ^ PAGE_CACHE_SHIFT : Nat) : Int) =
      host.i_size / 4096 := by
    rw [hS]
    apply to_unsigned_64_eq
    omega
  have hoff : to_signed 64 (to_unsigned 64 ((page.index : Int) * 2 ^ PAGE_CACHE_SHIFT)) =
      ((page.index * 4096 : Nat) : Int) := by
    have h0 : ((page.index : Int) * 2 ^ PAGE_CACHE_SHIFT) = ((page.index * 4096 : Nat) : Int) := by
      simp [PAGE_CACHE_SHIFT]
    rw [h0, to_unsigned_64_eq _ (by omega)]
    apply to_signed_64_eq <;> omega
  unfold lofs_writepage
  simp only [hmax, hP, hoff]
  by_cases h1 : page.index ≤ host.i_size / 4096
  · by_cases h2 : page.index = host.i_size / 4096
    · by_cases h3 : host.i_size % 4096 = 0
      · have hlt : ¬ page.index * 4096 < host.i_size := by omega
        simp [h1, h2, h3, hlt]
        omega
      · have hlt : page.index * 4096 < host.i_size := by omega
        have hlen : min ((page.index + 1) * 4096) host.i_size - page.index * 4096 =
            host.i_size % 4096 := by omega
        simp only [h1, if_true, hlt, hlen]
        simp only [if_pos h2, h3, ne_eq, not_false_eq_true, if_true, lofs_write_lower, hf]
        split <;> rfl
    · have hlt : page.index * 4096 < host.i_size := by omega
      have hlen : min ((page.index + 1) * 4096) host.i_size - page.index * 4096 = 4096 := by
        omega
      simp only [h1, if_true, hlt, hlen]
      simp only [if_neg h2, show ¬ (4096 = 0) by decide, ne_eq, not_false_eq_true, if_true,
        lofs_write_lower, hf]
      split <;> rfl
  · have hlt : ¬ page.index * 4096 < host.i_size := by omega
    simp [h1, hlt]

/-! ### Lookup locking and symbolic links: claims C28 and C29 -/

/-- C28.  At the point of `lofs_lookup` after the handling of the cached lower
dentry, on each of the four paths that reach it (nothing cached; cached and
valid; cached, invalid and invalidated; cached, invalid and not
invalidated), the lock of the inode of the lower parent directory is held
if and only if `lower_dentry` is NULL.  On the fifth path, a revalidation
error, the lookup bails out with the error and without the lock. -/
theorem lofs_lookup_holds_lock_iff_no_lower_dentry (env : lookup_env) (parent : lofs_dentry)
    (lofs_nd : Option nameidata) :
    (∀ lower_dentry evs, lofs_lookup_cached env parent lofs_nd = (.ok lower_dentry, evs) →
      (inode_lock_held parent.lower_dentry.addr false evs = true ↔ lower_dentry = none)) ∧
    (∀ rc evs, lofs_lookup_cached env parent lofs_nd = (.error rc, evs) →
      rc < 0 ∧ inode_lock_held parent.lower_dentry.addr false evs = false) ∧
    (env.d_lookup = none →
      (lofs_lookup_cached env parent lofs_nd).1 = .ok none ∧
      inode_lock_held parent.lower_dentry.addr false (lofs_lookup_cached env parent lofs_nd).2
        = true) ∧
    (∀ d, env.d_lookup = some d →
      (0 < (lofs_revalidate_lower d parent.lower_mnt lofs_nd).1 →
        (lofs_lookup_cached env parent lofs_nd).1 = .ok (some d) ∧
        inode_lock_held parent.lower_dentry.addr false
          (lofs_lookup_cached env parent lofs_nd).2 = false) ∧
      ((lofs_revalidate_lower d parent.lower_mnt lofs_nd).1 = 0 → env.d_invalidate = 0 →
        (lofs_lookup_cached env parent lofs_nd).1 = .ok none ∧
        inode_lock_held parent.lower_dentry.addr false
          (lofs_lookup_cached env parent lofs_nd).2 = true) ∧
      ((lofs_revalidate_lower d parent.lower_mnt lofs_nd).1 = 0 → env.d_invalidate ≠ 0 →
        (lofs_lookup_cached env parent lofs_nd).1 = .ok (some d) ∧
        inode_lock_held parent.lower_dentry.addr false
          (lofs_lookup_cached env parent lofs_nd).2 = false)) := by
  refine ⟨?_, ?_, ?_, ?_⟩
  · intro ld evs h
    unfold lofs_lookup_cached at h
    cases hc : env.d_lookup with
    | none =>
      simp only [hc] at h
      injection h with h1 h2
      injection h1 with h1
      rw [← h1, ← h2]
      simp [inode_lock_held]
    | some d =>
      simp only [hc] at h
      by_cases hv : (lofs_revalidate_lower d parent.lower_mnt lofs_nd).1 ≤ 0
      · by_cases hv2 : (lofs_revalidate_lower d parent.lower_mnt lofs_nd).1 < 0
        · simp [hv, hv2] at h
        · by_cases hi : env.d_invalidate = 0
          · simp only [hv, hv2, hi, if_true, if_false] at h
            injection h with h1 h2
            injection h1 with h1
            rw [← h1, ← h2]
            simp [inode_lock_held]
          · simp only [hv, hv2, hi, if_true, if_false] at h
            injection h with h1 h2
            injection h1 with h1
            rw [← h1, ← h2]
            simp [inode_lock_held]
      · simp only [hv, if_false] at h
        injection h with h1 h2
        injection h1 with h1
        rw [← h1, ← h2]
        simp [inode_lock_held]
  · intro rc evs h
    unfold lofs_lookup_cached at h
    cases hc : env.d_lookup with
    | none => simp [hc] at h
    | some d =>
      simp only [hc] at h
      by_cases hv : (lofs_revalidate_lower d parent.lower_mnt lofs_nd).1 ≤ 0
      · by_cases hv2 : (lofs_revalidate_lower d parent.lower_mnt lofs_nd).1 < 0
        · simp only [hv, hv2, if_true] at h
          injection h with h1 h2
          injection h1 with h1
          rw [← h1, ← h2]
          exact ⟨hv2, by simp [inode_lock_held]⟩
        · by_cases hi : env.d_invalidate = 0
          · simp [hv, hv2, hi] at h
          · simp [hv, hv2, hi] at h
      · simp [hv] at h
  · intro hc
    simp [lofs_lookup_cached, hc, inode_lock_held]
  · intro d hc
    refine ⟨?_, ?_, ?_⟩
    · intro hv
      have hv1 : ¬ (lofs_revalidate_lower d parent.lower_mnt lofs_nd).1 ≤ 0 := by omega
      simp [lofs_lookup_cached, hc, hv1, inode_lock_held]
    · intro hv hi
      simp [lofs_lookup_cached, hc, hv, hi, inode_lock_held]
    · intro hv hi
      simp [lofs_lookup_cached, hc, hv, hi, inode_lock_held]

/-- C29 (code defect).  The claim: the index at which `lofs_follow_link` stores
the terminating NUL lies inside the buffer of `PAGE_SIZE` bytes.  Here the
target of the link has `PAGE_SIZE` bytes, so the lower `readlink`, called with
the buffer length `PAGE_SIZE`, returns `PAGE_SIZE` (4096): `lofs_follow_link`
stores the NUL at index 4096 of its buffer of 4096 bytes, one byte past the
end, and returns 0. -/
theorem lofs_follow_link_terminator_past_buffer :
    (lofs_follow_link (sample_dentry 2 3 1 100) sample_inode sample_inode (sample_i_op 4096)
      true).trace = [.kmalloc 4096, .readlink 4096, .nd_set_link] ∧
    (lofs_follow_link (sample_dentry 2 3 1 100) sample_inode sample_inode (sample_i_op 4096)
      true).rc = 0 ∧
    (lofs_follow_link (sample_dentry 2 3 1 100) sample_inode sample_inode (sample_i_op 4096)
      true).buf_size = some 4096 ∧
    (lofs_follow_link (sample_dentry 2 3 1 100) sample_inode sample_inode (sample_i_op 4096)
      true).terminator = some 4096 ∧
    ¬ ((4096 : Int) < 4096) := by
  decide

/-- Supplement to C29: when the lower `readlink` returns `n`, not negative,
`lofs_follow_link` stores the NUL at index `n` of its buffer of `PAGE_SIZE`
bytes; the index is inside the buffer exactly when `n` is below `PAGE_SIZE`. -/
theorem lofs_follow_link_terminator (dentry : lofs_dentry) (d_inode lower_inode : inode)
    (i_op : lower_inode_operations) (readlink : Int → Int)
    (hr : i_op.readlink = some readlink) (h0 : 0 ≤ readlink (PAGE_SIZE : Nat)) :
    (lofs_follow_link dentry d_inode lower_inode i_op true).terminator =
      some (readlink (PAGE_SIZE : Nat)) ∧
    (lofs_follow_link dentry d_inode lower_inode i_op true).buf_size =
      some ((PAGE_SIZE : Nat) : Int) := by
  have hlt : ¬ readlink (PAGE_SIZE : Nat) < 0 := by omega
  simp [lofs_follow_link, lofs_readlink, hr, h0, hlt]


end Lofs

namespace Markov

/-! ### markov: claim C30 -/

/-- Order of `strncmp` along an order by `strcmp`: when `a` ends within `N` bytes and
is not above `b` by `strcmp`, then `a` is below a string on its first `K`
bytes when `b` is, and not above it when `b` is not above it. -/
theorem strncmp_mono (K : Nat) : ∀ (N : Nat) (a b p : Nat → Nat),
    (∃ i, i < N ∧ a i = 0) → strncmp a b N ≤ 0 →
    (strncmp b p K < 0 → strncmp a p K < 0) ∧ (strncmp b p K ≤ 0 → strncmp a p K ≤ 0) := by
  induction K with
  | zero => intro N a b p _ _; simp [strncmp]
  | succ K ih =>
    intro N a b p hterm hab
    obtain ⟨i, hi, hai⟩ := hterm
    cases N with
    | zero => omega
    | succ N =>
      simp only [strncmp] at hab ⊢
      by_cases hab0 : a 0 = b 0
      · by_cases hbp0 : b 0 = p 0
        · have hap0 : a 0 = p 0 := by omega
          by_cases ha0 : a 0 = 0
          · have hb0 : b 0 = 0 := by omega
            simp [hap0.symm, hbp0.symm, ha0, hb0]
          · have hb0 : ¬ b 0 = 0 := by omega
            have hi0 : i ≠ 0 := by
              intro h0
              rw [h0] at hai
              exact ha0 hai
            simp only [hab0, ne_eq, not_true_eq_false, if_false, hb0] at hab
            have hrec := ih N (fun i => a (i + 1)) (fun i => b (i + 1)) (fun i => p (i + 1))
              ⟨i - 1, by omega, by
                have : i - 1 + 1 = i := by omega
                simp only [this]
                exact hai⟩ hab
            simp only [hap0, hbp0, ne_eq, not_true_eq_false, if_false]
            have hp0 : ¬ p 0 = 0 := by omega
            simp only [hp0, if_false]
            exact hrec
        · have hap0 : ¬ a 0 = p 0 := by omega
          simp only [hbp0, hap0, ne_eq, not_false_eq_true, if_true]
          constructor <;> intro h <;> omega
      · simp only [hab0, ne_eq, not_false_eq_true, if_true] at hab
        have hlt : a 0 < b 0 := by omega
        by_cases hbp0 : b 0 = p 0
        · have hap0 : ¬ a 0 = p 0 := by omega
          simp only [hap0, ne_eq, not_false_eq_true, if_true]
          constructor <;> intro _ <;> omega
        · simp only [hbp0, ne_eq, not_false_eq_true, if_true]
          by_cases hap0 : a 0 = p 0
          · constructor <;> intro h <;> omega
          · simp only [hap0, ne_eq, not_false_eq_true, if_true]
            constructor <;> intro h <;> omega

/-- In a sorted suffix array, the entries below the probe string on their
first `K` bytes come first, and so do the entries not above it. -/
theorem suffix_array_mono (input suffixes : Nat → Nat) (bytesRead : Nat) (pre : Nat → Nat)
    (K : Nat) (hs : suffix_array_sorted input suffixes bytesRead) (i j : Nat) (hij : i ≤ j)
    (hj : j < bytesRead) :
    (strncmp (suffix input suffixes j) pre K < 0 → strncmp (suffix input suffixes i) pre K < 0) ∧
    (strncmp (suffix input suffixes j) pre K ≤ 0 →
      strncmp (suffix input suffixes i) pre K ≤ 0) := by
  obtain ⟨h0, hp, hsort⟩ := hs
  have hi : suffixes i < bytesRead := hp i (by omega)
  apply strncmp_mono K (bytesRead + 1) _ _ _ ⟨bytesRead - suffixes i, by omega, ?_⟩
    (hsort i j hij hj)
  simp only [suffix]
  have : suffixes i + (bytesRead - suffixes i) = bytesRead := by omega
  rw [this]
  exact h0

/-- The loop invariant of the search: for an input of at most 2^30 bytes the
loop ends with the boundary between the entries below the probe string and
the others. -/
theorem search_loop_spec (input suffixes : Nat → Nat) (bytesRead : Nat) (pre : Nat → Nat)
    (K : Nat) (hn : bytesRead ≤ 2 ^ 30)
    (hmono : ∀ i j, i ≤ j → j < bytesRead → strncmp (suffix input suffixes j) pre K < 0 →
      strncmp (suffix input suffixes i) pre K < 0) :
    ∀ (fuel : Nat) (l u : Int), -1 ≤ l → l < u → u ≤ bytesRead → (u - l).toNat ≤ fuel →
      (∀ m : Nat, (m : Int) ≤ l → strncmp (suffix input suffixes m) pre K < 0) →
      (∀ m : Nat, u ≤ (m : Int) → m < bytesRead →
        ¬ strncmp (suffix input suffixes m) pre K < 0) →
      ∃ r : Nat, search_loop input suffixes bytesRead pre K fuel l u = .found r ∧
        r ≤ bytesRead ∧
        (∀ m, m < r → strncmp (suffix input suffixes m) pre K < 0) ∧
        (∀ m, r ≤ m → m < bytesRead → ¬ strncmp (suffix input suffixes m) pre K < 0) := by
  intro fuel
  induction fuel with
  | zero => intro l u _ hlu _ hf; omega
  | succ fuel ih =>
    intro l u hl hlu hu hf hlow hhigh
    have h30 : ((2 : Nat) ^ 30 : Nat) = 1073741824 := by norm_num
    have hl1 : Lofs.to_signed 32 (l + 1) = l + 1 :=
      Lofs.to_signed_32_eq _ (by norm_num; omega) (by norm_num; omega)
    have hlu1 : Lofs.to_signed 32 (l + u) = l + u :=
      Lofs.to_signed_32_eq _ (by norm_num; omega) (by norm_num; omega)
    simp only [search_loop, hl1, hlu1]
    by_cases hend : l + 1 = u
    · simp only [hend, ne_eq, not_true_eq_false, if_false]
      refine ⟨u.toNat, ?_, ?_, ?_, ?_⟩
      · congr 1; omega
      · omega
      · intro m hm; exact hlow m (by omega)
      · intro m hm hmn; exact hhigh m (by omega) hmn
    · have hdiv : Int.tdiv (l + u) 2 = (l + u) / 2 := Int.tdiv_eq_ediv (by omega) (by omega)
      simp only [hend, ne_eq, not_false_eq_true, if_true, hdiv]
      have hm1 : l < (l + u) / 2 := by omega
      have hm2 : (l + u) / 2 < u := by omega
      have hb : ¬ ((l + u) / 2 < 0 ∨ (bytesRead : Int) ≤ (l + u) / 2) := by omega
      simp only [hb, if_false]
      have hcast : (((l + u) / 2).toNat : Int) = (l + u) / 2 := by omega
      by_cases hP : strncmp (suffix input suffixes ((l + u) / 2).toNat) pre K < 0
      · simp only [hP, if_true]
        apply ih ((l + u) / 2) u (by omega) hm2 hu (by omega)
        · intro m hm
          exact hmono m ((l + u) / 2).toNat (by omega) (by omega) hP
        · exact hhigh
      · simp only [hP, if_false]
        apply ih l ((l + u) / 2) hl hm1 (by omega) (by omega) hlow
        intro m hm hmn hlt
        exact hP (hmono ((l + u) / 2).toNat m (by omega) hmn hlt)

/-- Supplement to C30: for every input of at most 2^30 bytes whose suffix array
is sorted by `strcmp`, and every probe string and order `K`, the search ends,
within `bytesRead + 1` evaluations of the loop condition, with `u` the
smallest index in `[0, bytesRead]` whose suffix is not below the probe string
on its first `K` bytes (`bytesRead` if there is none); and when some suffix
matches the probe string on its first `K` bytes, `u` is the index of the
first one that does. -/
theorem main_search_finds_first_match (input suffixes : Nat → Nat) (bytesRead : Nat)
    (pre : Nat → Nat) (K : Nat) (hn : bytesRead ≤ 2 ^ 30)
    (hs : suffix_array_sorted input suffixes bytesRead) :
    ∃ u : Nat, main_search input suffixes bytesRead pre K (bytesRead + 1) = .found u ∧
      u ≤ bytesRead ∧
      (∀ m, m < u → strncmp (suffix input suffixes m) pre K < 0) ∧
      (∀ m, u ≤ m → m < bytesRead → ¬ strncmp (suffix input suffixes m) pre K < 0) ∧
      (∀ m, m < bytesRead → strncmp (suffix input suffixes m) pre K = 0 →
        u ≤ m ∧ strncmp (suffix input suffixes u) pre K = 0) := by
  have h30 : ((2 : Nat) ^ 30 : Nat) = 1073741824 := by norm_num
  have hcast : Lofs.to_signed 32 (bytesRead : Int) = bytesRead :=
    Lofs.to_signed_32_eq _ (by norm_num; omega) (by norm_num; omega)
  obtain ⟨u, hf, hu, hlow, hhigh⟩ :=
    search_loop_spec input suffixes bytesRead pre K hn
      (fun i j hij hj => (suffix_array_mono input suffixes bytesRead pre K hs i j hij hj).1)
      (bytesRead + 1) (-1) bytesRead (by omega) (by omega) (by omega) (by omega)
      (fun m hm => by omega) (fun m hm hmn => by omega)
  refine ⟨u, ?_, hu, hlow, hhigh, ?_⟩
  · simp only [main_search, hcast]
    exact hf
  · intro m hm h0
    have hum : u ≤ m := by
      by_contra hc
      have := hlow m (by omega)
      omega
    refine ⟨hum, ?_⟩
    have h1 := (suffix_array_mono input suffixes bytesRead pre K hs u m hum hm).2 (by omega)
    have h2 := hhigh u (le_refl u) (by omega)
    omega

/-- The suffix array `sample_suffixes h` of `sample_input h` is sorted by `strcmp`. -/
theorem sample_suffix_array_sorted (h : Nat) :
    suffix_array_sorted (sample_input h) (sample_suffixes h) (2 * h) := by
  refine ⟨by simp [sample_input], ?_, ?_⟩
  · intro m hm
    simp only [sample_suffixes]
    split <;> omega
  · intro i j hij hj
    simp only [strcmp, strncmp]
    by_cases hi : i < h
    · have h0 : suffix (sample_input h) (sample_suffixes h) i 0 = 0 := by
        simp only [suffix, sample_input, sample_suffixes, hi, if_true]
        have : ¬ ((2 * i + 1 + 0) < 2 * h ∧ (2 * i + 1 + 0) % 2 = 0) := by omega
        simp [this]
      rw [h0]
      split
      · simp
      · simp
    · have hjh : ¬ j < h := by omega
      have hi0 : suffix (sample_input h) (sample_suffixes h) i 0 = 98 := by
        simp only [suffix, sample_input, sample_suffixes, hi, if_false]
        have : (2 * (i - h) + 0) < 2 * h ∧ (2 * (i - h) + 0) % 2 = 0 := by omega
        rw [if_pos this]
      have hj0 : suffix (sample_input h) (sample_suffixes h) j 0 = 98 := by
        simp only [suffix, sample_input, sample_suffixes, hjh, if_false]
        have : (2 * (j - h) + 0) < 2 * h ∧ (2 * (j - h) + 0) % 2 = 0 := by omega
        rw [if_pos this]
      have hi1 : suffix (sample_input h) (sample_suffixes h) i 1 = 0 := by
        simp only [suffix, sample_input, sample_suffixes, hi, if_false]
        have : ¬ ((2 * (i - h) + 1) < 2 * h ∧ (2 * (i - h) + 1) % 2 = 0) := by omega
        simp [this]
      have hj1 : suffix (sample_input h) (sample_suffixes h) j 1 = 0 := by
        simp only [suffix, sample_input, sample_suffixes, hjh, if_false]
        have : ¬ ((2 * (j - h) + 1) < 2 * h ∧ (2 * (j - h) + 1) % 2 = 0) := by omega
        simp [this]
      rw [hi0, hj0]
      simp only [ne_eq, not_true_eq_false, if_false, show ¬ (98 = 0) by decide]
      have h2 : 2 * h = (2 * h - 1) + 1 := by omega
      rw [h2]
      simp only [strncmp, zero_add, hi1, hj1]
      simp

/-- C30 (code defect).  The claim: for every input with a sorted suffix array the
search ends with `u` at the first suffix that is not below the probe string.
Here the input has 1,500,000,000 bytes, alternately the letter b and a NUL
byte; its suffix array is sorted (750,000,000 empty strings, then
750,000,000 strings "b"); the probe string is "b" and `K = 1`.  The first
midpoint is 749,999,999, whose suffix is empty and so below the probe
string; the sum `l + u` of the second midpoint is 2,249,999,999, which does
not fit the `int` it is computed in: the midpoint is -1,022,483,648, an index
outside the suffix array. -/
theorem main_search_midpoint_overflows :
    suffix_array_sorted (sample_input 750000000) (sample_suffixes 750000000) 1500000000 ∧
    main_search (sample_input 750000000) (sample_suffixes 750000000) 1500000000 sample_b 1
        40 = .out_of_bounds (-1022483648) ∧
    search_loop (sample_input 750000000) (sample_suffixes 750000000) 1500000000 sample_b 1
        39 749999999 1500000000 = .out_of_bounds (-1022483648) ∧
    Lofs.to_signed 32 (749999999 + 1500000000) = -2044967297 :=
  ⟨sample_suffix_array_sorted 750000000, by decide, by decide, by decide⟩

end Markov
